import Mathlib

/-!
# datehumanizer: the relative-time formatter and its locale registry

A shallow embedding of `src/index.js`: the module-level object `locales`, and the
three exported functions `humanizeDate`, `addLocale` and `getSupportedLocales`
(with the private helper `formatMessage`).

Modelling choices.

* Time values of `Date` objects are integers (milliseconds) of absolute value at most
  8.64e15.  The source subtracts two of them as doubles: the exact difference is below
  `2 ^ 54` in absolute value, and it is rounded to the nearest double when it is an odd
  number above `2 ^ 53` (`roundToDouble`).  Every later step is exact in double
  arithmetic: the quotient of such a double by 1000, and of a count of seconds by 60,
  3600, ..., is either a whole number or further from the whole numbers than half
  the spacing of the doubles of its size, so `Math.floor` of the rounded quotient is
  the floor of the exact one.  These steps are done in `Int` and `Nat`, with floor
  division.
* The module-level `locales` is an ordinary JavaScript object.  A read
  `locales[k]` therefore sees own properties and the properties inherited through
  the prototype chain, `Object.keys` lists own keys only, array-index keys first, and
  the write `locales["__proto__"] = v` goes to the inherited setter.  `Locales.get`,
  `Locales.write` and `objectKeys` follow these rules.
* A locale table is an object whose prototype chain ends in `Object.prototype` and
  whose properties, own or inherited from the objects before `Object.prototype`, are
  writable data properties holding strings.  A plain object `{...}` has own properties
  only; `Object.create(t)` has none of its own and inherits those of `t`.  A read
  `t[k]` sees both kinds, `Object.keys(t)` the own ones.  Objects with getters, with
  values that are not strings, or without `Object.prototype` are not modelled, nor is a
  change the caller makes to a table after it has been stored.
* `Date.parse` and the clock behind `new Date()` belong to the host and are
  parameters (`Host`).
* `console.warn` and `console.error` only write to the console and are left out.
-/

namespace DateHumanizer

/-! ## Values -/

/-- A locale table: an object whose properties are strings.  Its own properties are
listed in creation order, then the properties of the objects on its prototype chain
before `Object.prototype`, nearest object first.  When a key is listed twice the first
entry is the property.  A plain object has no inherited entries. -/
structure Table where
  /-- Own properties, in creation order. -/
  own : List (String × String)
  /-- Properties inherited from the prototype chain before `Object.prototype`. -/
  inherited : List (String × String) := []
  deriving DecidableEq, Repr

/-- The string property a read `t[k]` finds: the own property `k`, else the inherited
one. -/
def Table.lookup (t : Table) (k : String) : Option String :=
  match t.own.lookup k with
  | some s => some s
  | none => t.inherited.lookup k

/-- The values a property read on `locales`, or on what was read from it, can give. -/
inductive Value where
  /-- The value `undefined`. -/
  | undefined
  /-- The value `null`. -/
  | null
  /-- A string. -/
  | string (s : String)
  /-- A locale table. -/
  | table (t : Table)
  /-- A function or object that every plain object inherits from `Object.prototype`. -/
  | builtin
  deriving DecidableEq, Repr

/-- JavaScript truthiness (`!!v`). -/
def Value.truthy : Value → Bool
  | .undefined => false
  | .null => false
  | .string s => s != ""
  | .table _ => true
  | .builtin => true

/-- The property names of `Object.prototype`, which every plain object inherits. -/
def objectPrototypeKeys : List String :=
  ["constructor", "__defineGetter__", "__defineSetter__", "hasOwnProperty",
   "__lookupGetter__", "__lookupSetter__", "isPrototypeOf", "propertyIsEnumerable",
   "toString", "valueOf", "__proto__", "toLocaleString"]

/-- Property read `t[k]` on a locale table: the own or inherited string property, else
what `Object.prototype` provides under that name, else `undefined`. -/
def Table.get (t : Table) (k : String) : Value :=
  match t.lookup k with
  | some s => .string s
  | none => if k ∈ objectPrototypeKeys then .builtin else .undefined

/-- The number a canonical array-index key stands for (`"0"`, `"1"`, ..., up to
`2 ^ 32 - 2`, no leading zero); `none` for every other key. -/
def arrayIndex? (k : String) : Option Nat :=
  match k.data with
  | [] => none
  | c :: cs =>
    if (c :: cs).all Char.isDigit && (c != '0' || cs.isEmpty) then
      let n := (c :: cs).foldl (fun a d => 10 * a + (d.toNat - 48)) 0
      if n ≤ 4294967294 then some n else none
    else none

/-- Keys with later repetitions removed. -/
def dedupKeys : List String → List String
  | [] => []
  | k :: ks => k :: (dedupKeys ks).filter (fun j => j != k)

/-- The keys of own properties in the order `Object.keys` reports them: array-index
keys in ascending numeric order first, then the other keys in creation order. -/
def objectKeys {α : Type} (props : List (String × α)) : List String :=
  let ks := dedupKeys (props.map Prod.fst)
  (ks.filter (fun k => (arrayIndex? k).isSome)).insertionSort
      (fun a b => (arrayIndex? a).getD 0 ≤ (arrayIndex? b).getD 0)
    ++ ks.filter (fun k => (arrayIndex? k).isNone)

/-- The call `Object.keys(t)` on a locale table: the keys of its own properties;
inherited properties are not listed. -/
def ownKeys (t : Table) : List String :=
  objectKeys t.own

/-! ## Strings -/

/-- Worker of `replaceFirst` on character lists. -/
def replaceFirstChars (pat rep : List Char) : List Char → List Char
  | [] => if pat.isEmpty then rep else []
  | c :: cs =>
    if pat.isPrefixOf (c :: cs) then rep ++ (c :: cs).drop pat.length
    else c :: replaceFirstChars pat rep cs

/-- The call `s.replace(pat, rep)` with a string pattern and a replacement without
`$`: the first occurrence of `pat` in `s` is replaced by `rep`. -/
def replaceFirst (s pat rep : String) : String :=
  ⟨replaceFirstChars pat.data rep.data s.data⟩

/-- Worker of `includes` on character lists. -/
def includesChars (pat : List Char) : List Char → Bool
  | [] => pat.isEmpty
  | c :: cs => pat.isPrefixOf (c :: cs) || includesChars pat cs

/-- The test `s.includes(pat)`: `pat` occurs in `s`. -/
def includes (s pat : String) : Bool :=
  includesChars pat.data s.data

/-- The placeholder of the templates. -/
def countToken : String := "{count}"

/-! ## The module-level state: `locales` -/

/-- `DEFAULT_LOCALE`. -/
def DEFAULT_LOCALE : String := "en"

/-- The table `locales.en` of the source. -/
def enTable : Table :=
  { own :=
    [("just_now", "just now"),
     ("seconds_ago", "{count} seconds ago"),
     ("minute_ago", "a minute ago"),
     ("minutes_ago", "{count} minutes ago"),
     ("hour_ago", "an hour ago"),
     ("hours_ago", "{count} hours ago"),
     ("yesterday", "yesterday"),
     ("days_ago", "{count} days ago"),
     ("last_week", "last week"),
     ("weeks_ago", "{count} weeks ago"),
     ("last_month", "last month"),
     ("months_ago", "{count} months ago"),
     ("last_year", "last year"),
     ("years_ago", "{count} years ago"),
     ("in_seconds", "in {count} seconds"),
     ("in_minute", "in a minute"),
     ("in_minutes", "in {count} minutes"),
     ("in_hour", "in an hour"),
     ("in_hours", "in {count} hours"),
     ("tomorrow", "tomorrow"),
     ("in_days", "in {count} days"),
     ("in_week", "in a week"),
     ("in_weeks", "in {count} weeks"),
     ("in_month", "in a month"),
     ("in_months", "in {count} months"),
     ("in_year", "in a year"),
     ("in_years", "in {count} years")] }

/-- The table `locales.es` of the source. -/
def esTable : Table :=
  { own :=
    [("just_now", "ahora mismo"),
     ("seconds_ago", "hace {count} segundos"),
     ("minute_ago", "hace un minuto"),
     ("minutes_ago", "hace {count} minutos"),
     ("hour_ago", "hace una hora"),
     ("hours_ago", "hace {count} horas"),
     ("yesterday", "ayer"),
     ("days_ago", "hace {count} días"),
     ("last_week", "la semana pasada"),
     ("weeks_ago", "hace {count} semanas"),
     ("last_month", "el mes pasado"),
     ("months_ago", "hace {count} meses"),
     ("last_year", "el año pasado"),
     ("years_ago", "hace {count} años"),
     ("in_seconds", "en {count} segundos"),
     ("in_minute", "en un minuto"),
     ("in_minutes", "en {count} minutos"),
     ("in_hour", "en una hora"),
     ("in_hours", "en {count} horas"),
     ("tomorrow", "mañana"),
     ("in_days", "en {count} días"),
     ("in_week", "en una semana"),
     ("in_weeks", "en {count} semanas"),
     ("in_month", "en un mes"),
     ("in_months", "en {count} meses"),
     ("in_year", "en un año"),
     ("in_years", "en {count} años")] }

/-- The table `locales.fr` of the source. -/
def frTable : Table :=
  { own :=
    [("just_now", "à l\x27instant"),
     ("seconds_ago", "il y a {count} secondes"),
     ("minute_ago", "il y a une minute"),
     ("minutes_ago", "il y a {count} minutes"),
     ("hour_ago", "il y a une heure"),
     ("hours_ago", "il y a {count} heures"),
     ("yesterday", "hier"),
     ("days_ago", "il y a {count} jours"),
     ("last_week", "la semaine dernière"),
     ("weeks_ago", "il y a {count} semaines"),
     ("last_month", "le mois dernier"),
     ("months_ago", "il y a {count} mois"),
     ("last_year", "l\x27année dernière"),
     ("years_ago", "il y a {count} ans"),
     ("in_seconds", "dans {count} secondes"),
     ("in_minute", "dans une minute"),
     ("in_minutes", "dans {count} minutes"),
     ("in_hour", "dans une heure"),
     ("in_hours", "dans {count} heures"),
     ("tomorrow", "demain"),
     ("in_days", "dans {count} jours"),
     ("in_week", "dans une semaine"),
     ("in_weeks", "dans {count} semaines"),
     ("in_month", "dans un mois"),
     ("in_months", "dans {count} mois"),
     ("in_year", "dans un an"),
     ("in_years", "dans {count} ans")] }

/-- The prototype of the object `locales`. -/
inductive Proto where
  /-- The prototype of every object literal, `Object.prototype`. -/
  | objectPrototype
  /-- A locale table, installed by the write `locales["__proto__"] = p`. -/
  | table (p : Table)
  /-- No prototype, after the write `locales["__proto__"] = null`. -/
  | null
  deriving DecidableEq, Repr

/-- The object `locales`: its own properties in creation order, each holding a locale
table or `null` (`none`), and its prototype. -/
structure Locales where
  /-- Own properties, in creation order; the value `none` stands for `null`. -/
  own : List (String × Option Table)
  /-- The prototype. -/
  proto : Proto := .objectPrototype
  deriving DecidableEq, Repr

/-- The value of `locales` when the module is loaded. -/
def initialLocales : Locales :=
  { own := [("en", some enTable), ("es", some esTable), ("fr", some frTable)] }

/-- Property read `locales[k]`: an own property, else a property of the prototype
chain (an installed table, then `Object.prototype`, whose `__proto__` accessor
returns the prototype of `locales`), else `undefined`. -/
def Locales.get (locales : Locales) (k : String) : Value :=
  match locales.own.lookup k with
  | some (some t) => .table t
  | some none => .null
  | none =>
    match locales.proto with
    | .table p =>
      match p.lookup k with
      | some s => .string s
      | none =>
        if k = "__proto__" then .table p
        else if k ∈ objectPrototypeKeys then .builtin else .undefined
    | .objectPrototype => if k ∈ objectPrototypeKeys then .builtin else .undefined
    | .null => .undefined

/-- Replaces the value of the own property `k`, keeping its place. -/
def replaceOwn (k : String) (v : Option Table) :
    List (String × Option Table) → List (String × Option Table)
  | [] => []
  | (j, u) :: rest => if j = k then (j, v) :: rest else (j, u) :: replaceOwn k v rest

/-- Property write `locales[k] = v` of a locale table or `null` (`none`): an existing
own property gets the new value; otherwise the key `__proto__` reaches the setter
inherited from `Object.prototype`, which makes `v` the prototype (unless `locales` has
no prototype, or the installed prototype table has a property of that name), and every
other key becomes a new own property. -/
def Locales.write (locales : Locales) (k : String) (v : Option Table) : Locales :=
  if (locales.own.lookup k).isSome then
    { locales with own := replaceOwn k v locales.own }
  else if k == "__proto__" &&
      (match locales.proto with
       | .table p => (p.lookup k).isNone
       | .objectPrototype => true
       | .null => false) then
    { locales with proto :=
        match v with
        | some t => .table t
        | none => .null }
  else
    { locales with own := locales.own ++ [(k, v)] }

/-- Property write `locales[k] = t` of a locale table. -/
def Locales.set (locales : Locales) (k : String) (t : Table) : Locales :=
  locales.write k (some t)

/-! ## Arguments -/

/-- A JavaScript number: the three non-finite values, or the finite `m * 2 ^ e`. -/
inductive JSNumber where
  /-- The value `NaN`. -/
  | nan
  /-- The value `Infinity`. -/
  | posInf
  /-- The value `-Infinity`. -/
  | negInf
  /-- The finite number `m * 2 ^ e`. -/
  | finite (m : Int) (e : Int)
  deriving DecidableEq, Repr

/-- The values a caller can pass as `date`, and as `locale` to `addLocale`. -/
inductive JSValue where
  /-- The value `undefined`. -/
  | undefined
  /-- The value `null`. -/
  | null
  /-- A boolean. -/
  | boolean (b : Bool)
  /-- A number. -/
  | number (n : JSNumber)
  /-- A string. -/
  | string (s : String)
  /-- A `Date` object with its time value; `none` is the time value `NaN`. -/
  | date (time : Option Int)
  /-- A plain object. -/
  | object (t : Table)
  deriving DecidableEq, Repr

/-- What the host provides: `Date.parse` (`none` for `NaN`) and the time value of
`new Date()`. -/
structure Host where
  /-- The function `Date.parse`. -/
  parse : String → Option Int
  /-- The time value of `new Date()`. -/
  clock : Int

/-- The time value of `new Date(n)` for a number `n`: `NaN` when `n` is not finite or
exceeds 8.64e15 in absolute value, else `n` truncated towards zero. -/
def timeClip : JSNumber → Option Int
  | .finite m e =>
    if 0 ≤ e then
      if (m * 2 ^ e.toNat).natAbs ≤ 8640000000000000 then some (m * 2 ^ e.toNat) else none
    else
      if m.natAbs ≤ 8640000000000000 * 2 ^ (-e).toNat then some (Int.tdiv m (2 ^ (-e).toNat))
      else none
  | _ => none

/-- The block "Parse the date" of `humanizeDate`: the time value of `dateObj`, or the
message of the error that is thrown and caught. -/
def toDate (host : Host) (date : JSValue) : Except String Int :=
  let dateObj : Except String (Option Int) :=
    match date with
    | .date time => .ok time
    | .number n => .ok (timeClip n)
    | .string s => .ok (host.parse s)
    | _ => .error "Invalid date format"
  match dateObj with
  | .error e => .error e
  | .ok none => .error "Invalid date"
  | .ok (some time) => .ok time

/-- A thresholds object: the properties it has. -/
structure Thresholds where
  /-- Property `second`. -/
  second : Option Int := none
  /-- Property `minute`. -/
  minute : Option Int := none
  /-- Property `hour`. -/
  hour : Option Int := none
  /-- Property `day`. -/
  day : Option Int := none
  /-- Property `week`. -/
  week : Option Int := none
  /-- Property `month`. -/
  month : Option Int := none
  /-- Property `year`. -/
  year : Option Int := none
  deriving DecidableEq, Repr

/-- `DEFAULT_THRESHOLDS`; the year bound is `Number.MAX_VALUE`. -/
def DEFAULT_THRESHOLDS : Thresholds :=
  { second := some 60, minute := some 60, hour := some 24, day := some 7,
    week := some 4, month := some 12, year := some ((2 ^ 53 - 1) * 2 ^ 971) }

/-- The spread `{ ...a, ...b }` of two thresholds objects. -/
def mergeThresholds (a b : Thresholds) : Thresholds :=
  { second := b.second.orElse (fun _ => a.second),
    minute := b.minute.orElse (fun _ => a.minute),
    hour := b.hour.orElse (fun _ => a.hour),
    day := b.day.orElse (fun _ => a.day),
    week := b.week.orElse (fun _ => a.week),
    month := b.month.orElse (fun _ => a.month),
    year := b.year.orElse (fun _ => a.year) }

/-- The `options` argument of `humanizeDate`: the properties it has.  `now`, when
given, is a valid `Date`, by its time value. -/
structure Options where
  /-- Property `locale`. -/
  locale : Option String := none
  /-- Property `thresholds`. -/
  thresholds : Option Thresholds := none
  /-- Property `includeSeconds`. -/
  includeSeconds : Option Bool := none
  /-- Property `now`. -/
  now : Option Int := none
  deriving DecidableEq, Repr

/-- The `translations` argument of `addLocale`. -/
inductive TranslationsArg where
  /-- A locale table: an object with string properties, own or inherited. -/
  | table (t : Table)
  /-- The value `null`, whose `typeof` is `"object"`. -/
  | null
  /-- A value whose `typeof` is not `"object"`. -/
  | nonObject
  deriving DecidableEq, Repr

/-! ## The functions -/

/-- How a call of `humanizeDate` ends. -/
inductive Result where
  /-- The call returns the value `v`. -/
  | returned (v : Value)
  /-- The call raises a `TypeError`. -/
  | typeError
  deriving DecidableEq, Repr

/-- The statement `return translations.key` of `humanizeDate`.  Reading a property of
`undefined` or `null` raises; a string, a function or `Object.prototype` has none of the
properties `humanizeDate` reads. -/
def returnTemplate (translations : Value) (key : String) : Result :=
  match translations with
  | .undefined => .typeError
  | .null => .typeError
  | .table t => .returned (t.get key)
  | _ => .returned .undefined

/-- `formatMessage(translations, key, count)`: `translations[key].replace("{count}",
count)`, which raises unless `translations[key]` is a string. -/
def formatMessage (translations : Value) (key : String) (count : Nat) : Result :=
  match translations with
  | .table t =>
    match t.get key with
    | .string s => .returned (.string (replaceFirst s countToken (toString count)))
    | _ => .typeError
  | _ => .typeError

/-- The condition of the "special case for custom thresholds" of `humanizeDate`:
`options.thresholds && options.thresholds.minute && diffInMinutes > 60 &&
diffInMinutes <= options.thresholds.minute`, where `minute` is
`options.thresholds && options.thresholds.minute`. -/
def minuteOverride (minute : Option Int) (diffInMinutes : Nat) : Bool :=
  match minute with
  | some m => m != 0 && decide (diffInMinutes > 60) && decide ((diffInMinutes : Int) ≤ m)
  | none => false

/-- The part of `humanizeDate` from "Calculate differences in various units" to its
end, as a function of the local variables it reads; `minute` is
`options.thresholds && options.thresholds.minute`. -/
def humanizeDiff (translations : Value) (minute : Option Int) (includeSeconds : Bool)
    (isPast : Bool) (absDiff : Nat) : Result :=
  let diffInMinutes := absDiff / 60
  let diffInHours := absDiff / (60 * 60)
  let diffInDays := absDiff / (60 * 60 * 24)
  let diffInWeeks := absDiff / (60 * 60 * 24 * 7)
  let diffInMonths := absDiff / (60 * 60 * 24 * 30)
  let diffInYears := absDiff / (60 * 60 * 24 * 365)
  if minuteOverride minute diffInMinutes then
    formatMessage translations (if isPast then "minutes_ago" else "in_minutes") diffInMinutes
  else if decide (absDiff < 5) && includeSeconds then
    returnTemplate translations "just_now"
  else if absDiff < 60 then
    formatMessage translations (if isPast then "seconds_ago" else "in_seconds") absDiff
  else if diffInMinutes < 60 then
    if diffInMinutes = 1 then
      returnTemplate translations (if isPast then "minute_ago" else "in_minute")
    else
      formatMessage translations (if isPast then "minutes_ago" else "in_minutes") diffInMinutes
  else if diffInHours < 24 then
    if diffInHours = 1 then
      returnTemplate translations (if isPast then "hour_ago" else "in_hour")
    else
      formatMessage translations (if isPast then "hours_ago" else "in_hours") diffInHours
  else if isPast && (diffInDays = 1 || (diffInHours = 24 && absDiff = 60 * 60 * 24)) then
    returnTemplate translations "yesterday"
  else if isPast && (diffInDays = 7 || (diffInHours = 168 && absDiff = 60 * 60 * 24 * 7)) then
    returnTemplate translations "last_week"
  else if isPast && (diffInDays = 21 || absDiff = 60 * 60 * 24 * 21) then
    formatMessage translations "weeks_ago" 3
  else if isPast && (diffInDays = 31 || absDiff = 60 * 60 * 24 * 31) then
    returnTemplate translations "last_month"
  else if isPast && (diffInDays = 365 || absDiff = 60 * 60 * 24 * 365) then
    returnTemplate translations "last_year"
  else if !isPast && (diffInDays = 1 || (diffInHours = 24 && absDiff = 60 * 60 * 24)) then
    returnTemplate translations "tomorrow"
  else if diffInDays < 7 then
    formatMessage translations (if isPast then "days_ago" else "in_days") diffInDays
  else if diffInWeeks < 4 then
    formatMessage translations (if isPast then "weeks_ago" else "in_weeks") diffInWeeks
  else if diffInMonths < 12 then
    formatMessage translations (if isPast then "months_ago" else "in_months") diffInMonths
  else
    formatMessage translations (if isPast then "years_ago" else "in_years") diffInYears

/-- The double nearest to the integer `x`, ties going to the even significand: what
the subtraction of two time values gives for their exact difference `x`.  Time values
are at most 8.64e15 in absolute value, so `x` is below `2 ^ 54`.  Up to
`2 ^ 53 = 9007199254740992` every integer is a double; from there to `2 ^ 54` the
doubles are the even integers, and the ones with an even significand are the multiples
of 4. -/
def roundToDouble (x : Int) : Int :=
  if x.natAbs ≤ 9007199254740992 ∨ x % 2 = 0 then x
  else if (x + 1) % 4 = 0 then x + 1
  else x - 1

/-- `humanizeDate(date, options)`, for the state `locales` of the module. -/
def humanizeDate (host : Host) (locales : Locales) (date : JSValue)
    (options : Options := {}) : Result :=
  let locale :=
    match options.locale with
    | some l => if l = "" then DEFAULT_LOCALE else l
    | none => DEFAULT_LOCALE
  let _thresholds := mergeThresholds DEFAULT_THRESHOLDS (options.thresholds.getD {})
  let includeSeconds := options.includeSeconds != some false
  let now := options.now.getD host.clock
  let translations :=
    if (locales.get locale).truthy then locales.get locale else locales.get DEFAULT_LOCALE
  match toDate host date with
  | .error _ => .returned (.string "Invalid date")
  | .ok time =>
    let diffInSeconds : Int := roundToDouble (time - now) / 1000
    let isPast : Bool := decide (diffInSeconds < 0)
    let absDiff : Nat := diffInSeconds.natAbs
    humanizeDiff translations (options.thresholds.bind (fun th => th.minute)) includeSeconds
      isPast absDiff

/-- How a call of `addLocale` ends. -/
inductive AddResult where
  /-- The call returns the boolean `b`. -/
  | returned (b : Bool)
  /-- The call raises a `TypeError`. -/
  | typeError
  deriving DecidableEq, Repr

/-- `addLocale(locale, translations)`: how the call ends and the state of `locales`
after it.  In every state the module can reach `en` is an own property of `locales`,
holding a table or `null`; `Object.keys` raises on `null`.  With `null` as
translations the filter callback raises at its first run, which there is when the
table under `en` has an own key; when it has none, nothing is missing and `null` is
stored. -/
def addLocale (locales : Locales) (locale : JSValue) (translations : TranslationsArg) :
    AddResult × Locales :=
  match locale, translations with
  | .string code, .table t =>
    match locales.get DEFAULT_LOCALE with
    | .table en =>
      let requiredKeys := ownKeys en
      let missingKeys := requiredKeys.filter (fun key => !(t.get key).truthy)
      if missingKeys.length > 0 then (.returned false, locales)
      else (.returned true, locales.set code t)
    | _ => (.typeError, locales)
  | .string code, .null =>
    match locales.get DEFAULT_LOCALE with
    | .table en =>
      let requiredKeys := ownKeys en
      if requiredKeys.length > 0 then (.typeError, locales)
      else (.returned true, locales.write code none)
    | _ => (.typeError, locales)
  | _, _ => (.returned false, locales)

/-- `getSupportedLocales()`: `Object.keys(locales)`. -/
def getSupportedLocales (locales : Locales) : List String :=
  objectKeys locales.own

/-- The registry states the module can reach: the initial one, and every state a call
of `addLocale` leaves behind. -/
inductive Reachable : Locales → Prop where
  | init : Reachable initialLocales
  | step {locales : Locales} (locale : JSValue) (translations : TranslationsArg) :
      Reachable locales → Reachable (addLocale locales locale translations).2

/-! ## Notions used in the statements -/

/-- The value of the variable `translations` of `humanizeDate`:
`locales[options.locale || DEFAULT_LOCALE] || locales[DEFAULT_LOCALE]`. -/
def translationsFor (locales : Locales) (options : Options) : Value :=
  let locale :=
    match options.locale with
    | some l => if l = "" then DEFAULT_LOCALE else l
    | none => DEFAULT_LOCALE
  if (locales.get locale).truthy then locales.get locale else locales.get DEFAULT_LOCALE

/-- The value of `diffInSeconds` in `humanizeDate` for the time value `time` of the
date: `Math.floor((time - now) / 1000)`, with the subtraction done in doubles. -/
def diffSeconds (host : Host) (options : Options) (time : Int) : Int :=
  roundToDouble (time - options.now.getD host.clock) / 1000

/-- The template keys: the keys of `locales.en` in the source, which are the keys the
specification lists as required. -/
def requiredKeys : List String :=
  ["just_now", "seconds_ago", "minute_ago", "minutes_ago", "hour_ago", "hours_ago",
   "yesterday", "days_ago", "last_week", "weeks_ago", "last_month", "months_ago",
   "last_year", "years_ago", "in_seconds", "in_minute", "in_minutes", "in_hour",
   "in_hours", "tomorrow", "in_days", "in_week", "in_weeks", "in_month", "in_months",
   "in_year", "in_years"]

/-- The table `t` has a property `k`, own or inherited, whose value is a non-empty
string. -/
def hasValue (t : Table) (k : String) : Bool :=
  match t.lookup k with
  | some s => s != ""
  | none => false

/-- The table has a non-empty value for every required key. -/
def Table.complete (t : Table) : Prop :=
  ∀ k ∈ requiredKeys, hasValue t k = true

instance (t : Table) : Decidable t.complete :=
  inferInstanceAs (Decidable (∀ k ∈ requiredKeys, hasValue t k = true))

/-- The minute threshold the caller supplied, if any:
`options.thresholds && options.thresholds.minute`. -/
def minuteThreshold (options : Options) : Option Int :=
  options.thresholds.bind (fun th => th.minute)

/-- A check on one template: it is not empty, does not begin with the letter `I`, and
has an opening brace only where its single `{count}` token begins. -/
def plainTemplate (s : String) : Bool :=
  s != "" && s.data.head? != some 'I' &&
    s.data.count '{' == (if includes s countToken then 1 else 0)

/-- The keys whose template `humanizeDate` returns as it is. -/
def verbatimKeys : List String :=
  ["just_now", "minute_ago", "in_minute", "hour_ago", "in_hour", "yesterday",
   "last_week", "last_month", "last_year", "tomorrow"]

/-- The keys whose template `humanizeDate` passes to `formatMessage`. -/
def countKeys : List String :=
  ["seconds_ago", "in_seconds", "minutes_ago", "in_minutes", "hours_ago", "in_hours",
   "days_ago", "in_days", "weeks_ago", "in_weeks", "months_ago", "in_months",
   "years_ago", "in_years"]

/-- The check `plainTemplate` on the templates `humanizeDate` uses, with no token in
those it returns as they are. -/
def plainTable (t : Table) : Bool :=
  verbatimKeys.all (fun k =>
    match t.lookup k with
    | some s => plainTemplate s && !includes s countToken
    | none => false) &&
  countKeys.all (fun k =>
    match t.lookup k with
    | some s => plainTemplate s
    | none => false)

/-- The result `r` is a template of `tr` that `humanizeDate` returns as it is, or the
outcome of `formatMessage` on a template that takes a count. -/
def FromTemplate (tr : Value) (r : Result) : Prop :=
  (∃ k ∈ verbatimKeys, r = returnTemplate tr k) ∨
    (∃ k ∈ countKeys, ∃ n, r = formatMessage tr k n)

/-- A host whose `Date.parse` rejects every string and whose clock stands at 0, for
the examples, which pass `Date` objects and the option `now`. -/
def exampleHost : Host :=
  { parse := fun _ => none, clock := 0 }

/-- The German table of the tests (`tests/index.test.js`, "should add a new locale"). -/
def deTable : Table :=
  { own :=
    [("just_now", "gerade eben"),
     ("seconds_ago", "vor {count} Sekunden"),
     ("minute_ago", "vor einer Minute"),
     ("minutes_ago", "vor {count} Minuten"),
     ("hour_ago", "vor einer Stunde"),
     ("hours_ago", "vor {count} Stunden"),
     ("yesterday", "gestern"),
     ("days_ago", "vor {count} Tagen"),
     ("last_week", "letzte Woche"),
     ("weeks_ago", "vor {count} Wochen"),
     ("last_month", "letzten Monat"),
     ("months_ago", "vor {count} Monaten"),
     ("last_year", "letztes Jahr"),
     ("years_ago", "vor {count} Jahren"),
     ("in_seconds", "in {count} Sekunden"),
     ("in_minute", "in einer Minute"),
     ("in_minutes", "in {count} Minuten"),
     ("in_hour", "in einer Stunde"),
     ("in_hours", "in {count} Stunden"),
     ("tomorrow", "morgen"),
     ("in_days", "in {count} Tagen"),
     ("in_week", "in einer Woche"),
     ("in_weeks", "in {count} Wochen"),
     ("in_month", "in einem Monat"),
     ("in_months", "in {count} Monaten"),
     ("in_year", "in einem Jahr"),
     ("in_years", "in {count} Jahren")] }

/-- The incomplete Italian table of the tests ("should fail to add an incomplete
locale"). -/
def itTable : Table :=
  { own :=
    [("just_now", "proprio ora"),
     ("seconds_ago", "{count} secondi fa")] }

/-! ## The path taken -/

/-- What one path through `humanizeDate` hands on: the key of the template and, when
the template goes through `formatMessage`, the count. -/
structure Choice where
  /-- The key of the template. -/
  key : String
  /-- The count passed to `formatMessage`; `none` when the template is returned as it
  is. -/
  count : Option Nat
  deriving DecidableEq, Repr

/-- The result for a choice: `return translations[key]`, or
`formatMessage(translations, key, count)`. -/
def Choice.render (tr : Value) (c : Choice) : Result :=
  match c.count with
  | none => returnTemplate tr c.key
  | some n => formatMessage tr c.key n

/-- The key and the count on each path of `humanizeDiff`: the same chain of tests, with
the choice in place of the result (`humanizeDiff_render` relates the two). -/
def choice (minute : Option Int) (includeSeconds : Bool) (isPast : Bool) (absDiff : Nat) :
    Choice :=
  let diffInMinutes := absDiff / 60
  let diffInHours := absDiff / (60 * 60)
  let diffInDays := absDiff / (60 * 60 * 24)
  let diffInWeeks := absDiff / (60 * 60 * 24 * 7)
  let diffInMonths := absDiff / (60 * 60 * 24 * 30)
  let diffInYears := absDiff / (60 * 60 * 24 * 365)
  if minuteOverride minute diffInMinutes then
    ⟨if isPast then "minutes_ago" else "in_minutes", some diffInMinutes⟩
  else if decide (absDiff < 5) && includeSeconds then
    ⟨"just_now", none⟩
  else if absDiff < 60 then
    ⟨if isPast then "seconds_ago" else "in_seconds", some absDiff⟩
  else if diffInMinutes < 60 then
    if diffInMinutes = 1 then
      ⟨if isPast then "minute_ago" else "in_minute", none⟩
    else
      ⟨if isPast then "minutes_ago" else "in_minutes", some diffInMinutes⟩
  else if diffInHours < 24 then
    if diffInHours = 1 then
      ⟨if isPast then "hour_ago" else "in_hour", none⟩
    else
      ⟨if isPast then "hours_ago" else "in_hours", some diffInHours⟩
  else if isPast && (diffInDays = 1 || (diffInHours = 24 && absDiff = 60 * 60 * 24)) then
    ⟨"yesterday", none⟩
  else if isPast && (diffInDays = 7 || (diffInHours = 168 && absDiff = 60 * 60 * 24 * 7)) then
    ⟨"last_week", none⟩
  else if isPast && (diffInDays = 21 || absDiff = 60 * 60 * 24 * 21) then
    ⟨"weeks_ago", some 3⟩
  else if isPast && (diffInDays = 31 || absDiff = 60 * 60 * 24 * 31) then
    ⟨"last_month", none⟩
  else if isPast && (diffInDays = 365 || absDiff = 60 * 60 * 24 * 365) then
    ⟨"last_year", none⟩
  else if !isPast && (diffInDays = 1 || (diffInHours = 24 && absDiff = 60 * 60 * 24)) then
    ⟨"tomorrow", none⟩
  else if diffInDays < 7 then
    ⟨if isPast then "days_ago" else "in_days", some diffInDays⟩
  else if diffInWeeks < 4 then
    ⟨if isPast then "weeks_ago" else "in_weeks", some diffInWeeks⟩
  else if diffInMonths < 12 then
    ⟨if isPast then "months_ago" else "in_months", some diffInMonths⟩
  else
    ⟨if isPast then "years_ago" else "in_years", some diffInYears⟩

/-- The choice of `humanizeDate` for the time value `time` of the date. -/
def choiceFor (host : Host) (options : Options) (time : Int) : Choice :=
  choice (minuteThreshold options) (options.includeSeconds != some false)
    (decide (diffSeconds host options time < 0)) (diffSeconds host options time).natAbs

/-- The pairs of a past key and its future counterpart, with `just_now` for both
directions. -/
def counterparts : List (String × String) :=
  [("seconds_ago", "in_seconds"), ("minute_ago", "in_minute"),
   ("minutes_ago", "in_minutes"), ("hour_ago", "in_hour"), ("hours_ago", "in_hours"),
   ("yesterday", "tomorrow"), ("days_ago", "in_days"), ("weeks_ago", "in_weeks"),
   ("months_ago", "in_months"), ("years_ago", "in_years"), ("just_now", "just_now")]

/-- Worker of `occurrences` on character lists. -/
def occurrencesChars (pat : List Char) : List Char → Nat
  | [] => if pat.isEmpty then 1 else 0
  | c :: cs => (if pat.isPrefixOf (c :: cs) then 1 else 0) + occurrencesChars pat cs

/-- The number of places in `s` where `pat` occurs. -/
def occurrences (s pat : String) : Nat :=
  occurrencesChars pat.data s.data

/-- The German table of the tests with a `{count}` token in the singular template
`minute_ago`. -/
def deTableCounted : Table :=
  { own := deTable.own.map
      (fun p => if p.1 = "minute_ago" then (p.1, "vor {count} Minute") else p) }

/-- The table `locales.en` of the source with one more key. -/
def enTableExtended : Table :=
  { own := enTable.own ++ [("extra", "x")] }

/-- The object `Object.create(en)` for the table `en` of the source: no property of its
own, and the 27 templates of `en` inherited. -/
def enTableInherited : Table :=
  { own := [], inherited := enTable.own }

/-- The object `{}`. -/
def emptyTable : Table :=
  { own := [] }

/-- The object `{ seconds_ago: "x" }`. -/
def secondsOnlyTable : Table :=
  { own := [("seconds_ago", "x")] }

/-- The keys of the singular templates for a future week, month and year. -/
def futureSingularKeys : List String :=
  ["in_week", "in_month", "in_year"]

/-- The properties `ps` with another value under each of the keys `keys`. -/
def alterProps (keys : List String) (v : String) (ps : List (String × String)) :
    List (String × String) :=
  ps.map (fun p => if p.1 ∈ keys then (p.1, v) else p)

/-- The table `t` with another value under each of the keys `keys`. -/
def alterTable (keys : List String) (v : String) (t : Table) : Table :=
  { own := alterProps keys v t.own, inherited := alterProps keys v t.inherited }

/-- The table `locales.en` of the source with other templates for `in_week`, `in_month`
and `in_year`. -/
def enTableAltered : Table :=
  alterTable futureSingularKeys "soon" enTable

/-! ## Decimal strings -/

theorem digitChar_isDigit (d : Nat) (h : d < 10) : (Nat.digitChar d).isDigit = true := by
  interval_cases d <;> rfl

theorem toDigitsCore_isDigit (f : Nat) : ∀ (n : Nat) (acc : List Char),
    (∀ c ∈ acc, c.isDigit = true) → ∀ c ∈ Nat.toDigitsCore 10 f n acc, c.isDigit = true := by
  induction f with
  | zero => intro n acc hacc c hc; exact hacc c (by simpa [Nat.toDigitsCore] using hc)
  | succ f ih =>
    intro n acc hacc c hc
    have hd : (Nat.digitChar (n % 10)).isDigit = true :=
      digitChar_isDigit _ (Nat.mod_lt _ (by decide))
    have hacc2 : ∀ c ∈ Nat.digitChar (n % 10) :: acc, c.isDigit = true := by
      intro c hc
      rcases List.mem_cons.1 hc with h | h
      · rw [h]; exact hd
      · exact hacc c h
    unfold Nat.toDigitsCore at hc
    by_cases h0 : n / 10 = 0
    · simp only [h0, if_true] at hc
      exact hacc2 c hc
    · simp only [h0, if_false] at hc
      exact ih _ _ hacc2 c hc

theorem toDigitsCore_ne_nil (f : Nat) : ∀ (n : Nat) (acc : List Char),
    Nat.toDigitsCore 10 (f + 1) n acc ≠ [] := by
  induction f with
  | zero =>
    intro n acc
    unfold Nat.toDigitsCore
    by_cases h0 : n / 10 = 0 <;> simp [h0, Nat.toDigitsCore]
  | succ f ih =>
    intro n acc
    unfold Nat.toDigitsCore
    by_cases h0 : n / 10 = 0
    · simp [h0]
    · simp only [h0, if_false]
      exact ih _ _

/-- The decimal string of a count consists of digits. -/
theorem toString_isDigit (n : Nat) : ∀ c ∈ (toString n).data, c.isDigit = true := by
  intro c hc
  have : (toString n).data = Nat.toDigitsCore 10 (n + 1) n [] := rfl
  rw [this] at hc
  exact toDigitsCore_isDigit _ _ _ (by simp) c hc

/-- The decimal string of a count is not empty. -/
theorem toString_ne_nil (n : Nat) : (toString n).data ≠ [] := by
  have : (toString n).data = Nat.toDigitsCore 10 (n + 1) n [] := rfl
  rw [this]
  exact toDigitsCore_ne_nil _ _ _

/-! ## Replacing the first occurrence -/

theorem isPrefixOf_append_drop (pat l : List Char) (h : pat.isPrefixOf l = true) :
    l = pat ++ l.drop pat.length := by
  have h2 : pat <+: l := List.isPrefixOf_iff_prefix.1 h
  obtain ⟨r, hr⟩ := h2
  subst hr
  simp

theorem includesChars_mem (p : Char) (ps l : List Char)
    (h : includesChars (p :: ps) l = true) : p ∈ l := by
  induction l with
  | nil => simp [includesChars] at h
  | cons c cs ih =>
    unfold includesChars at h
    rcases Bool.or_eq_true_iff.1 h with h1 | h1
    · have := isPrefixOf_append_drop _ _ h1
      rw [this]; simp
    · exact List.mem_cons_of_mem _ (ih h1)

theorem replaceFirstChars_of_not_includes (pat rep l : List Char)
    (h : includesChars pat l = false) : replaceFirstChars pat rep l = l := by
  induction l with
  | nil => simp [includesChars] at h; simp [replaceFirstChars, h]
  | cons c cs ih =>
    unfold includesChars at h
    obtain ⟨h1, h2⟩ := Bool.or_eq_false_iff.1 h
    unfold replaceFirstChars
    simp [h1, ih h2]

theorem replaceFirstChars_count (pat rep l : List Char) (x : Char)
    (h : includesChars pat l = true) :
    (replaceFirstChars pat rep l).count x + pat.count x = l.count x + rep.count x := by
  induction l with
  | nil =>
    simp [includesChars] at h
    simp [replaceFirstChars, h]
  | cons c cs ih =>
    unfold replaceFirstChars
    by_cases hp : pat.isPrefixOf (c :: cs) = true
    · simp only [hp, if_true]
      have hl := isPrefixOf_append_drop _ _ hp
      generalize (c :: cs).drop pat.length = rest at hl ⊢
      rw [hl]
      simp only [List.count_append]
      omega
    · rw [if_neg hp]
      unfold includesChars at h
      have h2 : includesChars pat cs = true := by
        rcases Bool.or_eq_true_iff.1 h with h1 | h1
        · exact absurd h1 hp
        · exact h1
      have := ih h2
      simp only [List.count_cons]
      omega

theorem replaceFirstChars_head (pat rep : List Char) (c : Char) (cs : List Char) :
    (replaceFirstChars pat rep (c :: cs)).head? = some c ∨
      (rep ≠ [] ∧ (replaceFirstChars pat rep (c :: cs)).head? = rep.head?) ∨
      (rep = [] ∧ pat.isPrefixOf (c :: cs) = true) := by
  unfold replaceFirstChars
  by_cases hp : pat.isPrefixOf (c :: cs) = true
  · simp only [hp, if_true]
    cases rep with
    | nil => right; right; exact ⟨rfl, trivial⟩
    | cons r rs => right; left; simp
  · simp only [hp, if_false]; left; rfl

/-- What `formatMessage` makes of a plain template: a non-empty string without a token
that is not the sentinel `Invalid date`. -/
theorem replaceFirst_plain (s : String) (n : Nat) (h : plainTemplate s = true) :
    replaceFirst s countToken (toString n) ≠ "" ∧
      includes (replaceFirst s countToken (toString n)) countToken = false ∧
      replaceFirst s countToken (toString n) ≠ "Invalid date" := by
  unfold plainTemplate at h
  simp only [Bool.and_eq_true, bne_iff_ne, ne_eq, beq_iff_eq] at h
  obtain ⟨⟨hne, hhead⟩, hcount⟩ := h
  have hdig := toString_isDigit n
  have hnil := toString_ne_nil n
  obtain ⟨l⟩ := s
  have hl : l ≠ [] := by
    intro h0; apply hne; rw [h0]
  simp only [includes, replaceFirst] at hcount ⊢
  generalize (toString n).data = rep at hdig hnil
  have hhd : (replaceFirstChars countToken.data rep l).head? ≠ some 'I' ∧
      replaceFirstChars countToken.data rep l ≠ [] := by
    cases l with
    | nil => exact absurd rfl hl
    | cons c cs =>
      rcases replaceFirstChars_head countToken.data rep c cs with h1 | ⟨_, h1⟩ | ⟨h1, _⟩
      · constructor
        · rw [h1]; simpa using hhead
        · intro h0; rw [h0] at h1; exact absurd h1 (by simp)
      · cases rep with
        | nil => exact absurd rfl hnil
        | cons r rs =>
          constructor
          · rw [h1]
            simp only [List.head?_cons, ne_eq, Option.some.injEq]
            intro hr
            have := hdig r (by simp)
            rw [hr] at this
            exact absurd this (by decide)
          · intro h0; rw [h0] at h1; simp at h1
      · exact absurd h1 hnil
  have hbrace : (replaceFirstChars countToken.data rep l).count '{' = 0 := by
    have hrep : rep.count '{' = 0 := by
      rw [List.count_eq_zero]
      intro hm
      exact absurd (hdig _ hm) (by decide)
    by_cases hi : includesChars countToken.data l = true
    · have := replaceFirstChars_count countToken.data rep l '{' hi
      simp only [hi, if_true] at hcount
      have htok : countToken.data.count '{' = 1 := by decide
      omega
    · have hi2 : includesChars countToken.data l = false := by simpa using hi
      rw [replaceFirstChars_of_not_includes _ _ _ hi2]
      simpa [hi2] using hcount
  refine ⟨?_, ?_, ?_⟩
  · intro h0
    apply hhd.2
    have := congrArg String.data h0
    simpa using this
  · by_contra hc
    have hc2 : includesChars countToken.data (replaceFirstChars countToken.data rep l) = true := by
      simpa using hc
    have hm := includesChars_mem '{' _ _ hc2
    exact absurd hbrace (by
      intro h0
      rw [List.count_eq_zero] at h0
      exact h0 hm)
  · intro h0
    apply hhd.1
    have := congrArg String.data h0
    simp only at this
    rw [this]; rfl

/-- A plain template that is returned as it is: not empty and not the sentinel. -/
theorem plainTemplate_verbatim (s : String) (h : plainTemplate s = true) :
    s ≠ "" ∧ s ≠ "Invalid date" := by
  unfold plainTemplate at h
  simp only [Bool.and_eq_true, bne_iff_ne, ne_eq, beq_iff_eq] at h
  obtain ⟨⟨hne, hhead⟩, _⟩ := h
  refine ⟨hne, ?_⟩
  intro h0
  apply hhead
  rw [h0]; rfl

/-! ## The two halves of `humanizeDate` -/

/-- When the date cannot be parsed, `humanizeDate` returns the sentinel. -/
theorem humanizeDate_error (host : Host) (locales : Locales) (date : JSValue)
    (options : Options) (e : String) (h : toDate host date = .error e) :
    humanizeDate host locales date options = .returned (.string "Invalid date") := by
  simp only [humanizeDate, h]

/-- When the date is parsed, `humanizeDate` is `humanizeDiff` on its local variables. -/
theorem humanizeDate_ok (host : Host) (locales : Locales) (date : JSValue)
    (options : Options) (time : Int) (h : toDate host date = .ok time) :
    humanizeDate host locales date options =
      humanizeDiff (translationsFor locales options) (minuteThreshold options)
        (options.includeSeconds != some false)
        (decide (diffSeconds host options time < 0)) (diffSeconds host options time).natAbs := by
  simp only [humanizeDate, h, translationsFor, minuteThreshold, diffSeconds]

/-- The subtraction of two time values is exact when the difference is at most `2 ^ 53`
in absolute value. -/
theorem roundToDouble_of_le (x : Int) (h : x.natAbs ≤ 9007199254740992) :
    roundToDouble x = x := by
  unfold roundToDouble
  rw [if_pos (Or.inl h)]

/-- The subtraction of two time values is exact when the difference is even. -/
theorem roundToDouble_of_even (x : Int) (h : x % 2 = 0) : roundToDouble x = x := by
  unfold roundToDouble
  rw [if_pos (Or.inr h)]

/-- For two time values at most `2 ^ 53` ms apart `diffInSeconds` is the floor of the
exact quotient. -/
theorem diffSeconds_exact (host : Host) (options : Options) (time : Int)
    (h : (time - options.now.getD host.clock).natAbs ≤ 9007199254740992) :
    diffSeconds host options time = (time - options.now.getD host.clock) / 1000 := by
  unfold diffSeconds
  rw [roundToDouble_of_le _ h]

/-- Reading a template of a table. -/
theorem returnTemplate_table (t : Table) (k s : String) (h : t.lookup k = some s) :
    returnTemplate (.table t) k = .returned (.string s) := by
  simp only [returnTemplate, Table.get, h]

/-- Formatting a template of a table. -/
theorem formatMessage_table (t : Table) (k s : String) (n : Nat) (h : t.lookup k = some s) :
    formatMessage (.table t) k n
      = .returned (.string (replaceFirst s countToken (toString n))) := by
  simp only [formatMessage, Table.get, h]

theorem fromTemplate_ite (tr : Value) (c : Prop) [Decidable c] (x y : Result)
    (hx : FromTemplate tr x) (hy : FromTemplate tr y) :
    FromTemplate tr (if c then x else y) := by
  split_ifs <;> assumption

theorem fromTemplate_return (tr : Value) (k : String) (hk : k ∈ verbatimKeys) :
    FromTemplate tr (returnTemplate tr k) := Or.inl ⟨k, hk, rfl⟩

theorem fromTemplate_format (tr : Value) (k : String) (n : Nat) (hk : k ∈ countKeys) :
    FromTemplate tr (formatMessage tr k n) := Or.inr ⟨k, hk, n, rfl⟩

/-- Every path through the buckets ends in one of the templates. -/
theorem humanizeDiff_fromTemplate (tr : Value) (minute : Option Int) (inc past : Bool)
    (a : Nat) : FromTemplate tr (humanizeDiff tr minute inc past a) := by
  unfold humanizeDiff
  dsimp only
  cases past <;>
    repeat' first
      | apply fromTemplate_ite
      | exact fromTemplate_return _ _ (by decide)
      | exact fromTemplate_format _ _ _ (by decide)

/-- On a table that passes `plainTable`, every result is a non-empty string without a
token, and not the sentinel. -/
theorem fromTemplate_plainTable (t : Table) (r : Result) (ht : plainTable t = true)
    (h : FromTemplate (.table t) r) :
    ∃ s, r = .returned (.string s) ∧ s ≠ "" ∧ includes s countToken = false ∧
      s ≠ "Invalid date" := by
  unfold plainTable at ht
  rw [Bool.and_eq_true, List.all_eq_true, List.all_eq_true] at ht
  obtain ⟨hv, hc⟩ := ht
  rcases h with ⟨k, hk, hr⟩ | ⟨k, hk, n, hr⟩
  · have h1 := hv k hk
    cases hl : t.lookup k with
    | none => rw [hl] at h1; exact absurd h1 (by simp)
    | some s =>
      rw [hl] at h1
      simp only [Bool.and_eq_true, Bool.not_eq_true'] at h1
      obtain ⟨hp, hi⟩ := h1
      obtain ⟨hne, hinv⟩ := plainTemplate_verbatim s hp
      exact ⟨s, by rw [hr, returnTemplate_table t k s hl], hne, hi, hinv⟩
  · have h1 := hc k hk
    cases hl : t.lookup k with
    | none => rw [hl] at h1; exact absurd h1 (by simp)
    | some s =>
      rw [hl] at h1
      obtain ⟨hne, hi, hinv⟩ := replaceFirst_plain s n h1
      exact ⟨_, by rw [hr, formatMessage_table t k s n hl], hne, hi, hinv⟩

/-- The tables of the source pass `plainTable`. -/
theorem plainTable_builtin : plainTable enTable = true ∧ plainTable esTable = true ∧
    plainTable frTable = true := by
  refine ⟨by decide, by decide, by decide⟩

/-- With the initial registry the codes `en`, `es`, `fr` (and an absent or empty code)
select the tables of the source. -/
theorem translationsFor_builtin (options : Options)
    (h : options.locale ∈ [none, some "", some "en", some "es", some "fr"]) :
    translationsFor initialLocales options = .table enTable ∨
      translationsFor initialLocales options = .table esTable ∨
      translationsFor initialLocales options = .table frTable := by
  simp only [List.mem_cons, List.mem_singleton, List.not_mem_nil, or_false] at h
  rcases h with h | h | h | h | h <;> simp only [translationsFor, h]
  · left; decide
  · left; decide
  · left; decide
  · right; left; decide
  · right; right; decide

/-- With a built-in locale and a date that parses, `humanizeDate` returns a non-empty
string without a token, different from the sentinel. -/
theorem humanizeDate_builtin (host : Host) (date : JSValue) (options : Options)
    (time : Int) (hdate : toDate host date = .ok time)
    (hloc : options.locale ∈ [none, some "", some "en", some "es", some "fr"]) :
    ∃ s, humanizeDate host initialLocales date options = .returned (.string s) ∧ s ≠ "" ∧
      includes s countToken = false ∧ s ≠ "Invalid date" := by
  rw [humanizeDate_ok host initialLocales date options time hdate]
  have hshape := humanizeDiff_fromTemplate (translationsFor initialLocales options)
    (minuteThreshold options) (options.includeSeconds != some false)
    (decide (diffSeconds host options time < 0)) (diffSeconds host options time).natAbs
  obtain ⟨hen, hes, hfr⟩ := plainTable_builtin
  rcases translationsFor_builtin options hloc with h | h | h <;> rw [h] at hshape ⊢
  · exact fromTemplate_plainTable _ _ hen hshape
  · exact fromTemplate_plainTable _ _ hes hshape
  · exact fromTemplate_plainTable _ _ hfr hshape

/-! ## Keys of an object -/

theorem mem_dedupKeys (k : String) : ∀ l : List String, k ∈ dedupKeys l ↔ k ∈ l := by
  intro l
  induction l with
  | nil => simp [dedupKeys]
  | cons j js ih =>
    simp only [dedupKeys, List.mem_cons, List.mem_filter, ih, bne_iff_ne, ne_eq]
    constructor
    · rintro (h | ⟨h, _⟩)
      · exact Or.inl h
      · exact Or.inr h
    · intro h
      by_cases hk : k = j
      · exact Or.inl hk
      · rcases h with h | h
        · exact absurd h hk
        · exact Or.inr ⟨h, hk⟩

theorem nodup_dedupKeys : ∀ l : List String, (dedupKeys l).Nodup := by
  intro l
  induction l with
  | nil => simp [dedupKeys]
  | cons j js ih =>
    simp only [dedupKeys, List.nodup_cons, List.mem_filter, bne_iff_ne, ne_eq, not_and,
      not_not]
    exact ⟨fun _ => trivial, ih.filter _⟩

theorem dedupKeys_append_singleton (c : String) : ∀ l : List String,
    dedupKeys (l ++ [c]) = dedupKeys l ++ (if c ∈ l then [] else [c]) := by
  intro l
  induction l with
  | nil => simp [dedupKeys]
  | cons j js ih =>
    show j :: (dedupKeys (js ++ [c])).filter (fun i => i != j)
      = (j :: (dedupKeys js).filter (fun i => i != j)) ++ (if c ∈ j :: js then [] else [c])
    rw [ih, List.filter_append]
    by_cases hcj : c = j
    · subst hcj
      by_cases hc : c ∈ js <;> simp [hc]
    · by_cases hc : c ∈ js
      · simp [hc]
      · simp [hc, hcj]

/-- A key is reported by `Object.keys` exactly when it is an own property. -/
theorem mem_objectKeys {α : Type} (props : List (String × α)) (k : String) :
    k ∈ objectKeys props ↔ k ∈ props.map Prod.fst := by
  unfold objectKeys
  rw [List.mem_append, (List.perm_insertionSort _ _).mem_iff, List.mem_filter,
    List.mem_filter, mem_dedupKeys]
  cases h : arrayIndex? k with
  | none => simp only [Option.isSome_none, Option.isNone_none]; tauto
  | some n => simp only [Option.isSome_some, Option.isNone_some]; tauto

/-- The list `Object.keys` reports has no duplicates. -/
theorem nodup_objectKeys {α : Type} (props : List (String × α)) :
    (objectKeys props).Nodup := by
  unfold objectKeys
  rw [List.nodup_append]
  refine ⟨?_, ?_, ?_⟩
  · exact (List.perm_insertionSort _ _).nodup_iff.2 ((nodup_dedupKeys _).filter _)
  · exact (nodup_dedupKeys _).filter _
  · intro a h1 h2
    rw [(List.perm_insertionSort _ _).mem_iff, List.mem_filter] at h1
    rw [List.mem_filter] at h2
    cases h : arrayIndex? a <;> simp [h] at h1 h2

theorem lookup_isSome_iff {β : Type} (k : String) : ∀ l : List (String × β),
    (l.lookup k).isSome = true ↔ k ∈ l.map Prod.fst := by
  intro l
  induction l with
  | nil => simp
  | cons p ps ih =>
    obtain ⟨j, v⟩ := p
    by_cases h : k = j
    · subst h; simp [List.lookup]
    · have h2 : (k == j) = false := by simpa using h
      simp [List.lookup, h2, ih, h]

theorem lookup_mem {β : Type} (k : String) (v : β) : ∀ l : List (String × β),
    l.lookup k = some v → (k, v) ∈ l := by
  intro l
  induction l with
  | nil => simp
  | cons p ps ih =>
    obtain ⟨j, w⟩ := p
    intro h
    by_cases hk : k = j
    · subst hk
      simp [List.lookup] at h
      subst h; simp
    · have h2 : (k == j) = false := by simpa using hk
      simp only [List.lookup, h2] at h
      exact List.mem_cons_of_mem _ (ih h)

theorem map_fst_replaceOwn (k : String) (t : Option Table) :
    ∀ l : List (String × Option Table),
    (replaceOwn k t l).map Prod.fst = l.map Prod.fst := by
  intro l
  induction l with
  | nil => rfl
  | cons p ps ih =>
    obtain ⟨j, u⟩ := p
    unfold replaceOwn
    by_cases h : j = k <;> simp [h, ih]

theorem lookup_replaceOwn_self (k : String) (t : Option Table) :
    ∀ l : List (String × Option Table),
    (l.lookup k).isSome = true → (replaceOwn k t l).lookup k = some t := by
  intro l
  induction l with
  | nil => simp
  | cons p ps ih =>
    obtain ⟨j, w⟩ := p
    intro h
    unfold replaceOwn
    by_cases hj : j = k
    · subst hj; simp [List.lookup]
    · have h2 : (k == j) = false := by simpa using (Ne.symm hj)
      simp only [List.lookup, h2] at h
      simp only [hj, if_false, List.lookup, h2]
      exact ih h

theorem lookup_replaceOwn_other (k c : String) (t : Option Table) (hc : c ≠ k) :
    ∀ l : List (String × Option Table), (replaceOwn k t l).lookup c = l.lookup c := by
  intro l
  induction l with
  | nil => rfl
  | cons p ps ih =>
    obtain ⟨j, w⟩ := p
    unfold replaceOwn
    by_cases hj : j = k
    · subst hj
      have h2 : (c == j) = false := by simpa using hc
      simp [List.lookup, h2]
    · simp only [hj, if_false]
      by_cases hcj : c = j
      · subst hcj; simp [List.lookup]
      · have h2 : (c == j) = false := by simpa using hcj
        simp [List.lookup, h2, ih]

theorem lookup_append_singleton {β : Type} (k c : String) (v : β) :
    ∀ l : List (String × β), (l ++ [(k, v)]).lookup c =
      match l.lookup c with
      | some w => some w
      | none => if c = k then some v else none := by
  intro l
  induction l with
  | nil =>
    by_cases h : c = k
    · subst h; simp [List.lookup]
    · have h2 : (c == k) = false := by simpa using h
      simp [List.lookup, h2, h]
  | cons p ps ih =>
    obtain ⟨j, w⟩ := p
    by_cases hcj : c = j
    · subst hcj; simp [List.lookup]
    · have h2 : (c == j) = false := by simpa using hcj
      show List.lookup c ((j, w) :: (ps ++ [(k, v)])) = _
      simp only [List.lookup, h2, ih]

/-! ## The registry -/

theorem requiredKeys_not_builtin : ∀ k ∈ requiredKeys, k ∉ objectPrototypeKeys := by
  decide

/-- A key is reported by `Object.keys` of a table exactly when it is an own property. -/
theorem mem_ownKeys (t : Table) (k : String) : k ∈ ownKeys t ↔ k ∈ t.own.map Prod.fst :=
  mem_objectKeys t.own k

/-- For a required key the test `!translations[key]` asks for a non-empty string,
own or inherited. -/
theorem truthy_get_required (t : Table) (k : String) (hk : k ∈ requiredKeys) :
    (t.get k).truthy = hasValue t k := by
  have hn := requiredKeys_not_builtin k hk
  unfold Table.get hasValue
  cases t.lookup k with
  | none => simp [hn, Value.truthy]
  | some s => simp [Value.truthy]

/-- A table that passes the check of `addLocale` against a default table that has the
required keys as own keys is complete. -/
theorem complete_of_validated (en t : Table) (hen : ∀ k ∈ requiredKeys, k ∈ ownKeys en)
    (h : ∀ k ∈ ownKeys en, (t.get k).truthy = true) : t.complete := by
  intro k hk
  rw [← truthy_get_required t k hk]
  exact h k (hen k hk)

/-- The outcome of `addLocale` on a string and a table, when `locales.en` is a table. -/
theorem addLocale_table (locales : Locales) (code : String) (t en : Table)
    (hen : locales.get DEFAULT_LOCALE = .table en) :
    addLocale locales (.string code) (.table t) =
      if ∀ k ∈ ownKeys en, (t.get k).truthy = true then (.returned true, locales.set code t)
      else (.returned false, locales) := by
  simp only [addLocale, hen]
  by_cases h : ∀ k ∈ ownKeys en, (t.get k).truthy = true
  · have h0 : (ownKeys en).filter (fun key => !(t.get key).truthy) = [] := by
      rw [List.filter_eq_nil_iff]
      intro k hk
      simp [h k hk]
    simp only [h0, List.length_nil, gt_iff_lt, lt_self_iff_false, if_false]
    rw [if_pos h]
  · have h0 : ((ownKeys en).filter (fun key => !(t.get key).truthy)).length > 0 := by
      rw [gt_iff_lt, List.length_pos]
      intro h1
      apply h
      intro k hk
      rw [List.filter_eq_nil_iff] at h1
      simpa using h1 k hk
    rw [if_pos h0, if_neg h]

/-- The outcome of `addLocale` on a string and `null`, when `locales.en` is a table. -/
theorem addLocale_null (locales : Locales) (code : String) (en : Table)
    (hen : locales.get DEFAULT_LOCALE = .table en) :
    addLocale locales (.string code) .null =
      if ownKeys en = [] then (.returned true, locales.write code none)
      else (.typeError, locales) := by
  simp only [addLocale, hen]
  by_cases h : ownKeys en = []
  · simp [h]
  · have h0 : (ownKeys en).length > 0 := List.length_pos.2 h
    rw [if_pos h0, if_neg h]

/-- A call of `addLocale` leaves the registry as it was, or is a call with a string and
an object that returns `true` after one write. -/
theorem addLocale_snd (locales : Locales) (locale : JSValue)
    (translations : TranslationsArg) :
    (addLocale locales locale translations).2 = locales ∨
      ∃ code v, locale = .string code ∧
        (translations = .null ∨ ∃ t, translations = .table t) ∧
        (addLocale locales locale translations).1 = .returned true ∧
        (addLocale locales locale translations).2 = locales.write code v := by
  cases locale with
  | string code =>
    cases translations with
    | table t =>
      cases hen : locales.get DEFAULT_LOCALE with
      | table en =>
        rw [addLocale_table locales code t en hen]
        by_cases h : ∀ k ∈ ownKeys en, (t.get k).truthy = true
        · right
          exact ⟨code, some t, rfl, Or.inr ⟨t, rfl⟩, by rw [if_pos h], by rw [if_pos h]; rfl⟩
        · left; rw [if_neg h]
      | undefined => left; simp only [addLocale, hen]
      | null => left; simp only [addLocale, hen]
      | string s => left; simp only [addLocale, hen]
      | builtin => left; simp only [addLocale, hen]
    | null =>
      cases hen : locales.get DEFAULT_LOCALE with
      | table en =>
        rw [addLocale_null locales code en hen]
        by_cases h : ownKeys en = []
        · right
          exact ⟨code, none, rfl, Or.inl rfl, by rw [if_pos h], by rw [if_pos h]⟩
        · left; rw [if_neg h]
      | undefined => left; simp only [addLocale, hen]
      | null => left; simp only [addLocale, hen]
      | string s => left; simp only [addLocale, hen]
      | builtin => left; simp only [addLocale, hen]
    | nonObject => left; rfl
  | undefined => left; cases translations <;> rfl
  | null => left; cases translations <;> rfl
  | boolean b => left; cases translations <;> rfl
  | number n => left; cases translations <;> rfl
  | date d => left; cases translations <;> rfl
  | object o => left; cases translations <;> rfl

theorem write_keys (locales : Locales) (k : String) (v : Option Table) :
    (locales.write k v).own.map Prod.fst = locales.own.map Prod.fst ∨
      (locales.write k v).own.map Prod.fst = locales.own.map Prod.fst ++ [k] := by
  unfold Locales.write
  split_ifs
  · left; exact map_fst_replaceOwn k v _
  · left; rfl
  · right; simp

/-- The own keys `en`, `es`, `fr` of the initial registry stay in front in every state
the module can reach: no call removes an own property of `locales`. -/
theorem reachable_keys (locales : Locales) (h : Reachable locales) :
    ["en", "es", "fr"] <+: locales.own.map Prod.fst := by
  induction h with
  | init => decide
  | step locale translations hprev ih =>
    rename_i L
    rcases addLocale_snd L locale translations with hs | ⟨code, v, _, _, _, hs⟩
    · rw [hs]; exact ih
    · rw [hs]
      rcases write_keys L code v with h1 | h1 <;> rw [h1]
      · exact ih
      · exact ih.trans (List.prefix_append _ _)

/-- When `locales.en` reads as a table, that table is an own property of `locales`. -/
theorem lookup_of_get_default (locales : Locales) (en : Table)
    (h : locales.get DEFAULT_LOCALE = .table en) :
    locales.own.lookup "en" = some (some en) := by
  have hne : ¬ ("en" = "__proto__") := by decide
  have hnb : "en" ∉ objectPrototypeKeys := by decide
  unfold Locales.get at h
  simp only [DEFAULT_LOCALE] at h
  cases hl : locales.own.lookup "en" with
  | some e =>
    rw [hl] at h
    cases e with
    | some t => simp only [Value.table.injEq] at h; rw [h]
    | none => exact absurd h (by simp)
  | none =>
    rw [hl] at h
    cases hp : locales.proto with
    | objectPrototype => simp [hp, hnb] at h
    | null => simp [hp] at h
    | table p =>
      simp only [hp] at h
      cases hpl : p.lookup "en" with
      | some s => simp [hpl] at h
      | none => simp [hpl, hne, hnb] at h

theorem get_default_of_lookup (locales : Locales) (en : Table)
    (hen : locales.own.lookup "en" = some (some en)) :
    locales.get DEFAULT_LOCALE = .table en := by
  simp only [Locales.get, DEFAULT_LOCALE, hen]

/-! ## The buckets -/

theorem minuteOverride_of_le (minute : Option Int) (m : Nat) (h : m ≤ 60) :
    minuteOverride minute m = false := by
  cases minute with
  | none => rfl
  | some x =>
    have : ¬ (m > 60) := by omega
    simp [minuteOverride, this]

/-- Below one minute: `just now`, or the seconds bucket. -/
theorem humanizeDiff_seconds (tr : Value) (minute : Option Int) (inc past : Bool) (a : Nat)
    (h : a < 60) :
    humanizeDiff tr minute inc past a =
      if a < 5 ∧ inc = true then returnTemplate tr "just_now"
      else formatMessage tr (if past then "seconds_ago" else "in_seconds") a := by
  have hm : minuteOverride minute (a / 60) = false :=
    minuteOverride_of_le minute _ (by omega)
  simp only [humanizeDiff, hm]
  simp [h]

/-- From one minute to below one hour: the minute bucket. -/
theorem humanizeDiff_minutes (tr : Value) (minute : Option Int) (inc past : Bool) (a : Nat)
    (h1 : 60 ≤ a) (h2 : a < 3600) :
    humanizeDiff tr minute inc past a =
      if a / 60 = 1 then returnTemplate tr (if past then "minute_ago" else "in_minute")
      else formatMessage tr (if past then "minutes_ago" else "in_minutes") (a / 60) := by
  have hm : minuteOverride minute (a / 60) = false :=
    minuteOverride_of_le minute _ (by omega)
  have e1 : ¬ a < 5 := by omega
  have e2 : ¬ a < 60 := by omega
  have e3 : a / 60 < 60 := by omega
  simp only [humanizeDiff, hm]
  simp [e1, e2, e3]

/-- From one hour to below one day, without a minute override: the hour bucket. -/
theorem humanizeDiff_hours (tr : Value) (inc past : Bool) (a : Nat)
    (h1 : 3600 ≤ a) (h2 : a < 86400) :
    humanizeDiff tr none inc past a =
      if a / 3600 = 1 then returnTemplate tr (if past then "hour_ago" else "in_hour")
      else formatMessage tr (if past then "hours_ago" else "in_hours") (a / 3600) := by
  have e1 : ¬ a < 5 := by omega
  have e2 : ¬ a < 60 := by omega
  have e3 : ¬ a / 60 < 60 := by omega
  have e4 : a / 3600 < 24 := by omega
  simp only [humanizeDiff, minuteOverride]
  simp [e1, e2, e3, e4]

/-- One whole day, without a minute override: `yesterday` or `tomorrow`. -/
theorem humanizeDiff_one_day (tr : Value) (inc past : Bool) (a : Nat)
    (h : a / 86400 = 1) :
    humanizeDiff tr none inc past a
      = returnTemplate tr (if past then "yesterday" else "tomorrow") := by
  have e1 : ¬ a < 5 := by omega
  have e2 : ¬ a < 60 := by omega
  have e3 : ¬ a / 60 < 60 := by omega
  have e4 : ¬ a / 3600 < 24 := by omega
  have e5 : ¬ a / 86400 = 7 := by omega
  have e6 : ¬ a / 86400 = 21 := by omega
  have e7 : ¬ a / 86400 = 31 := by omega
  have e8 : ¬ a / 86400 = 365 := by omega
  have e9 : ¬ a = 604800 := by omega
  have e10 : ¬ a = 1814400 := by omega
  have e11 : ¬ a = 2678400 := by omega
  have e12 : ¬ a = 31536000 := by omega
  simp only [humanizeDiff, minuteOverride]
  cases past <;> simp [e1, e2, e3, e4, e5, e6, e7, e8, e9, e10, e11, e12, h]

/-- Two to six whole days, without a minute override: the day bucket. -/
theorem humanizeDiff_days (tr : Value) (inc past : Bool) (a : Nat)
    (h1 : 2 ≤ a / 86400) (h2 : a / 86400 ≤ 6) :
    humanizeDiff tr none inc past a
      = formatMessage tr (if past then "days_ago" else "in_days") (a / 86400) := by
  have e1 : ¬ a < 5 := by omega
  have e2 : ¬ a < 60 := by omega
  have e3 : ¬ a / 60 < 60 := by omega
  have e4 : ¬ a / 3600 < 24 := by omega
  have e5 : ¬ a / 86400 = 7 := by omega
  have e6 : ¬ a / 86400 = 21 := by omega
  have e7 : ¬ a / 86400 = 31 := by omega
  have e8 : ¬ a / 86400 = 365 := by omega
  have e9 : ¬ a = 604800 := by omega
  have e10 : ¬ a = 1814400 := by omega
  have e11 : ¬ a = 2678400 := by omega
  have e12 : ¬ a = 31536000 := by omega
  have e13 : ¬ a / 86400 = 1 := by omega
  have e14 : ¬ a = 86400 := by omega
  have e15 : a / 86400 < 7 := by omega
  simp only [humanizeDiff, minuteOverride]
  cases past <;> simp [e1, e2, e3, e4, e5, e6, e7, e8, e9, e10, e11, e12, e13, e14, e15]

/-! ## More on the registry -/

theorem hasValue_iff (t : Table) (k : String) :
    hasValue t k = true ↔ ∃ s, t.lookup k = some s ∧ s ≠ "" := by
  unfold hasValue
  cases t.lookup k with
  | none => simp
  | some s => simp

theorem hasValue_false_iff (t : Table) (k : String) :
    hasValue t k = false ↔ (t.lookup k = none ∨ t.lookup k = some "") := by
  unfold hasValue
  cases t.lookup k with
  | none => simp
  | some s => simp

/-- In the initial registry the check of `addLocale` asks for the required keys. -/
theorem initial_check_iff_complete (t : Table) :
    (∀ k ∈ ownKeys enTable, (t.get k).truthy = true) ↔ t.complete := by
  have hk : ownKeys enTable = requiredKeys := by decide
  rw [hk]
  constructor
  · intro h k hk2; rw [← truthy_get_required t k hk2]; exact h k hk2
  · intro h k hk2; rw [truthy_get_required t k hk2]; exact h k hk2

/-- A successful call of `addLocale` has written the table under the code. -/
theorem addLocale_true (locales : Locales) (code : String) (t : Table)
    (h : (addLocale locales (.string code) (.table t)).1 = .returned true) :
    (addLocale locales (.string code) (.table t)).2 = locales.set code t := by
  cases hen : locales.get DEFAULT_LOCALE with
  | table en =>
    rw [addLocale_table locales code t en hen] at h ⊢
    by_cases hv : ∀ k ∈ ownKeys en, (t.get k).truthy = true
    · rw [if_pos hv]
    · rw [if_neg hv] at h; exact absurd h (by simp)
  | undefined => simp only [addLocale, hen] at h; exact absurd h (by simp)
  | null => simp only [addLocale, hen] at h; exact absurd h (by simp)
  | string s => simp only [addLocale, hen] at h; exact absurd h (by simp)
  | builtin => simp only [addLocale, hen] at h; exact absurd h (by simp)

/-- After the write `locales[code] = t`, for a code other than `__proto__`, the own
property `code` holds `t`. -/
theorem lookup_set_self (locales : Locales) (code : String) (t : Table)
    (hproto : code ≠ "__proto__") :
    (locales.set code t).own.lookup code = some (some t) := by
  unfold Locales.set Locales.write
  by_cases h : (locales.own.lookup code).isSome = true
  · rw [if_pos h]
    exact lookup_replaceOwn_self code t _ h
  · rw [if_neg h]
    have h2 : (code == "__proto__") = false := by simpa using hproto
    simp only [h2, Bool.false_and, Bool.false_eq_true, if_false]
    rw [lookup_append_singleton]
    cases hl : locales.own.lookup code with
    | none => simp
    | some w => rw [hl] at h; exact absurd rfl h

/-- The keys after the write of a new code that is not an array index. -/
theorem objectKeys_append_new {α : Type} (props : List (String × α)) (code : String)
    (v : α) (hnew : code ∉ props.map Prod.fst) (hidx : arrayIndex? code = none) :
    objectKeys (props ++ [(code, v)]) = objectKeys props ++ [code] := by
  unfold objectKeys
  simp only [List.map_append, List.map_cons, List.map_nil, dedupKeys_append_singleton,
    if_neg hnew, List.filter_append, List.filter_cons, List.filter_nil, hidx,
    Option.isSome_none, Option.isNone_none, Bool.false_eq_true, if_false, if_true,
    List.append_nil, List.append_assoc]

theorem objectKeys_replaceOwn (k : String) (t : Option Table)
    (l : List (String × Option Table)) :
    objectKeys (replaceOwn k t l) = objectKeys l := by
  unfold objectKeys
  rw [map_fst_replaceOwn]

/-- When the first own key is `en`, `Object.keys` lists it right after the array-index
keys. -/
theorem objectKeys_en_first {α : Type} (props : List (String × α)) (rest : List String)
    (h : props.map Prod.fst = "en" :: rest) :
    ∃ idx others, objectKeys props = idx ++ "en" :: others ∧
      (∀ c ∈ idx, (arrayIndex? c).isSome = true) ∧
      (∀ c ∈ others, arrayIndex? c = none) := by
  have hen : arrayIndex? "en" = none := by decide
  unfold objectKeys
  rw [h]
  simp only [dedupKeys, List.filter_cons, hen, Option.isSome_none, Option.isNone_none,
    Bool.false_eq_true, if_false, if_true]
  refine ⟨_, _, rfl, ?_, ?_⟩
  · intro c hc
    rw [(List.perm_insertionSort _ _).mem_iff, List.mem_filter] at hc
    exact hc.2
  · intro c hc
    rw [List.mem_filter] at hc
    simpa using hc.2

/-! ## The claims -/

/-- An unregistered code whose read on `locales` is falsy falls back to the default
locale. -/
theorem humanizeDate_fallback (host : Host) (locales : Locales) (date : JSValue)
    (options : Options) (code : String)
    (h : (locales.get code).truthy = false) :
    humanizeDate host locales date { options with locale := some code } =
      humanizeDate host locales date { options with locale := some "en" } := by
  have htr : translationsFor locales { options with locale := some code } =
      translationsFor locales { options with locale := some "en" } := by
    simp only [translationsFor, DEFAULT_LOCALE]
    by_cases hc : code = ""
    · simp [hc]
    · simp [hc, h]
  cases hd : toDate host date with
  | error e => rw [humanizeDate_error _ _ _ _ e hd, humanizeDate_error _ _ _ _ e hd]
  | ok time =>
    rw [humanizeDate_ok _ _ _ _ time hd, humanizeDate_ok _ _ _ _ time hd, htr]
    rfl

/-- C1 (failing input). The code `constructor` is not registered, yet `locales[code]` is
the inherited `Object`, which is truthy: there is no fallback to the default table, and
`humanizeDate` returns `undefined` for a difference of 0 s and raises a `TypeError` for
a difference of 30 s, instead of returning a non-empty string. -/
theorem humanizeDate_inherited_code_not_total :
    "constructor" ∉ getSupportedLocales initialLocales ∧
      humanizeDate exampleHost initialLocales (.date (some 0))
          { locale := some "constructor", now := some 0 } = .returned .undefined ∧
      humanizeDate exampleHost initialLocales (.date (some 0))
          { locale := some "constructor", now := some 30000 } = .typeError := by
  refine ⟨by decide, by decide, by decide⟩

/-- C2. `humanizeDate` returns the sentinel `Invalid date` when the date is not a
`Date`, a number or a string, when it is a number that `new Date` turns into an invalid
date, and when it is a string that `Date.parse` rejects, whatever the registry and the
options are; and when the date has a time value (as the number 12345 has) and the
locale is one of the source, the result is a string different from the sentinel. -/
theorem invalid_date_sentinel (host : Host) (locales : Locales) (options : Options) :
    (∀ date, (∀ time, date ≠ .date time) → (∀ n, date ≠ .number n) →
        (∀ s, date ≠ .string s) →
        humanizeDate host locales date options = .returned (.string "Invalid date")) ∧
      (∀ n, timeClip n = none →
        humanizeDate host locales (.number n) options
          = .returned (.string "Invalid date")) ∧
      (∀ s, host.parse s = none →
        humanizeDate host locales (.string s) options
          = .returned (.string "Invalid date")) ∧
      (∀ date time, toDate host date = .ok time →
        options.locale ∈ [none, some "", some "en", some "es", some "fr"] →
        ∃ s, humanizeDate host initialLocales date options = .returned (.string s) ∧
          s ≠ "Invalid date") ∧
      toDate host (.number (.finite 12345 0)) = .ok 12345 := by
  refine ⟨?_, ?_, ?_, ?_, rfl⟩
  · intro date h1 h2 h3
    cases date with
    | date time => exact absurd rfl (h1 time)
    | number n => exact absurd rfl (h2 n)
    | string s => exact absurd rfl (h3 s)
    | undefined => exact humanizeDate_error _ _ _ _ _ rfl
    | null => exact humanizeDate_error _ _ _ _ _ rfl
    | boolean b => exact humanizeDate_error _ _ _ _ _ rfl
    | object o => exact humanizeDate_error _ _ _ _ _ rfl
  · intro n hn
    exact humanizeDate_error _ _ _ _ "Invalid date" (by simp only [toDate, hn])
  · intro s hs
    exact humanizeDate_error _ _ _ _ "Invalid date" (by simp only [toDate, hs])
  · intro date time hd hloc
    obtain ⟨s, hs, _, _, hinv⟩ := humanizeDate_builtin host date options time hd hloc
    exact ⟨s, hs, hinv⟩

/-- C2, at the inputs of the specification: the string `not-a-date`, which the host
rejects, gives the sentinel, and the number 12345 gives another string. -/
theorem invalid_date_sentinel_witness :
    exampleHost.parse "not-a-date" = none ∧
      humanizeDate exampleHost initialLocales (.string "not-a-date") {}
        = .returned (.string "Invalid date") ∧
      toDate exampleHost (.number (.finite 12345 0)) = .ok 12345 ∧
      ∃ s, humanizeDate exampleHost initialLocales (.number (.finite 12345 0)) {}
          = .returned (.string s) ∧ s ≠ "Invalid date" :=
  ⟨rfl, (invalid_date_sentinel exampleHost initialLocales {}).2.2.1 "not-a-date" rfl,
    (invalid_date_sentinel exampleHost initialLocales {}).2.2.2.2,
    (invalid_date_sentinel exampleHost initialLocales {}).2.2.2.1 _ 12345 rfl
      (by decide)⟩

/-- C3 (failing input). For the unregistered code `constructor` the result differs from
the result for `en`: a date 30 s before the reference gives `30 seconds ago` with `en`
and a `TypeError` with `constructor`. -/
theorem humanizeDate_inherited_code_no_fallback :
    "constructor" ∉ getSupportedLocales initialLocales ∧
      humanizeDate exampleHost initialLocales (.date (some 0))
          { locale := some "en", now := some 30000 }
        = .returned (.string "30 seconds ago") ∧
      humanizeDate exampleHost initialLocales (.date (some 0))
          { locale := some "constructor", now := some 30000 }
        ≠ humanizeDate exampleHost initialLocales (.date (some 0))
          { locale := some "en", now := some 30000 } := by
  refine ⟨by decide, by decide, by decide⟩

/-- With a table under `en`, a call of `addLocale` with a table that has no truthy value
under one of the own keys of the table under `en` returns `false` and leaves the
registry as it was. -/
theorem addLocale_missing_key (locales : Locales) (locale : JSValue) (t en : Table)
    (k : String) (hen : locales.get DEFAULT_LOCALE = .table en) (hk : k ∈ ownKeys en)
    (hmiss : (t.get k).truthy = false) :
    addLocale locales locale (.table t) = (.returned false, locales) := by
  cases locale with
  | string code =>
    rw [addLocale_table locales code t en hen]
    have hnot : ¬ ∀ k ∈ ownKeys en, (t.get k).truthy = true := by
      intro hall
      have h1 := hall k hk
      rw [hmiss] at h1
      exact absurd h1 (by simp)
    rw [if_neg hnot]
  | undefined => rfl
  | null => rfl
  | boolean b => rfl
  | number n => rfl
  | date d => rfl
  | object o => rfl

/-- C4 (failing input). In the initial registry the empty object `{}` and the incomplete
Italian table of the tests are rejected.  The object `Object.create(en)` has no property
of its own, but every required key reads through to an inherited template, so
`addLocale("en", Object.create(en))` returns `true`; after it the table under `en` has no
own key, and the call `addLocale("it", {})` with a table that lacks every required key
returns `true`, changes the registry and makes `it` a supported locale. -/
theorem addLocale_incomplete_accepted :
    (addLocale initialLocales (.string "it") (.table itTable)).1 = .returned false ∧
      (addLocale initialLocales (.string "it") (.table emptyTable)).1 = .returned false ∧
      (∀ k ∈ requiredKeys, emptyTable.lookup k = none) ∧
      (addLocale initialLocales (.string "en") (.table enTableInherited)).1
        = .returned true ∧
      (addLocale (addLocale initialLocales (.string "en") (.table enTableInherited)).2
          (.string "it") (.table emptyTable)).1 = .returned true ∧
      (addLocale (addLocale initialLocales (.string "en") (.table enTableInherited)).2
          (.string "it") (.table emptyTable)).2
        ≠ (addLocale initialLocales (.string "en") (.table enTableInherited)).2 ∧
      getSupportedLocales
          (addLocale (addLocale initialLocales (.string "en") (.table enTableInherited)).2
            (.string "it") (.table emptyTable)).2
        = ["en", "es", "fr", "it"] := by
  refine ⟨by decide, by decide, by decide, by decide, by decide, by decide, by decide⟩

/-- C5 (counterexample). Four registrations of the complete German table of the tests.
Under the empty code the call returns `true`, but `humanizeDate` with that code still
renders from the default table (`5 minutes ago`, not `vor 5 Minuten`).  After `en` has
been registered again with one more key, the call returns `false`.  Under the code
`__proto__` the call returns `true`, but no property of that name is stored.  And after
the calls `addLocale("en", Object.create(en))` and `addLocale("en", null)`, which both
return `true` and leave `null` under `en`, the call raises a `TypeError`. -/
theorem addLocale_complete_counterexample :
    deTable.complete ∧
      (addLocale initialLocales (.string "") (.table deTable)).1 = .returned true ∧
      humanizeDate exampleHost (addLocale initialLocales (.string "") (.table deTable)).2
          (.date (some (-300000))) { locale := some "", now := some 0 }
        = .returned (.string "5 minutes ago") ∧
      (addLocale initialLocales (.string "en") (.table enTableExtended)).1
        = .returned true ∧
      (addLocale (addLocale initialLocales (.string "en") (.table enTableExtended)).2
          (.string "de") (.table deTable)).1
        = .returned false ∧
      (addLocale initialLocales (.string "__proto__") (.table deTable)).1
        = .returned true ∧
      (addLocale initialLocales (.string "__proto__") (.table deTable)).2.own.lookup
          "__proto__" = none ∧
      (addLocale initialLocales (.string "en") (.table enTableInherited)).1
        = .returned true ∧
      (addLocale (addLocale initialLocales (.string "en") (.table enTableInherited)).2
          (.string "en") .null).1 = .returned true ∧
      (addLocale
          (addLocale (addLocale initialLocales (.string "en") (.table enTableInherited)).2
            (.string "en") .null).2 (.string "de") (.table deTable)).1 = .typeError := by
  refine ⟨by decide, by decide, by decide, by decide, by decide, by decide, by decide,
    by decide, by decide, by decide⟩

/-- C5 (amended). In every registry with a table under `en`, for every code other than
the empty string and `__proto__`, and every table with a truthy value for each own key
of the table under `en`, `addLocale` returns `true` and stores the table under that
code, replacing an earlier one; afterwards `humanizeDate` with that code takes its
templates from that table.  When `minutes_ago` is one of those keys the table has a
`minutes_ago` template, and a date 300 s before the reference gives this template with
the first `{count}` replaced by 5. -/
theorem addLocale_complete_stored (locales : Locales)
    (code : String) (t en : Table) (hen : locales.get DEFAULT_LOCALE = .table en)
    (hcode : code ≠ "") (hproto : code ≠ "__proto__")
    (hkeys : ∀ k ∈ ownKeys en, (t.get k).truthy = true) :
    addLocale locales (.string code) (.table t) = (.returned true, locales.set code t) ∧
      (locales.set code t).own.lookup code = some (some t) ∧
      (∀ options, options.locale = some code →
        translationsFor (locales.set code t) options = .table t) ∧
      ("minutes_ago" ∈ ownKeys en →
        ∃ tmpl, t.lookup "minutes_ago" = some tmpl ∧ tmpl ≠ "") ∧
      (∀ host date options time tmpl, options.locale = some code →
        toDate host date = .ok time → diffSeconds host options time = -300 →
        t.lookup "minutes_ago" = some tmpl →
        humanizeDate host (locales.set code t) date options
          = .returned (.string (replaceFirst tmpl countToken "5"))) := by
  have hstore := lookup_set_self locales code t hproto
  have htr : ∀ options : Options, options.locale = some code →
      translationsFor (locales.set code t) options = .table t := by
    intro options hloc
    simp only [translationsFor, hloc, if_neg hcode, Locales.get, hstore, Value.truthy,
      if_true]
  refine ⟨?_, hstore, htr, ?_, ?_⟩
  · rw [addLocale_table locales code t en hen, if_pos hkeys]
  · intro hmem
    have h1 := hkeys "minutes_ago" hmem
    rw [truthy_get_required t "minutes_ago" (by decide)] at h1
    exact (hasValue_iff t "minutes_ago").1 h1
  · intro host date options time tmpl hloc hdate hdiff htmpl
    rw [humanizeDate_ok host _ date options time hdate, htr options hloc, hdiff]
    have hb := humanizeDiff_minutes (.table t) (minuteThreshold options)
      (options.includeSeconds != some false) (decide ((-300 : Int) < 0)) (Int.natAbs (-300))
      (by decide) (by decide)
    rw [hb]
    exact formatMessage_table t "minutes_ago" tmpl 5 htmpl

/-- C5, at the input of the tests: the German table is registered under `de` in the
initial registry, it has a `minutes_ago` template, and a date 5 minutes before the
reference gives `vor 5 Minuten`. -/
theorem addLocale_complete_stored_witness :
    (addLocale initialLocales (.string "de") (.table deTable)).1 = .returned true ∧
      (∃ tmpl, deTable.lookup "minutes_ago" = some tmpl ∧ tmpl ≠ "") ∧
      humanizeDate exampleHost (initialLocales.set "de" deTable) (.date (some (-300000)))
          { locale := some "de", now := some 0 }
        = .returned (.string "vor 5 Minuten") := by
  have h := addLocale_complete_stored initialLocales "de" deTable enTable
    (by decide) (by decide) (by decide) (by decide)
  refine ⟨by rw [h.1], h.2.2.2.1 (by decide), ?_⟩
  exact (h.2.2.2.2 exampleHost (.date (some (-300000)))
    { locale := some "de", now := some 0 } (-300000) "vor {count} Minuten" rfl rfl
    (by decide) (by decide)).trans (by decide)

/-- C6 (counterexample). Registering the code `1`, which was not present, puts it in
front of `en` instead of appending it; registering the code `__proto__`, which was not
present, leaves the list as it was. -/
theorem getSupportedLocales_counterexample :
    (addLocale initialLocales (.string "1") (.table deTable)).1 = .returned true ∧
      "1" ∉ getSupportedLocales initialLocales ∧
      getSupportedLocales (addLocale initialLocales (.string "1") (.table deTable)).2
        = ["1", "en", "es", "fr"] ∧
      (addLocale initialLocales (.string "__proto__") (.table deTable)).1
        = .returned true ∧
      "__proto__" ∉ getSupportedLocales initialLocales ∧
      getSupportedLocales
          (addLocale initialLocales (.string "__proto__") (.table deTable)).2
        = ["en", "es", "fr"] := by
  refine ⟨by decide, by decide, by decide, by decide, by decide, by decide⟩

/-- C6 (amended). `getSupportedLocales` returns the registered codes without duplicates;
initially it is `[en, es, fr]`; in every reachable registry the codes that are array
indices come first and `en` is the first of the others; after a successful `addLocale`
of a code that is not yet present, is not an array index and is not `__proto__`, the
new list is the old list with that code appended; after a successful `addLocale` of a
code already present the list is unchanged. -/
theorem getSupportedLocales_order :
    getSupportedLocales initialLocales = ["en", "es", "fr"] ∧
      (∀ locales, (getSupportedLocales locales).Nodup) ∧
      (∀ locales, Reachable locales →
        ∃ idx others, getSupportedLocales locales = idx ++ "en" :: others ∧
          (∀ c ∈ idx, (arrayIndex? c).isSome = true) ∧
          (∀ c ∈ others, arrayIndex? c = none)) ∧
      (∀ locales code t,
        (addLocale locales (.string code) (.table t)).1 = .returned true →
        code ∉ getSupportedLocales locales → arrayIndex? code = none →
        code ≠ "__proto__" →
        getSupportedLocales (addLocale locales (.string code) (.table t)).2
          = getSupportedLocales locales ++ [code]) ∧
      (∀ locales code t,
        (addLocale locales (.string code) (.table t)).1 = .returned true →
        code ∈ getSupportedLocales locales →
        getSupportedLocales (addLocale locales (.string code) (.table t)).2
          = getSupportedLocales locales) := by
  refine ⟨by decide, fun locales => nodup_objectKeys _, ?_, ?_, ?_⟩
  · intro locales hR
    obtain ⟨r, hr⟩ := reachable_keys locales hR
    exact objectKeys_en_first locales.own (["es", "fr"] ++ r) (by rw [← hr]; rfl)
  · intro locales code t hok hnew hidx hproto
    rw [addLocale_true locales code t hok]
    unfold getSupportedLocales at hnew ⊢
    rw [mem_objectKeys] at hnew
    have hnone : ¬ (locales.own.lookup code).isSome = true := by
      rw [lookup_isSome_iff]; exact hnew
    have h2 : (code == "__proto__") = false := by simpa using hproto
    simp only [Locales.set, Locales.write, if_neg hnone, h2, Bool.false_and,
      Bool.false_eq_true, if_false]
    exact objectKeys_append_new _ _ _ hnew hidx
  · intro locales code t hok hold
    rw [addLocale_true locales code t hok]
    unfold getSupportedLocales at hold ⊢
    rw [mem_objectKeys, ← lookup_isSome_iff] at hold
    simp only [Locales.set, Locales.write, if_pos hold]
    exact objectKeys_replaceOwn _ _ _

/-- C6, at the input of the tests: after `de` has been registered the list holds `en`,
`es`, `fr` and `de`, in this order, and registering `de` again does not change it. -/
theorem getSupportedLocales_order_witness :
    getSupportedLocales (addLocale initialLocales (.string "de") (.table deTable)).2
        = ["en", "es", "fr", "de"] ∧
      getSupportedLocales (addLocale
          (addLocale initialLocales (.string "de") (.table deTable)).2
          (.string "de") (.table deTable)).2
        = ["en", "es", "fr", "de"] :=
  ⟨(getSupportedLocales_order.2.2.2.1 initialLocales "de" deTable (by decide) (by decide)
      (by decide) (by decide)).trans (by decide),
    (getSupportedLocales_order.2.2.2.2
      (addLocale initialLocales (.string "de") (.table deTable)).2 "de" deTable (by decide)
      (by decide)).trans (by decide)⟩

/-- C7 (failing input). The two calls `addLocale("en", Object.create(en))` and
`addLocale("it", {})` both return `true`.  In the state they reach, the empty object,
which has none of the required keys, is stored under `it` and listed as a supported
locale, the table under `en` has no own key, and `humanizeDate` with the locale `it`
raises a `TypeError` for a date 5 minutes before the reference. -/
theorem reachable_table_incomplete :
    Reachable
        (addLocale (addLocale initialLocales (.string "en") (.table enTableInherited)).2
          (.string "it") (.table emptyTable)).2 ∧
      (addLocale initialLocales (.string "en") (.table enTableInherited)).1
        = .returned true ∧
      (addLocale (addLocale initialLocales (.string "en") (.table enTableInherited)).2
          (.string "it") (.table emptyTable)).1 = .returned true ∧
      (addLocale (addLocale initialLocales (.string "en") (.table enTableInherited)).2
          (.string "it") (.table emptyTable)).2.own.lookup "it" = some (some emptyTable) ∧
      (∀ k ∈ requiredKeys, emptyTable.lookup k = none) ∧
      "it" ∈ getSupportedLocales
        (addLocale (addLocale initialLocales (.string "en") (.table enTableInherited)).2
          (.string "it") (.table emptyTable)).2 ∧
      (addLocale (addLocale initialLocales (.string "en") (.table enTableInherited)).2
          (.string "it") (.table emptyTable)).2.own.lookup "en"
        = some (some enTableInherited) ∧
      ownKeys enTableInherited = [] ∧
      humanizeDate exampleHost
          (addLocale (addLocale initialLocales (.string "en") (.table enTableInherited)).2
            (.string "it") (.table emptyTable)).2
          (.date (some (-300000))) { locale := some "it", now := some 0 }
        = .typeError := by
  refine ⟨Reachable.step _ _ (Reachable.step _ _ Reachable.init), by decide, by decide,
    by decide, by decide, by decide, by decide, by decide, by decide⟩

/-- C8. When the difference is below 60 s in absolute value: if it is below 5 s and
`includeSeconds` is not `false`, the result is the `just_now` template of the locale,
in both directions; otherwise it is the seconds template with `{count}` replaced by the
absolute difference, `seconds_ago` for a negative difference and `in_seconds` for a
difference of 0 or more. -/
theorem seconds_bucket (host : Host) (locales : Locales) (date : JSValue)
    (options : Options) (time : Int) (t : Table) (d : Int)
    (hdate : toDate host date = .ok time)
    (htr : translationsFor locales options = .table t)
    (hd : d = diffSeconds host options time)
    (hlt : d.natAbs < 60) :
    (d.natAbs < 5 → options.includeSeconds ≠ some false →
        ∀ tmpl, t.lookup "just_now" = some tmpl →
          humanizeDate host locales date options = .returned (.string tmpl)) ∧
      (¬ (d.natAbs < 5 ∧ options.includeSeconds ≠ some false) →
        ∀ tmpl, t.lookup (if d < 0 then "seconds_ago" else "in_seconds") = some tmpl →
          humanizeDate host locales date options
            = .returned (.string (replaceFirst tmpl countToken (toString d.natAbs)))) := by
  subst hd
  rw [humanizeDate_ok host locales date options time hdate, htr,
    humanizeDiff_seconds _ _ _ _ _ hlt]
  constructor
  · intro h5 hinc tmpl htmpl
    have hc : (diffSeconds host options time).natAbs < 5 ∧
        (options.includeSeconds != some false) = true := ⟨h5, by simpa using hinc⟩
    rw [if_pos hc]
    exact returnTemplate_table t _ tmpl htmpl
  · intro hn tmpl htmpl
    have hc : ¬ ((diffSeconds host options time).natAbs < 5 ∧
        (options.includeSeconds != some false) = true) := by
      intro h; exact hn ⟨h.1, by simpa using h.2⟩
    rw [if_neg hc]
    have hkey : (if decide (diffSeconds host options time < 0) = true then "seconds_ago"
        else "in_seconds") = (if diffSeconds host options time < 0 then "seconds_ago"
        else "in_seconds") := by
      by_cases hp : diffSeconds host options time < 0 <;> simp [hp]
    rw [hkey]
    exact formatMessage_table t _ tmpl _ htmpl

/-- C8, at the inputs of the specification: 4 s before the reference gives `just now`,
and so does 4 s after it; 5 s before gives `5 seconds ago`, 30 s before gives
`30 seconds ago`; with `includeSeconds` set to `false`, 2 s before gives
`2 seconds ago`. -/
theorem seconds_bucket_witness :
    humanizeDate exampleHost initialLocales (.date (some (-4000))) { now := some 0 }
        = .returned (.string "just now") ∧
      humanizeDate exampleHost initialLocales (.date (some 4000)) { now := some 0 }
        = .returned (.string "just now") ∧
      humanizeDate exampleHost initialLocales (.date (some (-5000))) { now := some 0 }
        = .returned (.string "5 seconds ago") ∧
      humanizeDate exampleHost initialLocales (.date (some (-30000))) { now := some 0 }
        = .returned (.string "30 seconds ago") ∧
      humanizeDate exampleHost initialLocales (.date (some (-2000)))
          { now := some 0, includeSeconds := some false }
        = .returned (.string "2 seconds ago") :=
  ⟨(seconds_bucket exampleHost initialLocales (.date (some (-4000))) { now := some 0 }
      (-4000) enTable (-4) rfl (by decide) (by decide) (by decide)).1 (by decide)
      (by decide) "just now" (by decide),
    (seconds_bucket exampleHost initialLocales (.date (some 4000)) { now := some 0 }
      4000 enTable 4 rfl (by decide) (by decide) (by decide)).1 (by decide)
      (by decide) "just now" (by decide),
    ((seconds_bucket exampleHost initialLocales (.date (some (-5000))) { now := some 0 }
      (-5000) enTable (-5) rfl (by decide) (by decide) (by decide)).2 (by decide)
      "{count} seconds ago" (by decide)).trans (by decide),
    ((seconds_bucket exampleHost initialLocales (.date (some (-30000))) { now := some 0 }
      (-30000) enTable (-30) rfl (by decide) (by decide) (by decide)).2 (by decide)
      "{count} seconds ago" (by decide)).trans (by decide),
    ((seconds_bucket exampleHost initialLocales (.date (some (-2000)))
      { now := some 0, includeSeconds := some false }
      (-2000) enTable (-2) rfl (by decide) (by decide) (by decide)).2 (by decide)
      "{count} seconds ago" (by decide)).trans (by decide)⟩

theorem past_key (d : Int) (a b : String) :
    (if decide (d < 0) = true then a else b) = (if d < 0 then a else b) := by
  by_cases hp : d < 0 <;> simp [hp]

/-- C9. Without a minute threshold override: from 60 s to below 3600 s the result is the
singular minute template as it is when the whole minutes are 1, and otherwise the plural
minutes template with `{count}` replaced by the whole minutes (2 to 59); from 3600 s
to below 86400 s the same holds with hours (2 to 23); the past templates are used
exactly when the difference is negative. -/
theorem minute_hour_buckets (host : Host) (locales : Locales) (date : JSValue)
    (options : Options) (time : Int) (t : Table) (d : Int)
    (hdate : toDate host date = .ok time)
    (htr : translationsFor locales options = .table t)
    (hd : d = diffSeconds host options time)
    (hno : minuteThreshold options = none) :
    (60 ≤ d.natAbs → d.natAbs < 3600 →
        (d.natAbs / 60 = 1 →
          ∀ tmpl, t.lookup (if d < 0 then "minute_ago" else "in_minute") = some tmpl →
            humanizeDate host locales date options = .returned (.string tmpl)) ∧
        (d.natAbs / 60 ≠ 1 →
          2 ≤ d.natAbs / 60 ∧ d.natAbs / 60 ≤ 59 ∧
          ∀ tmpl, t.lookup (if d < 0 then "minutes_ago" else "in_minutes") = some tmpl →
            humanizeDate host locales date options
              = .returned (.string
                  (replaceFirst tmpl countToken (toString (d.natAbs / 60)))))) ∧
      (3600 ≤ d.natAbs → d.natAbs < 86400 →
        (d.natAbs / 3600 = 1 →
          ∀ tmpl, t.lookup (if d < 0 then "hour_ago" else "in_hour") = some tmpl →
            humanizeDate host locales date options = .returned (.string tmpl)) ∧
        (d.natAbs / 3600 ≠ 1 →
          2 ≤ d.natAbs / 3600 ∧ d.natAbs / 3600 ≤ 23 ∧
          ∀ tmpl, t.lookup (if d < 0 then "hours_ago" else "in_hours") = some tmpl →
            humanizeDate host locales date options
              = .returned (.string
                  (replaceFirst tmpl countToken (toString (d.natAbs / 3600)))))) := by
  subst hd
  rw [humanizeDate_ok host locales date options time hdate, htr, hno]
  constructor
  · intro h1 h2
    rw [humanizeDiff_minutes _ _ _ _ _ h1 h2]
    constructor
    · intro h tmpl htmpl
      rw [if_pos h, past_key]
      exact returnTemplate_table t _ tmpl htmpl
    · intro h
      refine ⟨by omega, by omega, ?_⟩
      intro tmpl htmpl
      rw [if_neg h, past_key]
      exact formatMessage_table t _ tmpl _ htmpl
  · intro h1 h2
    rw [humanizeDiff_hours _ _ _ _ h1 h2]
    constructor
    · intro h tmpl htmpl
      rw [if_pos h, past_key]
      exact returnTemplate_table t _ tmpl htmpl
    · intro h
      refine ⟨by omega, by omega, ?_⟩
      intro tmpl htmpl
      rw [if_neg h, past_key]
      exact formatMessage_table t _ tmpl _ htmpl

/-- C9, at the inputs of the tests: one minute before the reference gives
`a minute ago`, five minutes before `5 minutes ago`, one hour before `an hour ago`,
three hours before `3 hours ago`, and three hours after `in 3 hours`. -/
theorem minute_hour_buckets_witness :
    humanizeDate exampleHost initialLocales (.date (some (-60000))) { now := some 0 }
        = .returned (.string "a minute ago") ∧
      humanizeDate exampleHost initialLocales (.date (some (-300000))) { now := some 0 }
        = .returned (.string "5 minutes ago") ∧
      humanizeDate exampleHost initialLocales (.date (some (-3600000))) { now := some 0 }
        = .returned (.string "an hour ago") ∧
      humanizeDate exampleHost initialLocales (.date (some (-10800000))) { now := some 0 }
        = .returned (.string "3 hours ago") ∧
      humanizeDate exampleHost initialLocales (.date (some 10800000)) { now := some 0 }
        = .returned (.string "in 3 hours") :=
  ⟨((minute_hour_buckets exampleHost initialLocales (.date (some (-60000)))
      { now := some 0 } (-60000) enTable (-60) rfl (by decide) (by decide) rfl).1
      (by decide) (by decide)).1 (by decide) "a minute ago" (by decide),
    ((((minute_hour_buckets exampleHost initialLocales (.date (some (-300000)))
      { now := some 0 } (-300000) enTable (-300) rfl (by decide) (by decide) rfl).1
      (by decide) (by decide)).2 (by decide)).2.2 "{count} minutes ago"
      (by decide)).trans (by decide),
    ((minute_hour_buckets exampleHost initialLocales (.date (some (-3600000)))
      { now := some 0 } (-3600000) enTable (-3600) rfl (by decide) (by decide) rfl).2
      (by decide) (by decide)).1 (by decide) "an hour ago" (by decide),
    ((((minute_hour_buckets exampleHost initialLocales (.date (some (-10800000)))
      { now := some 0 } (-10800000) enTable (-10800) rfl (by decide) (by decide) rfl).2
      (by decide) (by decide)).2 (by decide)).2.2 "{count} hours ago"
      (by decide)).trans (by decide),
    ((((minute_hour_buckets exampleHost initialLocales (.date (some 10800000))
      { now := some 0 } 10800000 enTable 10800 rfl (by decide) (by decide) rfl).2
      (by decide) (by decide)).2 (by decide)).2.2 "in {count} hours"
      (by decide)).trans (by decide)⟩

/-- C10. Without a minute threshold override, with the whole days of the absolute
difference: for 1 day the result is the `yesterday` template for a negative difference
and the `tomorrow` template otherwise; for 2 to 6 days it is `days_ago` (negative
difference) or `in_days` with `{count}` replaced by the whole days. -/
theorem day_buckets (host : Host) (locales : Locales) (date : JSValue)
    (options : Options) (time : Int) (t : Table) (d : Int)
    (hdate : toDate host date = .ok time)
    (htr : translationsFor locales options = .table t)
    (hd : d = diffSeconds host options time)
    (hno : minuteThreshold options = none) :
    (d.natAbs / 86400 = 1 →
        ∀ tmpl, t.lookup (if d < 0 then "yesterday" else "tomorrow") = some tmpl →
          humanizeDate host locales date options = .returned (.string tmpl)) ∧
      (2 ≤ d.natAbs / 86400 → d.natAbs / 86400 ≤ 6 →
        ∀ tmpl, t.lookup (if d < 0 then "days_ago" else "in_days") = some tmpl →
          humanizeDate host locales date options
            = .returned (.string
                (replaceFirst tmpl countToken (toString (d.natAbs / 86400))))) := by
  subst hd
  rw [humanizeDate_ok host locales date options time hdate, htr, hno]
  constructor
  · intro h tmpl htmpl
    rw [humanizeDiff_one_day _ _ _ _ h, past_key]
    exact returnTemplate_table t _ tmpl htmpl
  · intro h1 h2 tmpl htmpl
    rw [humanizeDiff_days _ _ _ _ h1 h2, past_key]
    exact formatMessage_table t _ tmpl _ htmpl

/-- C10, at the inputs of the specification: 86400 s before the reference gives
`yesterday`, 86400 s after it `tomorrow`, three days before `3 days ago` and three
days after `in 3 days`. -/
theorem day_buckets_witness :
    humanizeDate exampleHost initialLocales (.date (some (-86400000))) { now := some 0 }
        = .returned (.string "yesterday") ∧
      humanizeDate exampleHost initialLocales (.date (some 86400000)) { now := some 0 }
        = .returned (.string "tomorrow") ∧
      humanizeDate exampleHost initialLocales (.date (some (-259200000))) { now := some 0 }
        = .returned (.string "3 days ago") ∧
      humanizeDate exampleHost initialLocales (.date (some 259200000)) { now := some 0 }
        = .returned (.string "in 3 days") :=
  ⟨(day_buckets exampleHost initialLocales (.date (some (-86400000))) { now := some 0 }
      (-86400000) enTable (-86400) rfl (by decide) (by decide) rfl).1 (by decide)
      "yesterday" (by decide),
    (day_buckets exampleHost initialLocales (.date (some 86400000)) { now := some 0 }
      86400000 enTable 86400 rfl (by decide) (by decide) rfl).1 (by decide)
      "tomorrow" (by decide),
    ((day_buckets exampleHost initialLocales (.date (some (-259200000))) { now := some 0 }
      (-259200000) enTable (-259200) rfl (by decide) (by decide) rfl).2 (by decide)
      (by decide) "{count} days ago" (by decide)).trans (by decide),
    ((day_buckets exampleHost initialLocales (.date (some 259200000)) { now := some 0 }
      259200000 enTable 259200 rfl (by decide) (by decide) rfl).2 (by decide)
      (by decide) "in {count} days" (by decide)).trans (by decide)⟩

/-! ## The path taken -/

theorem render_ite (tr : Value) (c : Prop) [Decidable c] (X Y : Result) (x y : Choice)
    (hx : X = x.render tr) (hy : Y = y.render tr) :
    (if c then X else Y) = (if c then x else y).render tr := by
  split_ifs <;> assumption

/-- `humanizeDiff` is the rendering of `choice`. -/
theorem humanizeDiff_render (tr : Value) (minute : Option Int) (inc past : Bool) (a : Nat) :
    humanizeDiff tr minute inc past a = (choice minute inc past a).render tr := by
  unfold humanizeDiff choice
  dsimp only
  repeat' first
    | rfl
    | apply render_ite

/-- `humanizeDate` is the rendering of `choiceFor`, when the date is parsed. -/
theorem humanizeDate_render (host : Host) (locales : Locales) (date : JSValue)
    (options : Options) (time : Int) (h : toDate host date = .ok time) :
    humanizeDate host locales date options
      = (choiceFor host options time).render (translationsFor locales options) := by
  rw [humanizeDate_ok host locales date options time h, humanizeDiff_render]
  rfl

/-- When the special case for the minute threshold does not apply, the threshold has no
effect. -/
theorem choice_of_not_override (minute : Option Int) (inc past : Bool) (a : Nat)
    (hm : minuteOverride minute (a / 60) = false) :
    choice minute inc past a = choice none inc past a := by
  have h0 : minuteOverride none (a / 60) = false := rfl
  simp only [choice, hm, h0]

/-- When the special case for the minute threshold applies, the minutes are reported. -/
theorem choice_override (minute : Option Int) (inc past : Bool) (a : Nat)
    (hm : minuteOverride minute (a / 60) = true) :
    choice minute inc past a
      = ⟨if past then "minutes_ago" else "in_minutes", some (a / 60)⟩ := by
  simp only [choice, hm, if_true]

theorem minuteOverride_iff (minute : Option Int) (m : Nat) :
    minuteOverride minute m = true ↔ ∃ x, minute = some x ∧ 60 < m ∧ (m : Int) ≤ x := by
  cases minute with
  | none => simp [minuteOverride]
  | some x =>
    simp only [minuteOverride, Bool.and_eq_true, bne_iff_ne, ne_eq, decide_eq_true_eq,
      Option.some.injEq, exists_eq_left']
    constructor
    · rintro ⟨⟨_, h2⟩, h3⟩; exact ⟨h2, h3⟩
    · rintro ⟨h2, h3⟩; exact ⟨⟨by omega, h2⟩, h3⟩

theorem choice_just_now (inc past : Bool) (a : Nat) (h : a < 5) (hi : inc = true) :
    choice none inc past a = ⟨"just_now", none⟩ := by
  simp only [choice, minuteOverride]
  simp [h, hi]

theorem choice_seconds (inc past : Bool) (a : Nat) (h : ¬ (a < 5 ∧ inc = true))
    (h2 : a < 60) :
    choice none inc past a = ⟨if past then "seconds_ago" else "in_seconds", some a⟩ := by
  simp only [choice, minuteOverride]
  have h3 : (decide (a < 5) && inc) = false := by
    cases inc <;> simp_all
  simp [h2, h3]

theorem choice_minute (inc past : Bool) (a : Nat) (h1 : 60 ≤ a) (h2 : a < 120) :
    choice none inc past a = ⟨if past then "minute_ago" else "in_minute", none⟩ := by
  have e1 : ¬ a < 5 := by omega
  have e2 : ¬ a < 60 := by omega
  have e3 : a / 60 < 60 := by omega
  have e4 : a / 60 = 1 := by omega
  simp only [choice, minuteOverride]
  simp [e1, e2, e3, e4]

theorem choice_minutes (inc past : Bool) (a : Nat) (h1 : 120 ≤ a) (h2 : a < 3600) :
    choice none inc past a
      = ⟨if past then "minutes_ago" else "in_minutes", some (a / 60)⟩ := by
  have e1 : ¬ a < 5 := by omega
  have e2 : ¬ a < 60 := by omega
  have e3 : a / 60 < 60 := by omega
  have e4 : ¬ a / 60 = 1 := by omega
  simp only [choice, minuteOverride]
  simp [e1, e2, e3, e4]

theorem choice_hour (inc past : Bool) (a : Nat) (h1 : 3600 ≤ a) (h2 : a < 7200) :
    choice none inc past a = ⟨if past then "hour_ago" else "in_hour", none⟩ := by
  have e1 : ¬ a < 5 := by omega
  have e2 : ¬ a < 60 := by omega
  have e3 : ¬ a / 60 < 60 := by omega
  have e4 : a / 3600 < 24 := by omega
  have e5 : a / 3600 = 1 := by omega
  simp only [choice, minuteOverride]
  simp [e1, e2, e3, e4, e5]

theorem choice_hours (inc past : Bool) (a : Nat) (h1 : 7200 ≤ a) (h2 : a < 86400) :
    choice none inc past a = ⟨if past then "hours_ago" else "in_hours", some (a / 3600)⟩ := by
  have e1 : ¬ a < 5 := by omega
  have e2 : ¬ a < 60 := by omega
  have e3 : ¬ a / 60 < 60 := by omega
  have e4 : a / 3600 < 24 := by omega
  have e5 : ¬ a / 3600 = 1 := by omega
  simp only [choice, minuteOverride]
  simp [e1, e2, e3, e4, e5]

theorem choice_one_day (inc past : Bool) (a : Nat) (h : a / 86400 = 1) :
    choice none inc past a = ⟨if past then "yesterday" else "tomorrow", none⟩ := by
  have e1 : ¬ a < 5 := by omega
  have e2 : ¬ a < 60 := by omega
  have e3 : ¬ a / 60 < 60 := by omega
  have e4 : ¬ a / 3600 < 24 := by omega
  have e5 : ¬ a / 86400 = 7 := by omega
  have e6 : ¬ a / 86400 = 21 := by omega
  have e7 : ¬ a / 86400 = 31 := by omega
  have e8 : ¬ a / 86400 = 365 := by omega
  have e9 : ¬ a = 604800 := by omega
  have e10 : ¬ a = 1814400 := by omega
  have e11 : ¬ a = 2678400 := by omega
  have e12 : ¬ a = 31536000 := by omega
  simp only [choice, minuteOverride]
  cases past <;> simp [e1, e2, e3, e4, e5, e6, e7, e8, e9, e10, e11, e12, h]

theorem choice_days (inc past : Bool) (a : Nat) (h1 : 2 ≤ a / 86400) (h2 : a / 86400 ≤ 6) :
    choice none inc past a = ⟨if past then "days_ago" else "in_days", some (a / 86400)⟩ := by
  have e1 : ¬ a < 5 := by omega
  have e2 : ¬ a < 60 := by omega
  have e3 : ¬ a / 60 < 60 := by omega
  have e4 : ¬ a / 3600 < 24 := by omega
  have e5 : ¬ a / 86400 = 7 := by omega
  have e6 : ¬ a / 86400 = 21 := by omega
  have e7 : ¬ a / 86400 = 31 := by omega
  have e8 : ¬ a / 86400 = 365 := by omega
  have e9 : ¬ a = 604800 := by omega
  have e10 : ¬ a = 1814400 := by omega
  have e11 : ¬ a = 2678400 := by omega
  have e12 : ¬ a = 31536000 := by omega
  have e13 : ¬ a / 86400 = 1 := by omega
  have e14 : ¬ a = 86400 := by omega
  have e15 : a / 86400 < 7 := by omega
  simp only [choice, minuteOverride]
  cases past <;> simp [e1, e2, e3, e4, e5, e6, e7, e8, e9, e10, e11, e12, e13, e14, e15]

theorem choice_last_week (inc : Bool) (a : Nat) (h : a / 86400 = 7) :
    choice none inc true a = ⟨"last_week", none⟩ := by
  have e1 : ¬ a < 5 := by omega
  have e2 : ¬ a < 60 := by omega
  have e3 : ¬ a / 60 < 60 := by omega
  have e4 : ¬ a / 3600 < 24 := by omega
  have e13 : ¬ a / 86400 = 1 := by omega
  have e14 : ¬ a = 86400 := by omega
  simp only [choice, minuteOverride]
  simp [e1, e2, e3, e4, e13, e14, h]

theorem choice_three_weeks (inc : Bool) (a : Nat) (h : a / 86400 = 21) :
    choice none inc true a = ⟨"weeks_ago", some 3⟩ := by
  have e1 : ¬ a < 5 := by omega
  have e2 : ¬ a < 60 := by omega
  have e3 : ¬ a / 60 < 60 := by omega
  have e4 : ¬ a / 3600 < 24 := by omega
  have e9 : ¬ a = 604800 := by omega
  have e13 : ¬ a / 86400 = 1 := by omega
  have e14 : ¬ a = 86400 := by omega
  simp only [choice, minuteOverride]
  simp [e1, e2, e3, e4, e9, e13, e14, h]

theorem choice_last_month (inc : Bool) (a : Nat) (h : a / 86400 = 31) :
    choice none inc true a = ⟨"last_month", none⟩ := by
  have e1 : ¬ a < 5 := by omega
  have e2 : ¬ a < 60 := by omega
  have e3 : ¬ a / 60 < 60 := by omega
  have e4 : ¬ a / 3600 < 24 := by omega
  have e9 : ¬ a = 604800 := by omega
  have e10 : ¬ a = 1814400 := by omega
  have e13 : ¬ a / 86400 = 1 := by omega
  have e14 : ¬ a = 86400 := by omega
  simp only [choice, minuteOverride]
  simp [e1, e2, e3, e4, e9, e10, e13, e14, h]

theorem choice_last_year (inc : Bool) (a : Nat) (h : a / 86400 = 365) :
    choice none inc true a = ⟨"last_year", none⟩ := by
  have e1 : ¬ a < 5 := by omega
  have e2 : ¬ a < 60 := by omega
  have e3 : ¬ a / 60 < 60 := by omega
  have e4 : ¬ a / 3600 < 24 := by omega
  have e9 : ¬ a = 604800 := by omega
  have e10 : ¬ a = 1814400 := by omega
  have e11 : ¬ a = 2678400 := by omega
  have e13 : ¬ a / 86400 = 1 := by omega
  have e14 : ¬ a = 86400 := by omega
  simp only [choice, minuteOverride]
  simp [e1, e2, e3, e4, e9, e10, e11, e13, e14, h]

/-- From seven days on, outside the idioms of the past: weeks, months, years. -/
theorem choice_generic (inc past : Bool) (a : Nat) (h7 : 7 ≤ a / 86400)
    (hid : past = true →
      a / 86400 ≠ 7 ∧ a / 86400 ≠ 21 ∧ a / 86400 ≠ 31 ∧ a / 86400 ≠ 365) :
    choice none inc past a =
      if a / 604800 < 4 then
        ⟨if past then "weeks_ago" else "in_weeks", some (a / 604800)⟩
      else if a / 2592000 < 12 then
        ⟨if past then "months_ago" else "in_months", some (a / 2592000)⟩
      else
        ⟨if past then "years_ago" else "in_years", some (a / 31536000)⟩ := by
  have e1 : ¬ a < 5 := by omega
  have e2 : ¬ a < 60 := by omega
  have e3 : ¬ a / 60 < 60 := by omega
  have e4 : ¬ a / 3600 < 24 := by omega
  have e13 : ¬ a / 86400 = 1 := by omega
  have e14 : ¬ a = 86400 := by omega
  have e15 : ¬ a / 86400 < 7 := by omega
  cases past with
  | false =>
    simp only [choice, minuteOverride]
    simp [e1, e2, e3, e4, e13, e14, e15]
  | true =>
    obtain ⟨e5, e6, e7, e8⟩ := hid rfl
    have e9 : ¬ a = 604800 := by omega
    have e10 : ¬ a = 1814400 := by omega
    have e11 : ¬ a = 2678400 := by omega
    have e12 : ¬ a = 31536000 := by omega
    simp only [choice, minuteOverride]
    simp [e1, e2, e3, e4, e5, e6, e7, e8, e9, e10, e11, e12, e13, e14, e15]

/-- The regions of the difference and the choice in each, without a minute threshold. -/
theorem choice_cases (inc past : Bool) (a : Nat) :
    ((a < 5 ∧ inc = true) ∧ choice none inc past a = ⟨"just_now", none⟩) ∨
    ((¬ (a < 5 ∧ inc = true) ∧ a < 60) ∧ choice none inc past a
        = ⟨if past then "seconds_ago" else "in_seconds", some a⟩) ∨
    ((60 ≤ a ∧ a < 120) ∧ choice none inc past a
        = ⟨if past then "minute_ago" else "in_minute", none⟩) ∨
    ((120 ≤ a ∧ a < 3600) ∧ choice none inc past a
        = ⟨if past then "minutes_ago" else "in_minutes", some (a / 60)⟩) ∨
    ((3600 ≤ a ∧ a < 7200) ∧ choice none inc past a
        = ⟨if past then "hour_ago" else "in_hour", none⟩) ∨
    ((7200 ≤ a ∧ a < 86400) ∧ choice none inc past a
        = ⟨if past then "hours_ago" else "in_hours", some (a / 3600)⟩) ∨
    (a / 86400 = 1 ∧ choice none inc past a
        = ⟨if past then "yesterday" else "tomorrow", none⟩) ∨
    ((2 ≤ a / 86400 ∧ a / 86400 ≤ 6) ∧ choice none inc past a
        = ⟨if past then "days_ago" else "in_days", some (a / 86400)⟩) ∨
    ((past = true ∧ a / 86400 = 7) ∧ choice none inc past a = ⟨"last_week", none⟩) ∨
    ((past = true ∧ a / 86400 = 21) ∧ choice none inc past a = ⟨"weeks_ago", some 3⟩) ∨
    ((past = true ∧ a / 86400 = 31) ∧ choice none inc past a = ⟨"last_month", none⟩) ∨
    ((past = true ∧ a / 86400 = 365) ∧ choice none inc past a = ⟨"last_year", none⟩) ∨
    ((7 ≤ a / 86400 ∧ a / 86400 < 28 ∧
        (past = true → a / 86400 ≠ 7 ∧ a / 86400 ≠ 21)) ∧ choice none inc past a
        = ⟨if past then "weeks_ago" else "in_weeks", some (a / 604800)⟩) ∨
    ((28 ≤ a / 86400 ∧ a / 86400 < 360 ∧ (past = true → a / 86400 ≠ 31)) ∧
        choice none inc past a
        = ⟨if past then "months_ago" else "in_months", some (a / 2592000)⟩) ∨
    ((360 ≤ a / 86400 ∧ (past = true → a / 86400 ≠ 365)) ∧ choice none inc past a
        = ⟨if past then "years_ago" else "in_years", some (a / 31536000)⟩) := by
  by_cases h1 : a < 5 ∧ inc = true
  · exact Or.inl ⟨h1, choice_just_now inc past a h1.1 h1.2⟩
  by_cases h2 : a < 60
  · exact Or.inr (Or.inl ⟨⟨h1, h2⟩, choice_seconds inc past a h1 h2⟩)
  by_cases h3 : a < 120
  · exact Or.inr (Or.inr (Or.inl ⟨⟨by omega, h3⟩, choice_minute inc past a (by omega) h3⟩))
  by_cases h4 : a < 3600
  · exact Or.inr (Or.inr (Or.inr (Or.inl
      ⟨⟨by omega, h4⟩, choice_minutes inc past a (by omega) h4⟩)))
  by_cases h5 : a < 7200
  · exact Or.inr (Or.inr (Or.inr (Or.inr (Or.inl
      ⟨⟨by omega, h5⟩, choice_hour inc past a (by omega) h5⟩))))
  by_cases h6 : a < 86400
  · exact Or.inr (Or.inr (Or.inr (Or.inr (Or.inr (Or.inl
      ⟨⟨by omega, h6⟩, choice_hours inc past a (by omega) h6⟩)))))
  by_cases h7 : a / 86400 = 1
  · exact Or.inr (Or.inr (Or.inr (Or.inr (Or.inr (Or.inr (Or.inl
      ⟨h7, choice_one_day inc past a h7⟩))))))
  by_cases h8 : a / 86400 ≤ 6
  · exact Or.inr (Or.inr (Or.inr (Or.inr (Or.inr (Or.inr (Or.inr (Or.inl
      ⟨⟨by omega, h8⟩, choice_days inc past a (by omega) h8⟩)))))))
  by_cases h9 : past = true ∧ a / 86400 = 7
  · obtain ⟨hp, h⟩ := h9
    subst hp
    exact Or.inr (Or.inr (Or.inr (Or.inr (Or.inr (Or.inr (Or.inr (Or.inr (Or.inl
      ⟨⟨rfl, h⟩, choice_last_week inc a h⟩))))))))
  by_cases h10 : past = true ∧ a / 86400 = 21
  · obtain ⟨hp, h⟩ := h10
    subst hp
    exact Or.inr (Or.inr (Or.inr (Or.inr (Or.inr (Or.inr (Or.inr (Or.inr (Or.inr (Or.inl
      ⟨⟨rfl, h⟩, choice_three_weeks inc a h⟩)))))))))
  by_cases h11 : past = true ∧ a / 86400 = 31
  · obtain ⟨hp, h⟩ := h11
    subst hp
    exact Or.inr (Or.inr (Or.inr (Or.inr (Or.inr (Or.inr (Or.inr (Or.inr (Or.inr (Or.inr
      (Or.inl ⟨⟨rfl, h⟩, choice_last_month inc a h⟩))))))))))
  by_cases h12 : past = true ∧ a / 86400 = 365
  · obtain ⟨hp, h⟩ := h12
    subst hp
    exact Or.inr (Or.inr (Or.inr (Or.inr (Or.inr (Or.inr (Or.inr (Or.inr (Or.inr (Or.inr
      (Or.inr (Or.inl ⟨⟨rfl, h⟩, choice_last_year inc a h⟩)))))))))))
  have hid : past = true →
      a / 86400 ≠ 7 ∧ a / 86400 ≠ 21 ∧ a / 86400 ≠ 31 ∧ a / 86400 ≠ 365 :=
    fun hp => ⟨fun h => h9 ⟨hp, h⟩, fun h => h10 ⟨hp, h⟩, fun h => h11 ⟨hp, h⟩,
      fun h => h12 ⟨hp, h⟩⟩
  have hg := choice_generic inc past a (by omega) hid
  by_cases h13 : a / 86400 < 28
  · have hw : a / 604800 < 4 := by omega
    rw [if_pos hw] at hg
    exact Or.inr (Or.inr (Or.inr (Or.inr (Or.inr (Or.inr (Or.inr (Or.inr (Or.inr (Or.inr
      (Or.inr (Or.inr (Or.inl
        ⟨⟨by omega, h13, fun hp => ⟨(hid hp).1, (hid hp).2.1⟩⟩, hg⟩))))))))))))
  have hw : ¬ a / 604800 < 4 := by omega
  rw [if_neg hw] at hg
  by_cases h14 : a / 86400 < 360
  · have hmo : a / 2592000 < 12 := by omega
    rw [if_pos hmo] at hg
    exact Or.inr (Or.inr (Or.inr (Or.inr (Or.inr (Or.inr (Or.inr (Or.inr (Or.inr (Or.inr
      (Or.inr (Or.inr (Or.inr (Or.inl
        ⟨⟨by omega, h14, fun hp => (hid hp).2.2.1⟩, hg⟩)))))))))))))
  have hmo : ¬ a / 2592000 < 12 := by omega
  rw [if_neg hmo] at hg
  exact Or.inr (Or.inr (Or.inr (Or.inr (Or.inr (Or.inr (Or.inr (Or.inr (Or.inr (Or.inr
    (Or.inr (Or.inr (Or.inr (Or.inr
      ⟨⟨by omega, fun hp => (hid hp).2.2.2⟩, hg⟩)))))))))))))

theorem choiceFor_eq (host : Host) (options : Options) (time : Int)
    (hno : minuteThreshold options = none) :
    choiceFor host options time =
      choice none (options.includeSeconds != some false)
        (decide (diffSeconds host options time < 0)) (diffSeconds host options time).natAbs := by
  simp only [choiceFor, hno]

/-- The keys of the idioms of the past are chosen for their day counts only. -/
theorem choice_past_key_iff (inc : Bool) (a : Nat) :
    ((choice none inc true a).key = "last_week" ↔ a / 86400 = 7) ∧
      ((choice none inc true a).key = "last_month" ↔ a / 86400 = 31) ∧
      ((choice none inc true a).key = "last_year" ↔ a / 86400 = 365) := by
  rcases choice_cases inc true a with
    ⟨hr, h⟩ | ⟨hr, h⟩ | ⟨hr, h⟩ | ⟨hr, h⟩ | ⟨hr, h⟩ | ⟨hr, h⟩ | ⟨hr, h⟩ | ⟨hr, h⟩ |
    ⟨hr, h⟩ | ⟨hr, h⟩ | ⟨hr, h⟩ | ⟨hr, h⟩ | ⟨hr, h⟩ | ⟨hr, h⟩ | ⟨hr, h⟩ <;>
  rw [h] <;> simp at hr ⊢ <;> omega

/-- C11. Without a minute threshold override and for a past target: `last_week` is
chosen exactly when the whole days are 7, `last_month` exactly when they are 31,
`last_year` exactly when they are 365, and for 21 days the choice is `weeks_ago` with
count 3.  For a future target of these sizes the choice is `in_weeks` with count 1 (7
days) or 3 (21 days), `in_months` with count 1 (31 days), `in_years` with count 1 (365
days).  The result of `humanizeDate` is the rendering of the choice. -/
theorem past_idioms (host : Host) (locales : Locales) (date : JSValue)
    (options : Options) (time : Int) (d : Int)
    (hdate : toDate host date = .ok time)
    (hd : d = diffSeconds host options time)
    (hno : minuteThreshold options = none) :
    humanizeDate host locales date options
        = (choiceFor host options time).render (translationsFor locales options) ∧
      (d < 0 →
        ((choiceFor host options time).key = "last_week" ↔ d.natAbs / 86400 = 7) ∧
        ((choiceFor host options time).key = "last_month" ↔ d.natAbs / 86400 = 31) ∧
        ((choiceFor host options time).key = "last_year" ↔ d.natAbs / 86400 = 365) ∧
        (d.natAbs / 86400 = 7 → choiceFor host options time = ⟨"last_week", none⟩) ∧
        (d.natAbs / 86400 = 21 → choiceFor host options time = ⟨"weeks_ago", some 3⟩) ∧
        (d.natAbs / 86400 = 31 → choiceFor host options time = ⟨"last_month", none⟩) ∧
        (d.natAbs / 86400 = 365 → choiceFor host options time = ⟨"last_year", none⟩)) ∧
      (0 ≤ d →
        (d.natAbs / 86400 = 7 → choiceFor host options time = ⟨"in_weeks", some 1⟩) ∧
        (d.natAbs / 86400 = 21 → choiceFor host options time = ⟨"in_weeks", some 3⟩) ∧
        (d.natAbs / 86400 = 31 → choiceFor host options time = ⟨"in_months", some 1⟩) ∧
        (d.natAbs / 86400 = 365 → choiceFor host options time = ⟨"in_years", some 1⟩)) := by
  subst hd
  refine ⟨humanizeDate_render host locales date options time hdate, ?_, ?_⟩
  · intro hneg
    have hp : decide (diffSeconds host options time < 0) = true := by simpa using hneg
    rw [choiceFor_eq host options time hno, hp]
    obtain ⟨k1, k2, k3⟩ := choice_past_key_iff (options.includeSeconds != some false)
      (diffSeconds host options time).natAbs
    exact ⟨k1, k2, k3, choice_last_week _ _, choice_three_weeks _ _, choice_last_month _ _,
      choice_last_year _ _⟩
  · intro hpos
    have hp : decide (diffSeconds host options time < 0) = false := by
      simpa using hpos
    rw [choiceFor_eq host options time hno, hp]
    generalize (diffSeconds host options time).natAbs = a
    have hg : ∀ h7 : 7 ≤ a / 86400, _ :=
      fun h7 => choice_generic (options.includeSeconds != some false) false a h7
        (fun h => absurd h (by simp))
    refine ⟨?_, ?_, ?_, ?_⟩
    · intro h
      rw [hg (by omega), if_pos (by omega)]
      have : a / 604800 = 1 := by omega
      simp [this]
    · intro h
      rw [hg (by omega), if_pos (by omega)]
      have : a / 604800 = 3 := by omega
      simp [this]
    · intro h
      rw [hg (by omega), if_neg (by omega), if_pos (by omega)]
      have : a / 2592000 = 1 := by omega
      simp [this]
    · intro h
      rw [hg (by omega), if_neg (by omega), if_neg (by omega)]
      have : a / 31536000 = 1 := by omega
      simp [this]

/-- C11, at the inputs of the tests: 7 days before the reference gives `last week`,
21 days before `3 weeks ago`, 31 days before `last month`, 365 days before
`last year`; 7 days after gives `in 1 weeks`. -/
theorem past_idioms_witness :
    humanizeDate exampleHost initialLocales (.date (some (-604800000))) { now := some 0 }
        = .returned (.string "last week") ∧
      humanizeDate exampleHost initialLocales (.date (some (-1814400000))) { now := some 0 }
        = .returned (.string "3 weeks ago") ∧
      humanizeDate exampleHost initialLocales (.date (some (-2678400000))) { now := some 0 }
        = .returned (.string "last month") ∧
      humanizeDate exampleHost initialLocales (.date (some (-31536000000))) { now := some 0 }
        = .returned (.string "last year") ∧
      humanizeDate exampleHost initialLocales (.date (some 604800000)) { now := some 0 }
        = .returned (.string "in 1 weeks") := by
  have key : ∀ (time : Int) (c : Choice) (s : String),
      choiceFor exampleHost { now := some 0 } time = c →
      c.render (.table enTable) = .returned (.string s) →
      humanizeDate exampleHost initialLocales (.date (some time)) { now := some 0 }
        = .returned (.string s) := by
    intro time c s hc hs
    rw [(past_idioms exampleHost initialLocales (.date (some time)) { now := some 0 } time
      _ rfl rfl rfl).1, hc]
    exact hs
  refine ⟨?_, ?_, ?_, ?_, ?_⟩
  · exact key _ _ _ (((past_idioms exampleHost initialLocales (.date (some (-604800000)))
      { now := some 0 } (-604800000) (-604800) rfl (by decide) rfl).2.1 (by decide)).2.2.2.1
      (by decide)) (by decide)
  · exact key _ _ _ (((past_idioms exampleHost initialLocales (.date (some (-1814400000)))
      { now := some 0 } (-1814400000) (-1814400) rfl (by decide) rfl).2.1
      (by decide)).2.2.2.2.1 (by decide)) (by decide)
  · exact key _ _ _ (((past_idioms exampleHost initialLocales (.date (some (-2678400000)))
      { now := some 0 } (-2678400000) (-2678400) rfl (by decide) rfl).2.1
      (by decide)).2.2.2.2.2.1 (by decide)) (by decide)
  · exact key _ _ _ (((past_idioms exampleHost initialLocales (.date (some (-31536000000)))
      { now := some 0 } (-31536000000) (-31536000) rfl (by decide) rfl).2.1
      (by decide)).2.2.2.2.2.2 (by decide)) (by decide)
  · exact key _ _ _ (((past_idioms exampleHost initialLocales (.date (some 604800000))
      { now := some 0 } 604800000 604800 rfl (by decide) rfl).2.2 (by decide)).1
      (by decide)) (by decide)

/-- C12. Without a minute threshold override, for a difference of at least 7 days that
is not one of the idioms of the past (a past target with 7, 21, 31 or 365 whole days):
below 4 whole weeks the result is `weeks_ago` or `in_weeks` with the whole weeks; else
below 12 months of 30 days it is `months_ago` or `in_months` with these months; else it
is `years_ago` or `in_years` with the years of 365 days. -/
theorem week_month_year_buckets (host : Host) (locales : Locales) (date : JSValue)
    (options : Options) (time : Int) (t : Table) (d : Int)
    (hdate : toDate host date = .ok time)
    (htr : translationsFor locales options = .table t)
    (hd : d = diffSeconds host options time)
    (hno : minuteThreshold options = none)
    (h7 : 7 ≤ d.natAbs / 86400)
    (hid : d < 0 → d.natAbs / 86400 ≠ 7 ∧ d.natAbs / 86400 ≠ 21 ∧
      d.natAbs / 86400 ≠ 31 ∧ d.natAbs / 86400 ≠ 365) :
    (d.natAbs / 604800 < 4 →
        ∀ tmpl, t.lookup (if d < 0 then "weeks_ago" else "in_weeks") = some tmpl →
          humanizeDate host locales date options
            = .returned (.string
                (replaceFirst tmpl countToken (toString (d.natAbs / 604800))))) ∧
      (¬ d.natAbs / 604800 < 4 → d.natAbs / 2592000 < 12 →
        ∀ tmpl, t.lookup (if d < 0 then "months_ago" else "in_months") = some tmpl →
          humanizeDate host locales date options
            = .returned (.string
                (replaceFirst tmpl countToken (toString (d.natAbs / 2592000))))) ∧
      (¬ d.natAbs / 604800 < 4 → ¬ d.natAbs / 2592000 < 12 →
        ∀ tmpl, t.lookup (if d < 0 then "years_ago" else "in_years") = some tmpl →
          humanizeDate host locales date options
            = .returned (.string
                (replaceFirst tmpl countToken (toString (d.natAbs / 31536000))))) := by
  subst hd
  have hid2 : decide (diffSeconds host options time < 0) = true →
      (diffSeconds host options time).natAbs / 86400 ≠ 7 ∧
      (diffSeconds host options time).natAbs / 86400 ≠ 21 ∧
      (diffSeconds host options time).natAbs / 86400 ≠ 31 ∧
      (diffSeconds host options time).natAbs / 86400 ≠ 365 :=
    fun h => hid (by simpa using h)
  rw [humanizeDate_render host locales date options time hdate, htr,
    choiceFor_eq host options time hno, choice_generic _ _ _ h7 hid2]
  refine ⟨?_, ?_, ?_⟩
  · intro hw tmpl htmpl
    rw [if_pos hw, past_key]
    exact formatMessage_table t _ tmpl _ htmpl
  · intro hw hm tmpl htmpl
    rw [if_neg hw, if_pos hm, past_key]
    exact formatMessage_table t _ tmpl _ htmpl
  · intro hw hm tmpl htmpl
    rw [if_neg hw, if_neg hm, past_key]
    exact formatMessage_table t _ tmpl _ htmpl

/-- C12, at the inputs of the specification: 90 days before the reference gives
`3 months ago`, 1096 days before `3 years ago`, and 14 days after `in 2 weeks`; and at
two time values 9460799999999999 ms apart, where the subtraction rounds the difference up
to 9460800000000000, the result is `in 300000 years`. -/
theorem week_month_year_buckets_witness :
    humanizeDate exampleHost initialLocales (.date (some (-7776000000))) { now := some 0 }
        = .returned (.string "3 months ago") ∧
      humanizeDate exampleHost initialLocales (.date (some (-94694400000))) { now := some 0 }
        = .returned (.string "3 years ago") ∧
      humanizeDate exampleHost initialLocales (.date (some 1209600000)) { now := some 0 }
        = .returned (.string "in 2 weeks") ∧
      diffSeconds exampleHost { now := some (-820799999999999) } 8640000000000000
        = 9460800000000 ∧
      humanizeDate exampleHost initialLocales (.date (some 8640000000000000))
          { now := some (-820799999999999) }
        = .returned (.string "in 300000 years") :=
  ⟨((week_month_year_buckets exampleHost initialLocales (.date (some (-7776000000)))
      { now := some 0 } (-7776000000) enTable (-7776000) rfl (by decide) (by decide) rfl
      (by decide) (by decide)).2.1 (by decide) (by decide) "{count} months ago"
      (by decide)).trans (by decide),
    ((week_month_year_buckets exampleHost initialLocales (.date (some (-94694400000)))
      { now := some 0 } (-94694400000) enTable (-94694400) rfl (by decide) (by decide) rfl
      (by decide) (by decide)).2.2 (by decide) (by decide) "{count} years ago"
      (by decide)).trans (by decide),
    ((week_month_year_buckets exampleHost initialLocales (.date (some 1209600000))
      { now := some 0 } 1209600000 enTable 1209600 rfl (by decide) (by decide) rfl
      (by decide) (by decide)).1 (by decide) "in {count} weeks"
      (by decide)).trans (by decide),
    by decide,
    ((week_month_year_buckets exampleHost initialLocales (.date (some 8640000000000000))
      { now := some (-820799999999999) } 8640000000000000 enTable 9460800000000 rfl
      (by decide) (by decide) rfl (by decide) (by decide)).2.2 (by decide) (by decide)
      "in {count} years" (by decide)).trans (by decide)⟩

/-- C13. With a minute threshold `m` and more than 60 but at most `m` whole minutes of
difference, the result is the plural minutes template (`minutes_ago` for a negative
difference, `in_minutes` otherwise) with `{count}` replaced by the whole minutes,
whatever bucket or idiom the difference would otherwise fall into. -/
theorem minute_threshold_override (host : Host) (locales : Locales) (date : JSValue)
    (options : Options) (time : Int) (t : Table) (d : Int) (m : Int)
    (hdate : toDate host date = .ok time)
    (htr : translationsFor locales options = .table t)
    (hd : d = diffSeconds host options time)
    (hm : minuteThreshold options = some m)
    (h1 : 60 < d.natAbs / 60) (h2 : ((d.natAbs / 60 : Nat) : Int) ≤ m) :
    ∀ tmpl, t.lookup (if d < 0 then "minutes_ago" else "in_minutes") = some tmpl →
      humanizeDate host locales date options
        = .returned (.string (replaceFirst tmpl countToken (toString (d.natAbs / 60)))) := by
  subst hd
  intro tmpl htmpl
  have ho : minuteOverride (minuteThreshold options)
      ((diffSeconds host options time).natAbs / 60) = true := by
    rw [minuteOverride_iff]
    exact ⟨m, hm, h1, h2⟩
  rw [humanizeDate_render host locales date options time hdate, htr]
  unfold choiceFor
  rw [choice_override _ _ _ _ ho, past_key]
  exact formatMessage_table t _ tmpl _ htmpl

/-- C13, at the input of the tests: 90 minutes before the reference gives
`90 minutes ago` with the thresholds `{minute: 120}` and `an hour ago` without; and at
two time values 11999999999999999 ms apart, where the subtraction rounds the difference
up to 12000000000000000, the whole minutes are 200000000000, and with that number as
minute threshold the result is `in 200000000000 minutes`. -/
theorem minute_threshold_override_witness :
    humanizeDate exampleHost initialLocales (.date (some (-5400000)))
        { now := some 0, thresholds := some { minute := some 120 } }
        = .returned (.string "90 minutes ago") ∧
      humanizeDate exampleHost initialLocales (.date (some (-5400000))) { now := some 0 }
        = .returned (.string "an hour ago") ∧
      diffSeconds exampleHost
          { now := some (-3359999999999999),
            thresholds := some { minute := some 200000000000 } } 8640000000000000
        = 12000000000000 ∧
      humanizeDate exampleHost initialLocales (.date (some 8640000000000000))
          { now := some (-3359999999999999),
            thresholds := some { minute := some 200000000000 } }
        = .returned (.string "in 200000000000 minutes") :=
  ⟨((minute_threshold_override exampleHost initialLocales (.date (some (-5400000)))
      { now := some 0, thresholds := some { minute := some 120 } } (-5400000) enTable
      (-5400) 120 rfl (by decide) (by decide) rfl (by decide) (by decide))
      "{count} minutes ago" (by decide)).trans (by decide),
    by decide, by decide,
    ((minute_threshold_override exampleHost initialLocales (.date (some 8640000000000000))
      { now := some (-3359999999999999),
        thresholds := some { minute := some 200000000000 } } 8640000000000000 enTable
      12000000000000 200000000000 rfl (by decide) (by decide) rfl (by decide) (by decide))
      "in {count} minutes" (by decide)).trans (by decide)⟩

/-- C14. The thresholds for seconds, hours, days, weeks, months and years have no
effect on the result: two thresholds objects with the same minute entry give the same
result, and one without a minute entry gives the result of the default thresholds.  A
minute threshold `m` has no effect either unless the whole minutes of the difference
are more than 60 and at most `m`. -/
theorem other_thresholds_ignored (host : Host) (locales : Locales) (date : JSValue)
    (options : Options) :
    (∀ th th2 : Thresholds, th.minute = th2.minute →
        humanizeDate host locales date { options with thresholds := some th }
          = humanizeDate host locales date { options with thresholds := some th2 }) ∧
      (∀ th : Thresholds, th.minute = none →
        humanizeDate host locales date { options with thresholds := some th }
          = humanizeDate host locales date { options with thresholds := none }) ∧
      (∀ (th : Thresholds) (m : Int), th.minute = some m →
        (∀ time, toDate host date = .ok time →
          ¬ (60 < (diffSeconds host options time).natAbs / 60 ∧
            (((diffSeconds host options time).natAbs / 60 : Nat) : Int) ≤ m)) →
        humanizeDate host locales date { options with thresholds := some th }
          = humanizeDate host locales date { options with thresholds := none }) := by
  have hmain : ∀ o1 o2 : Options, o1.locale = o2.locale → o1.includeSeconds = o2.includeSeconds →
      o1.now = o2.now →
      (∀ time, toDate host date = .ok time →
        choice (minuteThreshold o1) (o1.includeSeconds != some false)
            (decide (diffSeconds host o1 time < 0)) (diffSeconds host o1 time).natAbs
          = choice (minuteThreshold o2) (o1.includeSeconds != some false)
            (decide (diffSeconds host o1 time < 0)) (diffSeconds host o1 time).natAbs) →
      humanizeDate host locales date o1 = humanizeDate host locales date o2 := by
    intro o1 o2 hl hi hn hc
    cases hdate : toDate host date with
    | error e => rw [humanizeDate_error _ _ _ _ e hdate, humanizeDate_error _ _ _ _ e hdate]
    | ok time =>
      have htr : translationsFor locales o1 = translationsFor locales o2 := by
        simp only [translationsFor, hl]
      have hds : diffSeconds host o1 time = diffSeconds host o2 time := by
        simp only [diffSeconds, hn]
      rw [humanizeDate_render _ _ _ _ time hdate, humanizeDate_render _ _ _ _ time hdate,
        htr]
      unfold choiceFor
      rw [hc time hdate, hds, hi]
  refine ⟨?_, ?_, ?_⟩
  · intro th th2 h
    apply hmain
    · rfl
    · rfl
    · rfl
    intro time _
    simp only [minuteThreshold, Option.bind, h]
  · intro th h
    apply hmain
    · rfl
    · rfl
    · rfl
    intro time _
    simp only [minuteThreshold, Option.bind, h]
  · intro th m h hnot
    apply hmain
    · rfl
    · rfl
    · rfl
    intro time hdate
    have hmt : minuteThreshold { options with thresholds := some th } = some m := by
      simp only [minuteThreshold, Option.bind, h]
    have hmt2 : minuteThreshold { options with thresholds := none } = none := rfl
    have hds : diffSeconds host { options with thresholds := some th } time
        = diffSeconds host options time := rfl
    rw [hmt, hmt2, hds]
    apply choice_of_not_override
    cases ho : minuteOverride (some m) ((diffSeconds host options time).natAbs / 60) with
    | false => rfl
    | true =>
      rw [minuteOverride_iff] at ho
      obtain ⟨x, hx, h1, h2⟩ := ho
      cases hx
      exact absurd ⟨h1, h2⟩ (hnot time hdate)

/-- C14, at inputs: 90 minutes before the reference, an hour threshold of 1 and a
minute threshold of 60 leave the result at `an hour ago`.  At two time values
11999999999999001 ms apart, where the subtraction rounds the difference to
11999999999999000 and the whole minutes are 199999999999, a minute threshold of
199999999998 leaves the result at `380517 years ago`, and one of 199999999999 gives
`199999999999 minutes ago`. -/
theorem other_thresholds_ignored_witness :
    humanizeDate exampleHost initialLocales (.date (some (-5400000)))
        { now := some 0, thresholds := some { hour := some 1, minute := some 60 } }
      = .returned (.string "an hour ago") ∧
      (diffSeconds exampleHost { now := some 3359999999999001 }
          (-8640000000000000)).natAbs / 60 = 199999999999 ∧
      humanizeDate exampleHost initialLocales (.date (some (-8640000000000000)))
          { now := some 3359999999999001,
            thresholds := some { minute := some 199999999998 } }
        = .returned (.string "380517 years ago") ∧
      humanizeDate exampleHost initialLocales (.date (some (-8640000000000000)))
          { now := some 3359999999999001,
            thresholds := some { minute := some 199999999999 } }
        = .returned (.string "199999999999 minutes ago") :=
  ⟨((other_thresholds_ignored exampleHost initialLocales (.date (some (-5400000)))
      { now := some 0 }).2.2 { hour := some 1, minute := some 60 } 60 rfl
      (fun time h => by
        have ht : time = -5400000 := by
          have h2 : toDate exampleHost (.date (some (-5400000))) = .ok (-5400000) := rfl
          rw [h2] at h
          exact (Except.ok.inj h).symm
        subst ht
        decide)).trans (by decide),
    by decide,
    ((other_thresholds_ignored exampleHost initialLocales
      (.date (some (-8640000000000000))) { now := some 3359999999999001 }).2.2
      { minute := some 199999999998 } 199999999998 rfl
      (fun time h => by
        have ht : time = -8640000000000000 := by
          have h2 : toDate exampleHost (.date (some (-8640000000000000)))
              = .ok (-8640000000000000) := rfl
          rw [h2] at h
          exact (Except.ok.inj h).symm
        subst ht
        decide)).trans (by decide),
    by decide⟩

/-! ## Tokens -/

theorem isPrefixOf_replaceFirstChars (tok : List Char) (htok : tok ≠ []) (r : Char)
    (rs : List Char) (hr : r.isDigit = true) :
    ∀ (l p : List Char), (∀ c ∈ p, c.isDigit = false) →
      p.isPrefixOf (replaceFirstChars tok (r :: rs) l) = true → p.isPrefixOf l = true := by
  intro l
  induction l with
  | nil =>
    intro p _ h
    have he : tok.isEmpty = false := by
      cases tok with
      | nil => exact absurd rfl htok
      | cons _ _ => rfl
    simpa [replaceFirstChars, he] using h
  | cons c cs ih =>
    intro p hp h
    cases p with
    | nil => rfl
    | cons x p2 =>
      unfold replaceFirstChars at h
      by_cases hpre : tok.isPrefixOf (c :: cs) = true
      · rw [if_pos hpre] at h
        simp only [List.cons_append, List.isPrefixOf, Bool.and_eq_true, beq_iff_eq] at h
        have hx := hp x (by simp)
        rw [h.1, hr] at hx
        exact absurd hx (by simp)
      · rw [if_neg hpre] at h
        simp only [List.isPrefixOf, Bool.and_eq_true, beq_iff_eq] at h ⊢
        exact ⟨h.1, ih p2 (fun c hc => hp c (List.mem_cons_of_mem _ hc)) h.2⟩

theorem includesChars_digits_append (t0 : Char) (ts : List Char) (h0 : t0.isDigit = false) :
    ∀ (rep rest : List Char), (∀ c ∈ rep, c.isDigit = true) →
      includesChars (t0 :: ts) (rep ++ rest) = true → includesChars (t0 :: ts) rest = true := by
  intro rep
  induction rep with
  | nil => intro rest _ h; simpa using h
  | cons r rs ih =>
    intro rest hrep h
    simp only [List.cons_append, includesChars, List.isPrefixOf, Bool.or_eq_true,
      Bool.and_eq_true, beq_iff_eq] at h
    rcases h with ⟨h1, _⟩ | h
    · have := hrep r (by simp)
      rw [← h1, h0] at this
      exact absurd this (by simp)
    · exact ih rest (fun c hc => hrep c (List.mem_cons_of_mem _ hc)) h

theorem includesChars_drop (tok : List Char) : ∀ (l : List Char) (k : Nat),
    includesChars tok (l.drop k) = true → includesChars tok l = true := by
  intro l
  induction l with
  | nil => intro k h; simpa using h
  | cons c cs ih =>
    intro k h
    cases k with
    | zero => simpa using h
    | succ k =>
      simp only [List.drop_succ_cons] at h
      unfold includesChars
      rw [ih k h, Bool.or_true]

theorem occurrencesChars_pos (tok : List Char) : ∀ l : List Char,
    includesChars tok l = true → 0 < occurrencesChars tok l := by
  intro l
  induction l with
  | nil => intro h; simp only [includesChars] at h; simp [occurrencesChars, h]
  | cons c cs ih =>
    intro h
    unfold includesChars at h
    unfold occurrencesChars
    rcases Bool.or_eq_true_iff.1 h with h1 | h1
    · rw [if_pos h1]; omega
    · have := ih h1; omega

/-- After the first `{count}` of a template with at most one token has been replaced by
digits, no token is left. -/
theorem includesChars_replaceFirstChars (rep : List Char) (hne : rep ≠ [])
    (hrep : ∀ c ∈ rep, c.isDigit = true) :
    ∀ l : List Char, occurrencesChars countToken.data l ≤ 1 →
      includesChars countToken.data (replaceFirstChars countToken.data rep l) = false := by
  have htok : countToken.data = '{' :: "count\x7d".data := rfl
  have hnd : ∀ c ∈ countToken.data, c.isDigit = false := by decide
  obtain ⟨r, rs, hrr⟩ : ∃ r rs, rep = r :: rs := by
    cases rep with
    | nil => exact absurd rfl hne
    | cons r rs => exact ⟨r, rs, rfl⟩
  intro l
  induction l with
  | nil => intro _; rfl
  | cons c cs ih =>
    intro hocc
    unfold occurrencesChars at hocc
    unfold replaceFirstChars
    by_cases hpre : countToken.data.isPrefixOf (c :: cs) = true
    · rw [if_pos hpre] at hocc ⊢
      have h0 : occurrencesChars countToken.data cs = 0 := by omega
      by_contra hc
      have hc2 : includesChars countToken.data
          (rep ++ (c :: cs).drop countToken.data.length) = true := by simpa using hc
      rw [htok] at hc2
      have h3 := includesChars_digits_append '{' _ (by decide) rep _ hrep hc2
      rw [← htok] at h3
      have h4 : includesChars countToken.data cs = true := by
        have hlen : countToken.data.length = 6 + 1 := rfl
        rw [hlen, List.drop_succ_cons] at h3
        exact includesChars_drop _ _ _ h3
      have := occurrencesChars_pos _ _ h4
      omega
    · rw [if_neg hpre] at hocc ⊢
      have h1 : occurrencesChars countToken.data cs ≤ 1 := by omega
      unfold includesChars
      rw [ih h1, Bool.or_false]
      by_contra hc
      have hc2 : countToken.data.isPrefixOf
          (c :: replaceFirstChars countToken.data rep cs) = true := by simpa using hc
      have hstep : replaceFirstChars countToken.data rep (c :: cs)
          = c :: replaceFirstChars countToken.data rep cs := by
        rw [replaceFirstChars, if_neg hpre]
      rw [← hstep, hrr] at hc2
      have := isPrefixOf_replaceFirstChars countToken.data (by decide) r rs
        (hrep r (by rw [hrr]; simp)) (c :: cs) countToken.data hnd hc2
      exact hpre this

/-- `formatMessage` leaves no token in a template with at most one token. -/
theorem replaceFirst_no_token (s : String) (n : Nat) (h : occurrences s countToken ≤ 1) :
    includes (replaceFirst s countToken (toString n)) countToken = false := by
  unfold includes replaceFirst
  exact includesChars_replaceFirstChars _ (toString_ne_nil n) (toString_isDigit n) _ h

/-! ## The registry, continued -/

/-- A write under another code leaves the own property `en` as it was. -/
theorem lookup_en_write (locales : Locales) (code : String) (v e : Option Table)
    (hcode : code ≠ "en") (hen : locales.own.lookup "en" = some e) :
    (locales.write code v).own.lookup "en" = some e := by
  unfold Locales.write
  split_ifs
  · show (replaceOwn code v locales.own).lookup "en" = some e
    rw [lookup_replaceOwn_other code "en" v (Ne.symm hcode), hen]
  · exact hen
  · show (locales.own ++ [(code, v)]).lookup "en" = some e
    rw [lookup_append_singleton, hen]

/-- With `locales.en` a table, `addLocale` returns `true` exactly for the tables that
pass the check against its keys. -/
theorem addLocale_true_iff (locales : Locales) (code : String) (t en : Table)
    (hen : locales.get DEFAULT_LOCALE = .table en) :
    (addLocale locales (.string code) (.table t)).1 = .returned true ↔
      ∀ k ∈ ownKeys en, (t.get k).truthy = true := by
  rw [addLocale_table locales code t en hen]
  by_cases h : ∀ k ∈ ownKeys en, (t.get k).truthy = true
  · rw [if_pos h]; exact ⟨fun _ => h, fun _ => rfl⟩
  · rw [if_neg h]; exact ⟨fun h2 => absurd h2 (by simp), fun h2 => absurd h2 h⟩

/-! ## The claims, continued -/

/-- C15 (counterexample). The table `en` of the source has 27 keys, not 28, and so
have `es` and `fr`. -/
theorem builtin_keys_counterexample :
    (ownKeys enTable).length = 27 ∧ (ownKeys esTable).length = 27 ∧
      (ownKeys frTable).length = 27 ∧ (ownKeys enTable).length ≠ 28 := by
  refine ⟨by decide, by decide, by decide, by decide⟩

/-- C15 (amended). The tables `en`, `es` and `fr` of the source have exactly 27 keys
each, the same ones, which are the keys the specification lists; and in the initial
registry `addLocale` returns `true` for a code and a table exactly when the table has a
non-empty value for each of these keys. -/
theorem builtin_keys :
    (ownKeys enTable).length = 27 ∧ (ownKeys esTable).length = 27 ∧
      (ownKeys frTable).length = 27 ∧
      ownKeys esTable = ownKeys enTable ∧ ownKeys frTable = ownKeys enTable ∧
      ownKeys enTable = requiredKeys ∧
      (∀ code t, (addLocale initialLocales (.string code) (.table t)).1 = .returned true ↔
        ∀ k ∈ ownKeys enTable, ∃ s, t.lookup k = some s ∧ s ≠ "") := by
  refine ⟨by decide, by decide, by decide, by decide, by decide, by decide, ?_⟩
  intro code t
  have hen : initialLocales.get DEFAULT_LOCALE = .table enTable := by decide
  have hk : ownKeys enTable = requiredKeys := by decide
  rw [addLocale_true_iff initialLocales code t enTable hen, initial_check_iff_complete, hk]
  constructor
  · intro h k hk2; exact (hasValue_iff t k).1 (h k hk2)
  · intro h k hk2; exact (hasValue_iff t k).2 (h k hk2)

/-- C15, at the German table of the tests: it is accepted in the initial registry, so
it has a non-empty value for each of the 27 keys. -/
theorem builtin_keys_witness :
    (addLocale initialLocales (.string "de") (.table deTable)).1 = .returned true ∧
      ∀ k ∈ ownKeys enTable, ∃ s, deTable.lookup k = some s ∧ s ≠ "" :=
  ⟨by decide, (builtin_keys.2.2.2.2.2.2 "de" deTable).1 (by decide)⟩

/-- C16 (counterexample). With the empty string as code and the complete German table,
`addLocale` returns `true` and stores the table under the empty code; and with `null`
as translations it raises a `TypeError` instead of returning `false`, or, once the table
under `en` has no own key (after `addLocale("en", Object.create(en))`), returns
`true`. -/
theorem addLocale_argument_types_counterexample :
    (addLocale initialLocales (.string "") (.table deTable)).1 = .returned true ∧
      (addLocale initialLocales (.string "") (.table deTable)).2 ≠ initialLocales ∧
      getSupportedLocales (addLocale initialLocales (.string "") (.table deTable)).2
        = ["en", "es", "fr", ""] ∧
      (addLocale initialLocales (.string "de") .null).1 = .typeError ∧
      (addLocale (addLocale initialLocales (.string "en") (.table enTableInherited)).2
          (.string "de") .null).1 = .returned true := by
  refine ⟨by decide, by decide, by decide, by decide, by decide⟩

/-- C16 (amended). `addLocale` returns `false` and leaves the registry unchanged when
the code is not a string and when the `typeof` of the translations is not `object`,
whatever the other argument is; it returns `true` only for a string and a value whose
`typeof` is `object`: a table, or `null` when the table under `en` has no own key; it
changes the registry only when it returns `true`; the empty string is a code like any
other: with a table that passes the check it is accepted. -/
theorem addLocale_argument_types (locales : Locales) (locale : JSValue)
    (translations : TranslationsArg) :
    ((∀ code, locale ≠ .string code) →
        addLocale locales locale translations = (.returned false, locales)) ∧
      (translations = .nonObject →
        addLocale locales locale translations = (.returned false, locales)) ∧
      ((addLocale locales locale translations).1 = .returned true →
        ∃ code, locale = .string code ∧
          ((∃ t, translations = .table t) ∨
            (translations = .null ∧
              ∃ en, locales.get DEFAULT_LOCALE = .table en ∧ ownKeys en = []))) ∧
      ((addLocale locales locale translations).2 ≠ locales →
        (addLocale locales locale translations).1 = .returned true) ∧
      (∀ en t, locales.get DEFAULT_LOCALE = .table en →
        (∀ k ∈ ownKeys en, (t.get k).truthy = true) →
        addLocale locales (.string "") (.table t) = (.returned true, locales.set "" t)) := by
  refine ⟨?_, ?_, ?_, ?_, ?_⟩
  · intro h
    cases locale with
    | string code => exact absurd rfl (h code)
    | undefined => cases translations <;> rfl
    | null => cases translations <;> rfl
    | boolean b => cases translations <;> rfl
    | number n => cases translations <;> rfl
    | date d => cases translations <;> rfl
    | object o => cases translations <;> rfl
  · intro h
    subst h
    cases locale <;> rfl
  · intro h
    cases locale with
    | string code =>
      refine ⟨code, rfl, ?_⟩
      cases translations with
      | table t => exact Or.inl ⟨t, rfl⟩
      | nonObject => exact absurd h (by simp [addLocale])
      | null =>
        right
        refine ⟨rfl, ?_⟩
        cases hen : locales.get DEFAULT_LOCALE with
        | table en =>
          rw [addLocale_null locales code en hen] at h
          by_cases h0 : ownKeys en = []
          · exact ⟨en, rfl, h0⟩
          · rw [if_neg h0] at h; exact absurd h (by simp)
        | undefined => simp only [addLocale, hen] at h; exact absurd h (by simp)
        | null => simp only [addLocale, hen] at h; exact absurd h (by simp)
        | string s => simp only [addLocale, hen] at h; exact absurd h (by simp)
        | builtin => simp only [addLocale, hen] at h; exact absurd h (by simp)
    | undefined => cases translations <;> exact absurd h (by simp [addLocale])
    | null => cases translations <;> exact absurd h (by simp [addLocale])
    | boolean b => cases translations <;> exact absurd h (by simp [addLocale])
    | number n => cases translations <;> exact absurd h (by simp [addLocale])
    | date d => cases translations <;> exact absurd h (by simp [addLocale])
    | object o => cases translations <;> exact absurd h (by simp [addLocale])
  · intro h
    rcases addLocale_snd locales locale translations with hs | ⟨_, _, _, _, h3, _⟩
    · exact absurd hs h
    · exact h3
  · intro en t hen hk
    rw [addLocale_table locales "" t en hen, if_pos hk]

/-- C16, at inputs: a number as code and a value that is not an object as translations
are rejected, and the registry stays as it was. -/
theorem addLocale_argument_types_witness :
    addLocale initialLocales (.number (.finite 1 0)) (.table deTable)
        = (.returned false, initialLocales) ∧
      addLocale initialLocales (.string "de") .nonObject
        = (.returned false, initialLocales) :=
  ⟨(addLocale_argument_types initialLocales (.number (.finite 1 0)) (.table deTable)).1
      (fun _ h => by cases h),
    (addLocale_argument_types initialLocales (.string "de") .nonObject).2.1 rfl⟩

/-- C17 (counterexample). The German table of the tests with the singular template
`vor {count} Minute` has at most one token in every template and is accepted, yet a
date one minute before the reference gives that template with the token left in.  And
once the table under `en` has no own key (after `addLocale("en", Object.create(en))`),
the table `{ seconds_ago: "x" }`, whose only template has no token, is accepted, and a
date 5 minutes before the reference raises a `TypeError` instead of returning a
string. -/
theorem no_token_left_counterexample :
    (∀ p ∈ deTableCounted.own, occurrences p.2 countToken ≤ 1) ∧
      deTableCounted.inherited = [] ∧
      (addLocale initialLocales (.string "de") (.table deTableCounted)).1
        = .returned true ∧
      humanizeDate exampleHost
          (addLocale initialLocales (.string "de") (.table deTableCounted)).2
          (.date (some (-60000))) { locale := some "de", now := some 0 }
        = .returned (.string "vor {count} Minute") ∧
      includes "vor {count} Minute" countToken = true ∧
      (∀ p ∈ secondsOnlyTable.own, occurrences p.2 countToken ≤ 1) ∧
      secondsOnlyTable.inherited = [] ∧
      (addLocale initialLocales (.string "en") (.table enTableInherited)).1
        = .returned true ∧
      (addLocale (addLocale initialLocales (.string "en") (.table enTableInherited)).2
          (.string "it") (.table secondsOnlyTable)).1 = .returned true ∧
      humanizeDate exampleHost
          (addLocale (addLocale initialLocales (.string "en") (.table enTableInherited)).2
            (.string "it") (.table secondsOnlyTable)).2
          (.date (some (-300000))) { locale := some "it", now := some 0 }
        = .typeError := by
  refine ⟨by decide, by decide, by decide, by decide, by decide, by decide, by decide,
    by decide, by decide, by decide⟩

/-- C17 (amended). Let a table be accepted by `addLocale` in a registry whose table
under `en` has the required keys among its own keys, and let it have at most one
`{count}` token in each template that takes a count and none in the templates that are
returned as they are.  Whenever `humanizeDate` takes its templates from this table, it
returns a string with no token left: either one of the latter templates, or a template
with its token replaced by the decimal string of the count. -/
theorem no_token_left (registry : Locales) (en t : Table) (code : JSValue)
    (hen : registry.get DEFAULT_LOCALE = .table en)
    (hreq : ∀ k ∈ requiredKeys, k ∈ ownKeys en)
    (hacc : (addLocale registry code (.table t)).1 = .returned true)
    (hcount : ∀ k ∈ countKeys, ∀ s, t.lookup k = some s → occurrences s countToken ≤ 1)
    (hverb : ∀ k ∈ verbatimKeys, ∀ s, t.lookup k = some s → includes s countToken = false)
    (host : Host) (locales : Locales) (date : JSValue) (options : Options) (time : Int)
    (hdate : toDate host date = .ok time)
    (htr : translationsFor locales options = .table t) :
    ∃ s, humanizeDate host locales date options = .returned (.string s) ∧
      includes s countToken = false ∧
      ((∃ k ∈ verbatimKeys, t.lookup k = some s) ∨
        (∃ k ∈ countKeys, ∃ (tmpl : String) (n : Nat), t.lookup k = some tmpl ∧
          s = replaceFirst tmpl countToken (toString n))) := by
  have hcomp : t.complete := by
    cases code with
    | string c =>
      exact complete_of_validated en t hreq ((addLocale_true_iff registry c t en hen).1 hacc)
    | undefined => exact absurd hacc (by simp [addLocale])
    | null => exact absurd hacc (by simp [addLocale])
    | boolean b => exact absurd hacc (by simp [addLocale])
    | number n => exact absurd hacc (by simp [addLocale])
    | date d => exact absurd hacc (by simp [addLocale])
    | object o => exact absurd hacc (by simp [addLocale])
  have hsub1 : ∀ k ∈ verbatimKeys, k ∈ requiredKeys := by decide
  have hsub2 : ∀ k ∈ countKeys, k ∈ requiredKeys := by decide
  rw [humanizeDate_ok host locales date options time hdate, htr]
  rcases humanizeDiff_fromTemplate (.table t) (minuteThreshold options)
    (options.includeSeconds != some false) (decide (diffSeconds host options time < 0))
    (diffSeconds host options time).natAbs with ⟨k, hk, hr⟩ | ⟨k, hk, n, hr⟩
  · obtain ⟨s, hs, _⟩ := (hasValue_iff t k).1 (hcomp k (hsub1 k hk))
    exact ⟨s, by rw [hr, returnTemplate_table t k s hs], hverb k hk s hs,
      Or.inl ⟨k, hk, hs⟩⟩
  · obtain ⟨s, hs, _⟩ := (hasValue_iff t k).1 (hcomp k (hsub2 k hk))
    exact ⟨_, by rw [hr, formatMessage_table t k s n hs],
      replaceFirst_no_token s n (hcount k hk s hs), Or.inr ⟨k, hk, s, n, hs, rfl⟩⟩

/-- C17, at the German table of the tests: it is accepted in the initial registry,
whose table under `en` has the required keys, and after its registration a date 5
minutes before the reference gives, for the code `de`, a string free of tokens. -/
theorem no_token_left_witness :
    (addLocale initialLocales (.string "de") (.table deTable)).1 = .returned true ∧
      (∀ k ∈ requiredKeys, k ∈ ownKeys enTable) ∧
      ∃ s, humanizeDate exampleHost (addLocale initialLocales (.string "de")
            (.table deTable)).2 (.date (some (-300000)))
            { locale := some "de", now := some 0 } = .returned (.string s) ∧
        includes s countToken = false := by
  obtain ⟨s, h1, h2, _⟩ := no_token_left initialLocales enTable deTable (.string "de")
    (by decide) (by decide) (by decide) (by decide) (by decide) exampleHost
    (addLocale initialLocales (.string "de") (.table deTable)).2 (.date (some (-300000)))
    { locale := some "de", now := some 0 } (-300000) rfl (by decide)
  exact ⟨by decide, by decide, s, h1, h2⟩

/-- C18 (counterexample). The complete German table is accepted in the initial
registry, but rejected after `en` has been registered again with one more key.  The
empty object `{}` is rejected in the initial registry, but accepted after `en` has been
registered again with `Object.create(en)`, which has no own key; in that state `null` is
accepted under `en` too, and after that the call with the German table raises a
`TypeError`. -/
theorem required_keys_counterexample :
    deTable.complete ∧
      (addLocale initialLocales (.string "de") (.table deTable)).1 = .returned true ∧
      enTableExtended.complete ∧
      (addLocale initialLocales (.string "en") (.table enTableExtended)).1
        = .returned true ∧
      (addLocale (addLocale initialLocales (.string "en") (.table enTableExtended)).2
          (.string "de") (.table deTable)).1 = .returned false ∧
      (addLocale initialLocales (.string "it") (.table emptyTable)).1 = .returned false ∧
      (addLocale initialLocales (.string "en") (.table enTableInherited)).1
        = .returned true ∧
      (addLocale (addLocale initialLocales (.string "en") (.table enTableInherited)).2
          (.string "it") (.table emptyTable)).1 = .returned true ∧
      (addLocale (addLocale initialLocales (.string "en") (.table enTableInherited)).2
          (.string "en") .null).1 = .returned true ∧
      (addLocale
          (addLocale (addLocale initialLocales (.string "en") (.table enTableInherited)).2
            (.string "en") .null).2 (.string "de") (.table deTable)).1 = .typeError := by
  refine ⟨by decide, by decide, by decide, by decide, by decide, by decide, by decide,
    by decide, by decide, by decide⟩

/-- C18 (amended). In every registry with a table under `en`, the keys `addLocale`
requires are the own keys of that table: a table is accepted exactly when it has a
truthy value for each of them.  They are the required keys of the specification while
the own keys of the table under `en` are unchanged, and then a table is accepted
exactly when it has a non-empty value for each required key.  Calls of `addLocale` with
a code other than `en` never change which tables are accepted. -/
theorem required_keys_follow_default (locales : Locales) (en : Table)
    (hen : locales.get DEFAULT_LOCALE = .table en) :
    (∀ code t, (addLocale locales (.string code) (.table t)).1 = .returned true ↔
        ∀ k ∈ ownKeys en, (t.get k).truthy = true) ∧
      (ownKeys en = requiredKeys →
        ∀ code t, (addLocale locales (.string code) (.table t)).1 = .returned true ↔
          ∀ k ∈ requiredKeys, ∃ s, t.lookup k = some s ∧ s ≠ "") ∧
      (∀ locale translations, locale ≠ .string "en" →
        ∀ code t,
          (addLocale (addLocale locales locale translations).2 (.string code) (.table t)).1
            = (addLocale locales (.string code) (.table t)).1) := by
  refine ⟨fun code t => addLocale_true_iff locales code t en hen, ?_, ?_⟩
  · intro hkeys code t
    rw [addLocale_true_iff locales code t en hen, hkeys]
    constructor
    · intro h k hk
      have h1 := h k hk
      rw [truthy_get_required t k hk] at h1
      exact (hasValue_iff t k).1 h1
    · intro h k hk
      rw [truthy_get_required t k hk]
      exact (hasValue_iff t k).2 (h k hk)
  · intro locale translations hne code t
    rcases addLocale_snd locales locale translations with hs | ⟨c, v, h1, _, _, hs⟩
    · rw [hs]
    · rw [hs]
      have hc : c ≠ "en" := by
        intro h0
        apply hne
        rw [h1, h0]
      have hget2 := get_default_of_lookup _ en
        (lookup_en_write locales c v (some en) hc (lookup_of_get_default locales en hen))
      rw [addLocale_table _ code t en hget2, addLocale_table locales code t en hen]
      by_cases hv : ∀ k ∈ ownKeys en, (t.get k).truthy = true
      · rw [if_pos hv, if_pos hv]
      · rw [if_neg hv, if_neg hv]

/-- C18, at inputs: in the initial registry, where the own keys of the table under `en`
are the required keys, the German table is accepted, so it has a `just_now` template;
and it is accepted again under `at` after it has been registered under `de`. -/
theorem required_keys_follow_default_witness :
    initialLocales.get DEFAULT_LOCALE = .table enTable ∧
      ownKeys enTable = requiredKeys ∧
      (addLocale initialLocales (.string "de") (.table deTable)).1 = .returned true ∧
      (∃ s, deTable.lookup "just_now" = some s ∧ s ≠ "") ∧
      (addLocale (addLocale initialLocales (.string "de") (.table deTable)).2
          (.string "at") (.table deTable)).1 = .returned true := by
  have h := required_keys_follow_default initialLocales enTable (by decide)
  have hok : (addLocale initialLocales (.string "de") (.table deTable)).1 = .returned true :=
    by decide
  refine ⟨by decide, by decide, hok, ?_, ?_⟩
  · exact (h.2.1 (by decide) "de" deTable).1 hok "just_now" (by decide)
  · rw [h.2.2 (.string "de") (.table deTable) (by decide) "at" deTable]
    exact (h.1 "at" deTable).2 ((h.1 "de" deTable).1 hok)

/-- Without a minute threshold, a distance of at least 1 s chooses paired keys and the
same count in both directions, unless its whole days are 7, 31 or 365. -/
theorem choice_symmetry_none (inc : Bool) (n : Nat) (hn : 1 ≤ n)
    (hex : ¬ (n / 86400 = 7 ∨ n / 86400 = 31 ∨ n / 86400 = 365)) :
    ((choice none inc true n).key, (choice none inc false n).key) ∈ counterparts ∧
      (choice none inc true n).count = (choice none inc false n).count := by
  rcases choice_cases inc true n with
    ⟨hr, h⟩ | ⟨hr, h⟩ | ⟨hr, h⟩ | ⟨hr, h⟩ | ⟨hr, h⟩ | ⟨hr, h⟩ | ⟨hr, h⟩ | ⟨hr, h⟩ |
    ⟨hr, h⟩ | ⟨hr, h⟩ | ⟨hr, h⟩ | ⟨hr, h⟩ | ⟨hr, h⟩ | ⟨hr, h⟩ | ⟨hr, h⟩
  · rw [h, choice_just_now inc false n hr.1 hr.2]; exact ⟨by decide, rfl⟩
  · rw [h, choice_seconds inc false n hr.1 hr.2]; constructor <;> simp [counterparts]
  · rw [h, choice_minute inc false n hr.1 hr.2]; exact ⟨by decide, rfl⟩
  · rw [h, choice_minutes inc false n hr.1 hr.2]; constructor <;> simp [counterparts]
  · rw [h, choice_hour inc false n hr.1 hr.2]; exact ⟨by decide, rfl⟩
  · rw [h, choice_hours inc false n hr.1 hr.2]; constructor <;> simp [counterparts]
  · rw [h, choice_one_day inc false n hr]; exact ⟨by decide, rfl⟩
  · rw [h, choice_days inc false n hr.1 hr.2]; constructor <;> simp [counterparts]
  · exact absurd (Or.inl hr.2) hex
  · have hg := choice_generic inc false n (by omega) (fun h0 => absurd h0 (by simp))
    rw [if_pos (by omega)] at hg
    have h3 : n / 604800 = 3 := by omega
    rw [h, hg]
    constructor <;> simp [counterparts, h3]
  · exact absurd (Or.inr (Or.inl hr.2)) hex
  · exact absurd (Or.inr (Or.inr hr.2)) hex
  · have hg := choice_generic inc false n (by omega) (fun h0 => absurd h0 (by simp))
    rw [if_pos (by omega)] at hg
    rw [h, hg]
    constructor <;> simp [counterparts]
  · have hg := choice_generic inc false n (by omega) (fun h0 => absurd h0 (by simp))
    rw [if_neg (by omega), if_pos (by omega)] at hg
    rw [h, hg]
    constructor <;> simp [counterparts]
  · have hg := choice_generic inc false n (by omega) (fun h0 => absurd h0 (by simp))
    rw [if_neg (by omega), if_neg (by omega)] at hg
    rw [h, hg]
    constructor <;> simp [counterparts]

/-- The same with a minute threshold: the exception is only there when the special case
for the threshold does not apply. -/
theorem choice_symmetry (minute : Option Int) (inc : Bool) (n : Nat) (hn : 1 ≤ n)
    (hex : ¬ (minuteOverride minute (n / 60) = false ∧
      (n / 86400 = 7 ∨ n / 86400 = 31 ∨ n / 86400 = 365))) :
    ((choice minute inc true n).key, (choice minute inc false n).key) ∈ counterparts ∧
      (choice minute inc true n).count = (choice minute inc false n).count := by
  cases ho : minuteOverride minute (n / 60) with
  | true =>
    rw [choice_override minute inc true n ho, choice_override minute inc false n ho]
    constructor <;> simp [counterparts]
  | false =>
    rw [choice_of_not_override minute inc true n ho,
      choice_of_not_override minute inc false n ho]
    exact choice_symmetry_none inc n hn (fun h => hex ⟨ho, h⟩)

theorem diffSeconds_before (host : Host) (options : Options) (n : Nat) :
    diffSeconds host options (options.now.getD host.clock - 1000 * (n : Int)) = -(n : Int) := by
  unfold diffSeconds
  rw [roundToDouble_of_even _ (by omega)]
  omega

theorem diffSeconds_after (host : Host) (options : Options) (n : Nat) :
    diffSeconds host options (options.now.getD host.clock + 1000 * (n : Int)) = (n : Int) := by
  unfold diffSeconds
  rw [roundToDouble_of_even _ (by omega)]
  omega

/-- C19 (counterexample). At a distance of 0 s with `includeSeconds` set to `false`, the
target before the reference and the target after it are the same instant, both choose
`in_seconds` (`in 0 seconds`), and this is not a pair of a past key and its future
counterpart. -/
theorem past_future_symmetry_counterexample :
    choiceFor exampleHost { now := some 0, includeSeconds := some false } (0 - 1000 * 0)
        = ⟨"in_seconds", some 0⟩ ∧
      choiceFor exampleHost { now := some 0, includeSeconds := some false } (0 + 1000 * 0)
        = ⟨"in_seconds", some 0⟩ ∧
      ("in_seconds", "in_seconds") ∉ counterparts ∧
      humanizeDate exampleHost initialLocales (.date (some (0 - 1000 * 0)))
          { now := some 0, includeSeconds := some false }
        = .returned (.string "in 0 seconds") := by
  refine ⟨by decide, by decide, by decide, by decide⟩

/-- C19 (amended). For every distance of at least 1 whole second and every options
value, a target that far before the reference and a target that far after it choose
the same count and keys that are paired (past with future, `just_now` with itself),
except when the whole days are 7, 31 or 365 and the special case for the minute
threshold does not apply.  The results are the renderings of these choices. -/
theorem past_future_symmetry (host : Host) (locales : Locales) (options : Options)
    (n : Nat) (hn : 1 ≤ n)
    (hex : ¬ (minuteOverride (minuteThreshold options) (n / 60) = false ∧
      (n / 86400 = 7 ∨ n / 86400 = 31 ∨ n / 86400 = 365))) :
    ((choiceFor host options (options.now.getD host.clock - 1000 * (n : Int))).key,
        (choiceFor host options (options.now.getD host.clock + 1000 * (n : Int))).key)
        ∈ counterparts ∧
      (choiceFor host options (options.now.getD host.clock - 1000 * (n : Int))).count
        = (choiceFor host options (options.now.getD host.clock + 1000 * (n : Int))).count ∧
      humanizeDate host locales
          (.date (some (options.now.getD host.clock - 1000 * (n : Int)))) options
        = (choiceFor host options (options.now.getD host.clock - 1000 * (n : Int))).render
            (translationsFor locales options) ∧
      humanizeDate host locales
          (.date (some (options.now.getD host.clock + 1000 * (n : Int)))) options
        = (choiceFor host options (options.now.getD host.clock + 1000 * (n : Int))).render
            (translationsFor locales options) := by
  have hb : choiceFor host options (options.now.getD host.clock - 1000 * (n : Int))
      = choice (minuteThreshold options) (options.includeSeconds != some false) true n := by
    unfold choiceFor
    rw [diffSeconds_before]
    have h1 : decide (-(n : Int) < 0) = true := by
      simp only [decide_eq_true_eq]; omega
    rw [h1, Int.natAbs_neg, Int.natAbs_ofNat]
  have ha : choiceFor host options (options.now.getD host.clock + 1000 * (n : Int))
      = choice (minuteThreshold options) (options.includeSeconds != some false) false n := by
    unfold choiceFor
    rw [diffSeconds_after]
    have h1 : decide ((n : Int) < 0) = false := by
      simp only [decide_eq_false_iff_not]; omega
    rw [h1, Int.natAbs_ofNat]
  obtain ⟨h1, h2⟩ := choice_symmetry (minuteThreshold options)
    (options.includeSeconds != some false) n hn hex
  refine ⟨?_, ?_, humanizeDate_render host locales _ options _ rfl,
    humanizeDate_render host locales _ options _ rfl⟩
  · rw [hb, ha]; exact h1
  · rw [hb, ha]; exact h2

/-- C19, at the inputs of the specification: 86400 s before the reference gives
`yesterday` and 86400 s after it `tomorrow`; 300 s before gives `5 minutes ago` and
300 s after `in 5 minutes`. -/
theorem past_future_symmetry_witness :
    ((choiceFor exampleHost { now := some 0 } (0 - 1000 * ((86400 : Nat) : Int))).key,
        (choiceFor exampleHost { now := some 0 } (0 + 1000 * ((86400 : Nat) : Int))).key)
        ∈ counterparts ∧
      humanizeDate exampleHost initialLocales (.date (some (-86400000))) { now := some 0 }
        = .returned (.string "yesterday") ∧
      humanizeDate exampleHost initialLocales (.date (some 86400000)) { now := some 0 }
        = .returned (.string "tomorrow") ∧
      humanizeDate exampleHost initialLocales (.date (some (-300000))) { now := some 0 }
        = .returned (.string "5 minutes ago") ∧
      humanizeDate exampleHost initialLocales (.date (some 300000)) { now := some 0 }
        = .returned (.string "in 5 minutes") :=
  ⟨(past_future_symmetry exampleHost initialLocales { now := some 0 } 86400 (by decide)
      (by decide)).1,
    ((past_future_symmetry exampleHost initialLocales { now := some 0 } 86400 (by decide)
      (by decide)).2.2.1).trans (by decide),
    ((past_future_symmetry exampleHost initialLocales { now := some 0 } 86400 (by decide)
      (by decide)).2.2.2).trans (by decide),
    ((past_future_symmetry exampleHost initialLocales { now := some 0 } 300 (by decide)
      (by decide)).2.2.1).trans (by decide),
    ((past_future_symmetry exampleHost initialLocales { now := some 0 } 300 (by decide)
      (by decide)).2.2.2).trans (by decide)⟩

/-- The counts without a minute threshold, from 60 s on: 0 exactly in the two ranges of
whole days. -/
theorem choice_count_zero (inc past : Bool) (a : Nat) (h60 : 60 ≤ a) (c : Nat)
    (hc : (choice none inc past a).count = some c) :
    (c = 0 ↔ (a / 86400 = 28 ∨ a / 86400 = 29 ∨ (360 ≤ a / 86400 ∧ a / 86400 ≤ 364))) := by
  rcases choice_cases inc past a with
    ⟨hr, h⟩ | ⟨hr, h⟩ | ⟨hr, h⟩ | ⟨hr, h⟩ | ⟨hr, h⟩ | ⟨hr, h⟩ | ⟨hr, h⟩ | ⟨hr, h⟩ |
    ⟨hr, h⟩ | ⟨hr, h⟩ | ⟨hr, h⟩ | ⟨hr, h⟩ | ⟨hr, h⟩ | ⟨hr, h⟩ | ⟨hr, h⟩ <;>
  rw [h] at hc <;> simp only [Option.some.injEq] at hc <;>
  first
    | exact absurd hc (by simp)
    | omega

/-- C20. Without a minute threshold (the default options), for a difference of at least
60 s every count that is substituted is at least 1, except in two ranges where it is 0:
for 28 or 29 whole days the choice is the months template with count 0, and for 360 to
364 whole days it is the years template with count 0. -/
theorem zero_counts (host : Host) (locales : Locales) (date : JSValue)
    (options : Options) (time : Int) (d : Int)
    (hdate : toDate host date = .ok time)
    (hd : d = diffSeconds host options time)
    (hno : minuteThreshold options = none)
    (h60 : 60 ≤ d.natAbs) :
    humanizeDate host locales date options
        = (choiceFor host options time).render (translationsFor locales options) ∧
      (∀ c, (choiceFor host options time).count = some c →
        (1 ≤ c ∧ ¬ (d.natAbs / 86400 = 28 ∨ d.natAbs / 86400 = 29 ∨
            (360 ≤ d.natAbs / 86400 ∧ d.natAbs / 86400 ≤ 364))) ∨
        (c = 0 ∧ (d.natAbs / 86400 = 28 ∨ d.natAbs / 86400 = 29 ∨
            (360 ≤ d.natAbs / 86400 ∧ d.natAbs / 86400 ≤ 364)))) ∧
      (d.natAbs / 86400 = 28 ∨ d.natAbs / 86400 = 29 →
        choiceFor host options time
          = ⟨if d < 0 then "months_ago" else "in_months", some 0⟩) ∧
      (360 ≤ d.natAbs / 86400 ∧ d.natAbs / 86400 ≤ 364 →
        choiceFor host options time
          = ⟨if d < 0 then "years_ago" else "in_years", some 0⟩) := by
  subst hd
  refine ⟨humanizeDate_render host locales date options time hdate, ?_, ?_, ?_⟩
  · intro c hc
    rw [choiceFor_eq host options time hno] at hc
    have := choice_count_zero _ _ _ h60 c hc
    by_cases h0 : c = 0
    · exact Or.inr ⟨h0, this.1 h0⟩
    · exact Or.inl ⟨by omega, fun h => h0 (this.2 h)⟩
  · intro h
    rw [choiceFor_eq host options time hno,
      choice_generic _ _ _ (by omega) (fun _ => by omega), if_neg (by omega),
      if_pos (by omega), past_key]
    have : (diffSeconds host options time).natAbs / 2592000 = 0 := by omega
    rw [this]
  · intro h
    rw [choiceFor_eq host options time hno,
      choice_generic _ _ _ (by omega) (fun _ => by omega), if_neg (by omega),
      if_neg (by omega), past_key]
    have : (diffSeconds host options time).natAbs / 31536000 = 0 := by omega
    rw [this]

/-- C20, at inputs: 28 days before the reference gives `0 months ago`, 360 days after
it `in 0 years`, and 30 days before `1 months ago`. -/
theorem zero_counts_witness :
    humanizeDate exampleHost initialLocales (.date (some (-2419200000))) { now := some 0 }
        = .returned (.string "0 months ago") ∧
      humanizeDate exampleHost initialLocales (.date (some 31104000000)) { now := some 0 }
        = .returned (.string "in 0 years") ∧
      choiceFor exampleHost { now := some 0 } (-2592000000) = ⟨"months_ago", some 1⟩ := by
  have h1 := zero_counts exampleHost initialLocales (.date (some (-2419200000)))
    { now := some 0 } (-2419200000) (-2419200) rfl (by decide) rfl (by decide)
  have h2 := zero_counts exampleHost initialLocales (.date (some 31104000000))
    { now := some 0 } 31104000000 31104000 rfl (by decide) rfl (by decide)
  refine ⟨?_, ?_, by decide⟩
  · rw [h1.1, h1.2.2.1 (by decide)]; decide
  · rw [h2.1, h2.2.2.2 (by decide)]; decide

/-! ## The templates that are read -/

theorem key_mem_ite (l : List String) (c : Prop) [Decidable c] (x y : Choice)
    (hx : x.key ∈ l) (hy : y.key ∈ l) : (if c then x else y).key ∈ l := by
  split_ifs <;> assumption

/-- Every path through `humanizeDate` chooses one of the keys in `verbatimKeys` and
`countKeys`. -/
theorem choice_key_mem (minute : Option Int) (inc past : Bool) (a : Nat) :
    (choice minute inc past a).key ∈ verbatimKeys ++ countKeys := by
  unfold choice
  dsimp only
  cases past <;>
    repeat' first
      | apply key_mem_ite
      | simp [verbatimKeys, countKeys]

/-- The rendering of a choice reads the table under the chosen key only. -/
theorem render_congr (t1 t2 : Table) (c : Choice) (h : t1.lookup c.key = t2.lookup c.key) :
    c.render (.table t1) = c.render (.table t2) := by
  cases hc : c.count with
  | none => simp only [Choice.render, hc, returnTemplate, Table.get, h]
  | some n => simp only [Choice.render, hc, formatMessage, Table.get, h]

theorem lookup_alterProps (keys : List String) (v : String) (k : String) (hk : k ∉ keys) :
    ∀ ps : List (String × String), (alterProps keys v ps).lookup k = ps.lookup k := by
  intro ps
  induction ps with
  | nil => rfl
  | cons p ps ih =>
    obtain ⟨j, w⟩ := p
    by_cases hj : j ∈ keys
    · have e : alterProps keys v ((j, w) :: ps) = (j, v) :: alterProps keys v ps := by
        simp [alterProps, hj]
      have hkj : k ≠ j := fun h0 => hk (h0 ▸ hj)
      have h2 : (k == j) = false := by simpa using hkj
      rw [e]
      simp only [List.lookup, h2, ih]
    · have e : alterProps keys v ((j, w) :: ps) = (j, w) :: alterProps keys v ps := by
        simp [alterProps, hj]
      rw [e]
      by_cases hkj : k = j
      · subst hkj; simp [List.lookup]
      · have h2 : (k == j) = false := by simpa using hkj
        simp only [List.lookup, h2, ih]

theorem lookup_alterTable (keys : List String) (v : String) (k : String) (hk : k ∉ keys) :
    ∀ t : Table, (alterTable keys v t).lookup k = t.lookup k := by
  intro t
  simp only [Table.lookup, alterTable, lookup_alterProps keys v k hk]

/-- C21. The result of `humanizeDate` does not depend on the templates `in_week`,
`in_month` and `in_year`: two tables that agree on every other key give the same result
for every date and options, because these three keys are never chosen.  Without a
minute threshold, a target exactly 7 days after the reference gets `in_weeks` with
count 1, one 30 days after `in_months` with count 1 and one 365 days after `in_years`
with count 1. -/
theorem future_singular_unused (host : Host) (locales1 locales2 : Locales)
    (date : JSValue) (options : Options) (t1 t2 : Table)
    (h1 : translationsFor locales1 options = .table t1)
    (h2 : translationsFor locales2 options = .table t2)
    (hsame : ∀ k, k ∉ futureSingularKeys → t1.lookup k = t2.lookup k) :
    humanizeDate host locales1 date options = humanizeDate host locales2 date options ∧
      (∀ time, (choiceFor host options time).key ∉ futureSingularKeys) ∧
      (minuteThreshold options = none → ∀ time,
        (diffSeconds host options time = 604800 →
          choiceFor host options time = ⟨"in_weeks", some 1⟩) ∧
        (diffSeconds host options time = 2592000 →
          choiceFor host options time = ⟨"in_months", some 1⟩) ∧
        (diffSeconds host options time = 31536000 →
          choiceFor host options time = ⟨"in_years", some 1⟩)) := by
  have hkey : ∀ time, (choiceFor host options time).key ∉ futureSingularKeys := by
    intro time hmem
    have hused := choice_key_mem (minuteThreshold options)
      (options.includeSeconds != some false) (decide (diffSeconds host options time < 0))
      (diffSeconds host options time).natAbs
    have hdisj : ∀ k ∈ verbatimKeys ++ countKeys, k ∉ futureSingularKeys := by decide
    exact hdisj _ hused hmem
  refine ⟨?_, hkey, ?_⟩
  · cases hdate : toDate host date with
    | error e => rw [humanizeDate_error _ _ _ _ e hdate, humanizeDate_error _ _ _ _ e hdate]
    | ok time =>
      rw [humanizeDate_render _ _ _ _ time hdate, humanizeDate_render _ _ _ _ time hdate,
        h1, h2]
      exact render_congr t1 t2 _ (hsame _ (hkey time))
  · intro hno time
    rw [choiceFor_eq host options time hno]
    refine ⟨?_, ?_, ?_⟩
    · intro h
      rw [h]
      have hg := choice_generic (options.includeSeconds != some false) false 604800
        (by decide) (fun h0 => absurd h0 (by simp))
      exact hg.trans (by decide)
    · intro h
      rw [h]
      have hg := choice_generic (options.includeSeconds != some false) false 2592000
        (by decide) (fun h0 => absurd h0 (by simp))
      exact hg.trans (by decide)
    · intro h
      rw [h]
      have hg := choice_generic (options.includeSeconds != some false) false 31536000
        (by decide) (fun h0 => absurd h0 (by simp))
      exact hg.trans (by decide)

/-- C21, at inputs: after `en` has been registered again with other templates for
`in_week`, `in_month` and `in_year`, a date 7 days after the reference still gives
`in 1 weeks`, as in the initial registry. -/
theorem future_singular_unused_witness :
    enTableAltered.lookup "in_week" = some "soon" ∧
      translationsFor (addLocale initialLocales (.string "en") (.table enTableAltered)).2
          { now := some 0 } = .table enTableAltered ∧
      humanizeDate exampleHost initialLocales (.date (some 604800000)) { now := some 0 }
        = humanizeDate exampleHost
            (addLocale initialLocales (.string "en") (.table enTableAltered)).2
            (.date (some 604800000)) { now := some 0 } ∧
      humanizeDate exampleHost initialLocales (.date (some 604800000)) { now := some 0 }
        = .returned (.string "in 1 weeks") ∧
      humanizeDate exampleHost initialLocales (.date (some 2592000000)) { now := some 0 }
        = .returned (.string "in 1 months") ∧
      humanizeDate exampleHost initialLocales (.date (some 31536000000)) { now := some 0 }
        = .returned (.string "in 1 years") :=
  ⟨by decide, by decide,
    (future_singular_unused exampleHost initialLocales
      (addLocale initialLocales (.string "en") (.table enTableAltered)).2
      (.date (some 604800000)) { now := some 0 } enTable enTableAltered (by decide)
      (by decide)
      (fun k hk => (lookup_alterTable futureSingularKeys "soon" k hk enTable).symm)).1,
    by decide, by decide, by decide⟩

/-- C22 (counterexample). The offset 9460799999999001 ms is positive and not a multiple
of 1000.  For the reference 8640000000000000 and the target that far before it, both
valid time values, the exact difference is odd and above `2 ^ 53`, the subtraction
gives -9460799999999000, and `humanizeDate` works with `absDiff = floor(m / 1000)` where
the claim says `floor(m / 1000) + 1`: the result is `299999 years ago`, and with
`absDiff = floor(m / 1000) + 1` it would be `300000 years ago`.  For the target
9460799999999999 ms after the reference -820799999999999, `absDiff` is
`floor(m / 1000) + 1` where the claim says `floor(m / 1000)`. -/
theorem subsecond_rounding_counterexample :
    0 < (9460799999999001 : Nat) ∧ (9460799999999001 : Nat) % 1000 ≠ 0 ∧
      timeClip (.finite 8640000000000000 0) = some 8640000000000000 ∧
      timeClip (.finite (8640000000000000 - 9460799999999001) 0)
        = some (8640000000000000 - 9460799999999001) ∧
      diffSeconds exampleHost { now := some 8640000000000000 }
          (8640000000000000 - ((9460799999999001 : Nat) : Int))
        = -((9460799999999001 / 1000 : Nat) : Int) ∧
      (diffSeconds exampleHost { now := some 8640000000000000 }
          (8640000000000000 - ((9460799999999001 : Nat) : Int))).natAbs
        ≠ 9460799999999001 / 1000 + 1 ∧
      humanizeDate exampleHost initialLocales
          (.date (some (8640000000000000 - ((9460799999999001 : Nat) : Int))))
          { now := some 8640000000000000 }
        = .returned (.string "299999 years ago") ∧
      humanizeDiff (.table enTable) none true true (9460799999999001 / 1000 + 1)
        = .returned (.string "300000 years ago") ∧
      0 < (9460799999999999 : Nat) ∧ (9460799999999999 : Nat) % 1000 ≠ 0 ∧
      diffSeconds exampleHost { now := some (-820799999999999) }
          (-820799999999999 + ((9460799999999999 : Nat) : Int))
        = ((9460799999999999 / 1000 + 1 : Nat) : Int) := by
  refine ⟨by decide, by decide, by decide, by decide, by decide, by decide, by decide,
    by decide, by decide, by decide, by decide⟩

/-- C22 (amended). For a reference `r` and an offset of `m` milliseconds that is
positive, not a multiple of 1000, and a double (at most `2 ^ 53 = 9007199254740992`, or
even and below `2 ^ 54 = 18014398509481984`): for the target `r - m` the difference in
seconds is `-(floor(m / 1000) + 1)`, so `humanizeDate` works with
`absDiff = floor(m / 1000) + 1` and `isPast`; for the target `r + m` it is
`floor(m / 1000)`, so `humanizeDate` works with `absDiff = floor(m / 1000)`. -/
theorem subsecond_rounding (host : Host) (locales : Locales) (options : Options)
    (m : Nat) (hpos : 0 < m) (hrem : m % 1000 ≠ 0)
    (hle : m ≤ 9007199254740992 ∨ (m % 2 = 0 ∧ m < 18014398509481984)) :
    diffSeconds host options (options.now.getD host.clock - (m : Int))
        = -((m / 1000 + 1 : Nat) : Int) ∧
      (diffSeconds host options (options.now.getD host.clock - (m : Int))).natAbs
        = m / 1000 + 1 ∧
      diffSeconds host options (options.now.getD host.clock + (m : Int))
        = ((m / 1000 : Nat) : Int) ∧
      humanizeDate host locales (.date (some (options.now.getD host.clock - (m : Int))))
          options
        = humanizeDiff (translationsFor locales options) (minuteThreshold options)
            (options.includeSeconds != some false) true (m / 1000 + 1) ∧
      humanizeDate host locales (.date (some (options.now.getD host.clock + (m : Int))))
          options
        = humanizeDiff (translationsFor locales options) (minuteThreshold options)
            (options.includeSeconds != some false) false (m / 1000) := by
  have hb : diffSeconds host options (options.now.getD host.clock - (m : Int))
      = -((m / 1000 + 1 : Nat) : Int) := by
    unfold diffSeconds
    have hx : roundToDouble (options.now.getD host.clock - (m : Int)
        - options.now.getD host.clock)
        = options.now.getD host.clock - (m : Int) - options.now.getD host.clock := by
      rcases hle with h | h
      · exact roundToDouble_of_le _ (by omega)
      · exact roundToDouble_of_even _ (by omega)
    rw [hx]
    omega
  have ha : diffSeconds host options (options.now.getD host.clock + (m : Int))
      = ((m / 1000 : Nat) : Int) := by
    unfold diffSeconds
    have hx : roundToDouble (options.now.getD host.clock + (m : Int)
        - options.now.getD host.clock)
        = options.now.getD host.clock + (m : Int) - options.now.getD host.clock := by
      rcases hle with h | h
      · exact roundToDouble_of_le _ (by omega)
      · exact roundToDouble_of_even _ (by omega)
    rw [hx]
    omega
  refine ⟨hb, ?_, ha, ?_, ?_⟩
  · rw [hb, Int.natAbs_neg, Int.natAbs_ofNat]
  · rw [humanizeDate_ok host locales
      (.date (some (options.now.getD host.clock - (m : Int)))) options
      (options.now.getD host.clock - (m : Int)) rfl, hb, Int.natAbs_neg, Int.natAbs_ofNat]
    have h1 : decide (-((m / 1000 + 1 : Nat) : Int) < 0) = true := by
      simp only [decide_eq_true_eq]; omega
    rw [h1]
  · rw [humanizeDate_ok host locales
      (.date (some (options.now.getD host.clock + (m : Int)))) options
      (options.now.getD host.clock + (m : Int)) rfl, ha, Int.natAbs_ofNat]
    have h1 : decide (((m / 1000 : Nat) : Int) < 0) = false := by
      simp only [decide_eq_false_iff_not]; omega
    rw [h1]

/-- C22, at the inputs of the claim: 4001 ms before the reference gives
`5 seconds ago` and 4001 ms after it `just now`; 59001 ms before gives `a minute ago`
and 59001 ms after `in 59 seconds`. -/
theorem subsecond_rounding_witness :
    humanizeDate exampleHost initialLocales (.date (some (-4001))) { now := some 0 }
        = .returned (.string "5 seconds ago") ∧
      humanizeDate exampleHost initialLocales (.date (some 4001)) { now := some 0 }
        = .returned (.string "just now") ∧
      humanizeDate exampleHost initialLocales (.date (some (-59001))) { now := some 0 }
        = .returned (.string "a minute ago") ∧
      humanizeDate exampleHost initialLocales (.date (some 59001)) { now := some 0 }
        = .returned (.string "in 59 seconds") :=
  ⟨((subsecond_rounding exampleHost initialLocales { now := some 0 } 4001 (by decide)
      (by decide) (Or.inl (by decide))).2.2.2.1).trans (by decide),
    ((subsecond_rounding exampleHost initialLocales { now := some 0 } 4001 (by decide)
      (by decide) (Or.inl (by decide))).2.2.2.2).trans (by decide),
    ((subsecond_rounding exampleHost initialLocales { now := some 0 } 59001 (by decide)
      (by decide) (Or.inl (by decide))).2.2.2.1).trans (by decide),
    ((subsecond_rounding exampleHost initialLocales { now := some 0 } 59001 (by decide)
      (by decide) (Or.inl (by decide))).2.2.2.2).trans (by decide)⟩

end DateHumanizer
